import Mathlib

/-!
# Verification of the `accessible-menu` widget (src/index.js, src/mobile-menu-controller.js)

Shallow embedding of the DOM data model and of the operations of the
accessible-menu repository.  The DOM is modelled as a rose tree of elements;
an element reference ("node identity") is the address (path of child indices)
of the element in the tree, mutation (`setAttribute`, `classList.add`, ...)
is functional update at an address.  `querySelectorAll` returns addresses in
pre-order, which is exactly DOM document order; `closest` walks the prefixes
of an address, longest (innermost) first.  Event listener registration is
modelled as an explicit list of (target, event-type, handler-identity)
entries; a fresh identity is drawn each time the source calls `.bind(this)`,
reflecting that `Function.prototype.bind` returns a new function object.

All definitions are transcribed from the JavaScript source; comments cite
the function they embed.
-/

namespace AccMenu

/-- A DOM element: tag name (lower case), class list, attribute list,
own text content, a visibility oracle (the result `checkVisibility` would
report for this element), and the list of child elements in document order. -/
inductive Elem where
  | node (tag : String) (classes : List String) (attrs : List (String × String))
      (text : String) (visible : Bool) (children : List Elem)

namespace Elem

def tag : Elem → String | node t _ _ _ _ _ => t

def classes : Elem → List String | node _ c _ _ _ _ => c

def attrs : Elem → List (String × String) | node _ _ a _ _ _ => a

def text : Elem → String | node _ _ _ x _ _ => x

def visible : Elem → Bool | node _ _ _ _ v _ => v

def children : Elem → List Elem | node _ _ _ _ _ ch => ch

end Elem

/-! Decidable equality of documents, by mutual structural recursion (the
automatic derivation does not handle the nested recursion). -/
mutual
def elemDecEq : (a b : Elem) → Decidable (a = b)
  | .node t1 c1 a1 x1 v1 ch1, .node t2 c2 a2 x2 v2 ch2 =>
    if h1 : t1 = t2 then
      if h2 : c1 = c2 then
        if h3 : a1 = a2 then
          if h4 : x1 = x2 then
            if h5 : v1 = v2 then
              match elemListDecEq ch1 ch2 with
              | isTrue h6 => isTrue (by rw [h1, h2, h3, h4, h5, h6])
              | isFalse h6 => isFalse (by intro hh; injection hh; contradiction)
            else isFalse (by intro hh; injection hh; contradiction)
          else isFalse (by intro hh; injection hh; contradiction)
        else isFalse (by intro hh; injection hh; contradiction)
      else isFalse (by intro hh; injection hh; contradiction)
    else isFalse (by intro hh; injection hh; contradiction)
def elemListDecEq : (a b : List Elem) → Decidable (a = b)
  | [], [] => isTrue rfl
  | [], _ :: _ => isFalse (by intro h; cases h)
  | _ :: _, [] => isFalse (by intro h; cases h)
  | x :: xs, y :: ys =>
    match elemDecEq x y, elemListDecEq xs ys with
    | isTrue h1, isTrue h2 => isTrue (by rw [h1, h2])
    | isFalse h1, _ => isFalse (by intro hh; injection hh; contradiction)
    | _, isFalse h2 => isFalse (by intro hh; injection hh; contradiction)
end

instance instDecEqElem : DecidableEq Elem := elemDecEq

/-- `getAttribute`: first binding of the key in the attribute list. -/
def getAttrL : List (String × String) → String → Option String
  | [], _ => none
  | (k', v') :: rest, k => if k' = k then some v' else getAttrL rest k

/-- `setAttribute`: overwrite in place, append if absent. -/
def setAttrL : List (String × String) → String → String → List (String × String)
  | [], k, v => [(k, v)]
  | (k', v') :: rest, k, v =>
      if k' = k then (k, v) :: rest else (k', v') :: setAttrL rest k v

/-- `classList.contains`. -/
def hasClass (e : Elem) (c : String) : Bool := e.classes.contains c

/-- `classList.add`: appends if absent (idempotent, like the DOM token list). -/
def addClassL (l : List String) (c : String) : List String :=
  if l.contains c then l else l ++ [c]

/-- An address in the DOM tree: the path of child indices from the root. -/
abbrev Addr := List Nat

/-- The element at an address (if any). -/
def getAt : Elem → Addr → Option Elem
  | e, [] => some e
  | e, i :: rest => e.children[i]?.bind fun c => getAt c rest

/-- Apply `f` to the element stored at an address; identity on invalid
addresses.  The subtree returned by `f` replaces the old subtree, which is
how attribute mutation on one node leaves every other node intact. -/
def modifyAt (f : Elem → Elem) : Elem → Addr → Elem
  | e, [] => f e
  | .node t cls a x v ch, i :: rest =>
      match ch[i]? with
      | some c => .node t cls a x v (ch.set i (modifyAt f c rest))
      | none => .node t cls a x v ch

/-- `element.setAttribute(k, v)` at an address. -/
def setAttrAt (root : Elem) (a : Addr) (k v : String) : Elem :=
  modifyAt (fun e => .node e.tag e.classes (setAttrL e.attrs k v) e.text e.visible e.children)
    root a

/-- `element.classList.add(c)` at an address. -/
def addClassAt (root : Elem) (a : Addr) (c : String) : Elem :=
  modifyAt (fun e => .node e.tag (addClassL e.classes c) e.attrs e.text e.visible e.children)
    root a

/-- Read an attribute of the element at an address. -/
def attrAt (root : Elem) (a : Addr) (k : String) : Option String :=
  match getAt root a with
  | some e => getAttrL e.attrs k
  | none => none

def tagAt (root : Elem) (a : Addr) : Option String := (getAt root a).map Elem.tag

def hasClassAt (root : Elem) (a : Addr) (c : String) : Bool :=
  match getAt root a with
  | some e => hasClass e c
  | none => false

/-- The node-local observation of the element at an address: everything
except the subtrees below it. -/
def obs (root : Elem) (a : Addr) :
    Option (String × List String × List (String × String) × String × Bool) :=
  (getAt root a).map fun e => (e.tag, e.classes, e.attrs, e.text, e.visible)

/-- A node-local mutator: it rewrites the data of a node but keeps the
child subtrees untouched (all DOM attribute/class writes are of this kind). -/
def ElemLocal (f : Elem → Elem) : Prop := ∀ e : Elem, (f e).children = e.children

/-! ### Pre-order traversal and selector primitives -/
/-! Addresses of the strict descendants of an element / of the nodes of a
sibling list (whose first node has index `k`), in document order.
`descAddrs` is the element-level `querySelectorAll` universe: pre-order is
document order. -/
mutual
def descAddrsE : Elem → List Addr
  | .node _ _ _ _ _ ch => descAddrsAux ch 0

def descAddrsAux : List Elem → Nat → List Addr
  | [], _ => []
  | c :: cs, i =>
      ([i] :: (descAddrsE c).map (i :: ·)) ++ descAddrsAux cs (i + 1)
end

/-- Addresses of all strict descendants of an element, in document order. -/
def descAddrs (e : Elem) : List Addr := descAddrsE e

def bumpHead : Addr → Addr
  | [] => []
  | i :: r => (i + 1) :: r

/-- `querySelectorAll` scoped at `base`: all strict-descendant addresses
(absolute) whose element matches the predicate, in document order. -/
def matchAddrs (root : Elem) (base : Addr) (p : Elem → Bool) : List Addr :=
  match getAt root base with
  | some e =>
      ((descAddrs e).filter fun r => ((getAt e r).map p).getD false).map (base ++ ·)
  | none => []

/-- `querySelector`: first match in document order. -/
def querySelFirst (root : Elem) (base : Addr) (p : Elem → Bool) : Option Addr :=
  (matchAddrs root base p).head?

/-- `element.closest(sel)` with the selector compiled to an address
predicate: tries the element itself, then each ancestor, innermost first
(the prefixes of the address, longest first). -/
def closestBy (p : Addr → Bool) (a : Addr) : Option Addr :=
  (((List.range (a.length + 1)).map fun k => a.take k).reverse).find? p

/-- The address of the following sibling (regardless of existence). -/
def nextSibAddr : Addr → Option Addr
  | [] => none
  | [i] => some [i + 1]
  | i :: rest => (nextSibAddr rest).map (i :: ·)

/-- `element.nextElementSibling`: `none` is JavaScript `null`. -/
def nextElemSib (root : Elem) (a : Addr) : Option Addr :=
  (nextSibAddr a).bind fun s => if (getAt root s).isSome then some s else none

/-- `document.getElementById`: first element in document order whose `id`
attribute is the given string. -/
def byId (root : Elem) (s : String) : Option Addr :=
  querySelFirst root [] fun e => getAttrL e.attrs "id" == some s

/-- `list.forEach(el => el.setAttribute(k, v))`. -/
def foldSetAttr (root : Elem) (L : List Addr) (k v : String) : Elem :=
  L.foldl (fun d a => setAttrAt d a k v) root

/-! ### Tree Annotator (`setMenuDepthAttributes` / `setDepthRecursively`,
src/index.js lines 101-126) -/
/-- Matches the list half of the selectors `:scope > .menu, :scope > ul`
and `... > .menu, ... > ul`. -/
def isListSel (e : Elem) : Bool := hasClass e "menu" || e.tag == "ul"

/-- Matches `.menu__item` (`config.itemClass`). -/
def isItemSel (e : Elem) : Bool := hasClass e "menu__item"

mutual
/-- `setDepthRecursively(menuElement, depth)`: sets `data-depth` on the
element, then recurses into every direct child of class `menu__item` and,
inside it, every direct child matching `.menu, ul`
(`querySelectorAll(':scope > .menu__item > .menu, :scope > .menu__item > ul')`). -/
def setDepthRecursively : Elem → Nat → Elem
  | .node t cls a x v ch, depth =>
      .node t cls (setAttrL a "data-depth" (toString depth)) x v (sdrChildren ch depth)

/-- Direct children of the annotated list: only `.menu__item` children are
descended into. -/
def sdrChildren : List Elem → Nat → List Elem
  | [], _ => []
  | c :: cs, depth => sdrItem c depth :: sdrChildren cs depth

/-- One direct child: a `.menu__item` has its own direct children scanned
for nested lists; any other child is left untouched. -/
def sdrItem : Elem → Nat → Elem
  | .node t cls a x v ch, depth =>
      if (Elem.node t cls a x v ch).classes.contains "menu__item" then
        .node t cls a x v (sdrSubs ch depth)
      else .node t cls a x v ch

/-- Direct children of a `.menu__item`: nested lists (`.menu` or `ul`) are
annotated at depth + 1, everything else is untouched. -/
def sdrSubs : List Elem → Nat → List Elem
  | [], _ => []
  | c :: cs, depth =>
      (if isListSel c then setDepthRecursively c (depth + 1) else c) :: sdrSubs cs depth
end

/-- `menuContainer.querySelector(':scope > .menu, :scope > ul')`: index of
the first direct child that is a list. -/
def findTopIdxAux : List Elem → Nat → Option Nat
  | [], _ => none
  | c :: cs, k => if isListSel c then some k else findTopIdxAux cs (k + 1)

def findTopIdx (e : Elem) : Option Nat := findTopIdxAux e.children 0

/-- `setMenuDepthAttributes(menuContainer)` (src/index.js lines 101-108). -/
def setMenuDepthAttributes (menuContainer : Elem) : Elem :=
  match findTopIdx menuContainer with
  | some i => modifyAt (fun e => setDepthRecursively e 0) menuContainer [i]
  | none => menuContainer

/-- The structural chains along which the annotator descends: alternating
(`.menu__item` direct child, nested-list direct child) steps. -/
def chainPath : Elem → Addr → Bool
  | _, [] => true
  | _, [_] => false
  | e, i :: j :: rest =>
      match e.children[i]? with
      | some item =>
          isItemSel item &&
            match item.children[j]? with
            | some sub => isListSel sub && chainPath sub rest
            | none => false
      | none => false

/-! ### Control Binder (`attachControlsToElements` / `attachAriaControls`,
src/index.js lines 79-175) -/
/-- `DEFAULT_CONFIG.controllerTags`. -/
def controllerTags : List String := ["button", "span"]

/-- `isController(element)` (src/index.js 133-135):
`controllerTags.includes(element.tagName.toLowerCase())`. -/
def isController (e : Elem) : Bool := controllerTags.contains e.tag

/-- The controller selector built in `attachAriaControls` (lines 87-90):
`:scope button.menu__link, :scope span.menu__link`. -/
def isCtrlSel (e : Elem) : Bool := controllerTags.contains e.tag && hasClass e "menu__link"

mutual
/-- `element.textContent`: concatenation of all text in the subtree. -/
def textContent : Elem → String
  | .node _ _ _ x _ ch => x ++ textContentList ch

def textContentList : List Elem → String
  | [] => ""
  | c :: cs => textContent c ++ textContentList cs
end

/-- JavaScript `String.prototype.trim`: strip leading and trailing
whitespace (modelled over the character list). -/
def jsTrim (s : String) : String :=
  ⟨((s.data.dropWhile fun c =>
      c == ' ' || c == '\t' || c == '\n' || c == '\r').reverse.dropWhile fun c =>
      c == ' ' || c == '\t' || c == '\n' || c == '\r').reverse⟩

/-- Helper of `attachControlsToElements`: the attribute writes performed on
one element with resolved plugin id `id` (src/index.js lines 152-173).  The
controller branch marks the popup and, when a following sibling exists,
links controller and submenu; the non-controller branch links only
`data-menu-controls` and propagates it onto a nested `.menu`. -/
def attachOneBind (d : Elem) (a : Addr) (el : Elem) (id : String) (n : Nat) :
    Elem × Nat :=
  match nextElemSib d a with
  | some s =>
      if isController el then
        (setAttrAt (setAttrAt (setAttrAt (setAttrAt (setAttrAt d
            a "aria-haspopup" "true")
            s "id" ("panel-" ++ id))
            a "aria-controls" ("panel-" ++ id))
            a "data-menu-controls" ("panel-" ++ id))
            a "aria-label" (jsTrim (textContent el)), n)
      else
        let d2 := setAttrAt (setAttrAt d s "id" ("panel-" ++ id))
          a "data-menu-controls" ("panel-" ++ id)
        match querySelFirst d2 s (fun e => hasClass e "menu") with
        | some nm => (setAttrAt d2 nm "data-menu-controls" ("panel-" ++ id), n)
        | none => (d2, n)
  | none =>
      if isController el then (setAttrAt d a "aria-haspopup" "true", n) else (d, n)

/-- The id-generation step: `id = menu-<random>` is modelled with a counter
supply in place of `Math.floor(Math.random() * 10000)`; every property
proved below is independent of the drawn value. -/
def attachOneGen (root : Elem) (a : Addr) (el : Elem) (n : Nat) : Elem × Nat :=
  attachOneBind (setAttrAt root a "data-plugin-id" ("menu-" ++ toString n)) a el
    ("menu-" ++ toString n) (n + 1)

/-- One iteration of the `elements.forEach` in `attachControlsToElements`
(src/index.js lines 142-174).  `getAttribute` returning `null` (attribute
absent) and the empty string are both JavaScript-falsy, triggering id
generation. -/
def attachOne (root : Elem) (a : Addr) (n : Nat) : Elem × Nat :=
  match getAt root a with
  | none => (root, n)
  | some el =>
      match getAttrL el.attrs "data-plugin-id" with
      | some s => if s = "" then attachOneGen root a el n else attachOneBind root a el s n
      | none => attachOneGen root a el n

/-- `attachControlsToElements(elements)` over a snapshot list of element
addresses (the `querySelectorAll` result), in document order. -/
def attachControlsToElements (root : Elem) (as : List Addr) (n : Nat) : Elem × Nat :=
  as.foldl (fun st a => attachOne st.1 a st.2) (root, n)

/-- The `once(id, selector, context)` utility (src/index.js lines 8-19):
returns the matched elements that do not yet carry `data-once-<id>` and
marks them. -/
def onceRun (root : Elem) (idStr : String) (p : Elem → Bool) :
    List Addr × Elem :=
  let matched := matchAddrs root [] p
  let fresh := matched.filter fun a =>
    !(attrAt root a ("data-once-" ++ idStr)).isSome
  (fresh, foldSetAttr root fresh ("data-once-" ++ idStr) "true")

/-- The container selector `DEFAULT_CONFIG.menuSelector = '.c-menu'`. -/
def isMenuContainer (e : Elem) : Bool := hasClass e "c-menu"

/-- `attachAriaControls(context)` (src/index.js lines 79-95): for each
once-fresh container, annotate depths and bind every controller element. -/
def attachAriaControls (root : Elem) (n : Nat) : Elem × Nat :=
  let (menus, d0) := onceRun root "ariaControls" isMenuContainer
  menus.foldl
    (fun st m =>
      let d1 := modifyAt setMenuDepthAttributes st.1 m
      let ctrls := matchAddrs d1 m isCtrlSel
      attachControlsToElements d1 ctrls st.2)
    (d0, n)

/-- The post-binding contract of one Controller `a` with adjacent sibling
`s` (the conclusion of spec §8, bullet 2). -/
def boundOK (d : Elem) (a s : Addr) : Prop :=
  attrAt d a "aria-haspopup" = some "true" ∧
  ∃ pid, attrAt d a "data-plugin-id" = some pid ∧
    attrAt d a "aria-controls" = some ("panel-" ++ pid) ∧
    attrAt d a "data-menu-controls" = some ("panel-" ++ pid) ∧
    attrAt d s "id" = some ("panel-" ++ pid)

/-! ### Navigation Engine (`MenuLinks` / `MenuButton`, src/index.js lines
344-1147).  Handlers return the mutated document together with the new
focus target (if the handler called `.focus()`); an outer `Option` whose
`none` models a thrown JavaScript exception (a `TypeError` from
dereferencing `null`/`undefined`). -/
/-- Lift an element predicate to an address predicate over a fixed root. -/
def elemPredAt (root : Elem) (p : Elem → Bool) : Addr → Bool := fun q =>
  ((getAt root q).map p).getD false

/-- `ul[data-depth]`. -/
def ulDepthSel (e : Elem) : Bool :=
  e.tag == "ul" && (getAttrL e.attrs "data-depth").isSome

/-- `ul[data-depth="0"]`. -/
def ulDepth0Sel (e : Elem) : Bool :=
  e.tag == "ul" && getAttrL e.attrs "data-depth" == some "0"

/-- `.menu__link` (`config.linkClass`). -/
def linkClassSel (e : Elem) : Bool := hasClass e "menu__link"

/-- `[aria-expanded="true"]`. -/
def expandedAttr (e : Elem) : Bool := getAttrL e.attrs "aria-expanded" == some "true"

/-- Numeric parse of an attribute string (the digits-only fragment of
`parseInt` that the depth attributes use), over the character list. -/
def jsParseNat (s : String) : Option Nat :=
  if s.data ≠ [] ∧ s.data.all Char.isDigit then
    some (s.data.foldl (fun a c => a * 10 + (c.toNat - 48)) 0)
  else none

/-- parseInt of a depth attribute: `none` models `NaN`. -/
def depthAt (root : Elem) (p : Addr) : Option Nat :=
  (attrAt root p "data-depth").bind jsParseNat

/-- The address of the preceding sibling, for the `A + B` adjacent-sibling
combinator. -/
def prevSibAddr : Addr → Option Addr
  | [] => none
  | [0] => none
  | [Nat.succ i] => some [i]
  | i :: rest => (prevSibAddr rest).map (i :: ·)

/-- All element children of the node at `pm` (`parentMenu.children`). -/
def childAddrs (root : Elem) (pm : Addr) : List Addr :=
  match getAt root pm with
  | some e => (List.range e.children.length).map fun i => pm ++ [i]
  | none => []

/-- `Array.prototype.indexOf`: `-1` when absent. -/
def jsIndexOf (l : List Addr) (x : Addr) : Int :=
  match l.indexOf? x with
  | some i => (i : Int)
  | none => -1

/-- `getNextItem` (src/index.js 813-815): circular successor. -/
def getNextItemJS (l : List Addr) (i : Int) : Option Addr :=
  if i == (l.length : Int) - 1 then l[0]? else l[(i + 1).toNat]?

/-- `getPreviousItem` (src/index.js 826-828): circular predecessor;
an index `≤ -1` produces `undefined` (`none`). -/
def getPreviousItemJS (l : List Addr) (i : Int) : Option Addr :=
  if i == 0 then l[l.length - 1]?
  else if 0 < i then l[(i - 1).toNat]? else none

/-- `handleUpArrow` (src/index.js 452-458): previous entry of the
construction-time `menuitemNodes` snapshot, wrapping from the first to the
last; no focus change when the lookup yields nothing. -/
def handleUpArrow (nodes : List Addr) (target : Addr) : Option Addr :=
  getPreviousItemJS nodes (jsIndexOf nodes target)

/-- The selector
`button.menu__link[aria-expanded="true"] + ul, ... + .menu, span...`
compiled to an address predicate (the open-popup list). -/
def openPopupListPred (root : Elem) (q : Addr) : Bool :=
  (((getAt root q).map fun e => e.tag == "ul" || hasClass e "menu").getD false) &&
  (match prevSibAddr q with
   | some pq =>
       match getAt root pq with
       | some pe => controllerTags.contains pe.tag && hasClass pe "menu__link" &&
           expandedAttr pe
       | none => false
   | none => false)

/-- `.menu__link:is(a[href], button, span)` — the focusable-element
selector of `getFocusableElements`. -/
def focusableSel (e : Elem) : Bool :=
  hasClass e "menu__link" &&
    ((e.tag == "a" && (getAttrL e.attrs "href").isSome) ||
      e.tag == "button" || e.tag == "span")

/-- `getFocusableElements(menu)` (src/index.js 847-860).  `cv` says whether
the host provides `Element.checkVisibility`; when it does not, the filter
callback falls off the end and returns `undefined` (falsy), so every
element is dropped — there is no fallback check despite the comment in the
source. -/
def getFocusableElements (root : Elem) (menu : Option Addr) (cv : Bool) :
    List Addr :=
  match menu with
  | none => []
  | some m =>
      (matchAddrs root m focusableSel).filter fun q =>
        cv && (((getAt root q).map Elem.visible).getD false)

/-- JavaScript `parentMenu.dataset.depth && parentMenu.dataset.depth > 0`:
`undefined` and `""` are falsy; otherwise the string is compared
numerically (`"0" > 0` is false, a non-numeric string yields `NaN`, also
false). -/
def jsTruthyDepthGt0 (o : Option String) : Bool :=
  match o with
  | none => false
  | some s =>
      if s = "" then false
      else match jsParseNat s with
        | some n => 0 < n
        | none => false

/-- The `menuDepth` computation at the head of `handleDownArrow`
(src/index.js 472-486): depth of the closest `ul[data-depth]` (0 when
none), overridden by an enclosing mega-menu wrapper's own depth. -/
def downArrowMenuDepth (root : Elem) (target : Addr) : Option Nat :=
  let parentMenu := closestBy (elemPredAt root ulDepthSel) target
  let menuDepth : Option Nat :=
    match parentMenu with
    | some pm => depthAt root pm
    | none => some 0
  match closestBy (elemPredAt root fun e => hasClass e "c-mega-menu") target with
  | some mm =>
      match attrAt root mm "data-depth" with
      | some ds => if ds = "" then menuDepth else jsParseNat ds
      | none => menuDepth
  | none => menuDepth

/-- `handleDownArrow(target)` (src/index.js 470-506): same-level downward
movement inside the innermost open popup, wrapping to the first visible
focusable element.  Pure focus computation, no attribute writes. -/
def handleDownArrow (root : Elem) (target : Addr) (cv : Bool) : Option Addr :=
  if downArrowMenuDepth root target == some 0 && tagAt root target == some "a" then none
  else
    let rootMenu := closestBy (openPopupListPred root) target
    let L := getFocusableElements root rootMenu cv
    if 0 < L.length && L.contains target then
      let index := (jsIndexOf L target).toNat
      some (if index + 1 < L.length then L[index + 1]? |>.getD target
        else L[0]? |>.getD target)
    else none

/-- `handleEscape` of MenuLinks (src/index.js 575-585): close the menu the
item lives in via its `data-menu-controls` owner and focus that owner. -/
def handleEscapeML (root : Elem) (dn : Addr) : Elem × Option Addr :=
  match closestBy (elemPredAt root fun e => e.tag == "ul") dn with
  | none => (root, none)
  | some mn =>
      match attrAt root mn "id" with
      | some idv =>
          if idv = "" then (root, none)
          else
            match querySelFirst root [] (fun e =>
                getAttrL e.attrs "data-menu-controls" == some idv) with
            | some btn => (setAttrAt root btn "aria-expanded" "false", some btn)
            | none => (root, none)
      | none => (root, none)

/-- `closeAllButtons(menuContainer)` of MenuLinks (src/index.js 778-802):
close every expanded controller in the container except `dn`; a missing
container or a mobile viewport is a no-op. -/
def closeAllButtons (root : Elem) (mc : Option Addr) (dn : Addr) (mobile : Bool) :
    Elem :=
  match mc with
  | none => root
  | some mcA =>
      if mobile then root
      else
        let L := (matchAddrs root mcA fun e =>
          (controllerTags.contains e.tag && hasClass e "menu__link" && expandedAttr e) ||
            (controllerTags.contains e.tag && expandedAttr e)).filter (· ≠ dn)
        foldSetAttr root L "aria-expanded" "false"

/-- `getTopLevelMenuItems` (src/index.js 714-729), split into the top-menu
lookup (`[data-depth="0"]`, falling back to the first `ul`) ... -/
def getTopLevelMenu (root : Elem) (mcA : Addr) : Option Addr :=
  match querySelFirst root mcA (fun e => getAttrL e.attrs "data-depth" == some "0") with
  | some t => some t
  | none => querySelFirst root mcA fun e => e.tag == "ul"

/-- ... and the item collection filtered to items whose closest
`ul[data-depth]` is the depth-0 list. -/
def getTopLevelMenuItems (root : Elem) (mcA : Addr) : Option (List Addr) :=
  match getTopLevelMenu root mcA with
  | none => none
  | some tm =>
      some ((matchAddrs root tm fun e => hasClass e "menu__item").filter fun it =>
        match closestBy (elemPredAt root ulDepthSel) it with
        | some pu => attrAt root pu "data-depth" == some "0"
        | none => false)

/-- `MenuButton.isOpen` (src/index.js 1044-1046). -/
def isOpen (root : Elem) (b : Addr) : Bool :=
  attrAt root b "aria-expanded" == some "true"

/-- `MenuButton.closePopup` (src/index.js 1068-1070). -/
def closePopup (root : Elem) (b : Addr) : Elem :=
  setAttrAt root b "aria-expanded" "false"

/-- The MenuButton instance's resolved submenu `this.menuNode`
(src/index.js 876-877): the `data-menu-controls` target by id, or `null`.
Attributes relevant to it never change after binding, so recomputing it is
equivalent to the construction-time snapshot. -/
def menuNodeOf (root : Elem) (b : Addr) : Option Addr :=
  (attrAt root b "data-menu-controls").bind fun cid => byId root cid

/-- `MenuButton.closeAll` (src/index.js 1078-1124).  `none` models the
`TypeError` thrown when `closest(menuSelector)` yields `null`. -/
def closeAllB (root : Elem) (b : Addr) : Option Elem :=
  match closestBy (elemPredAt root isMenuContainer) b with
  | none => none
  | some mc =>
      let parentMenu := closestBy (elemPredAt root ulDepthSel) b
      let depth0 : Bool :=
        match parentMenu with
        | some pm => depthAt root pm == some 0
        | none => true
      if depth0 then
        match querySelFirst root mc ulDepth0Sel with
        | none => some root
        | some tl =>
            let L := (matchAddrs root tl fun e =>
              controllerTags.contains e.tag && hasClass e "menu__link" &&
                expandedAttr e).filter (· ≠ b)
            some (foldSetAttr root L "aria-expanded" "false")
      else
        match parentMenu with
        | none => some root
        | some pm =>
            -- sibling buttons: `:scope > .menu__item > button.menu__link[aria-expanded="true"]`
            let sibs := ((matchAddrs root pm fun e =>
              e.tag == "button" && hasClass e "menu__link" && expandedAttr e).filter
                fun q =>
                  match q.drop pm.length with
                  | [_, _] =>
                      match getAt root (q.dropLast) with
                      | some item => hasClass item "menu__item"
                      | none => false
                  | _ => false).filter (· ≠ b)
            let d1 := foldSetAttr root sibs "aria-expanded" "false"
            -- deeper buttons: `ul[data-depth]:not([data-depth="${currentDepth}"]) button...`
            let cur := attrAt root pm "data-depth"
            let deepers := (matchAddrs d1 mc fun e =>
              e.tag == "button" && hasClass e "menu__link" && expandedAttr e).filter
                fun q => decide (∃ p ∈ properPrefixes q,
                  (((getAt d1 p).map fun e =>
                    e.tag == "ul" && (getAttrL e.attrs "data-depth").isSome &&
                      !(getAttrL e.attrs "data-depth" ==
                        some (jsNumToString cur))).getD false) = true)
            if (menuNodeOf root b).isSome then some d1
            else some (foldSetAttr d1 deepers "aria-expanded" "false")
where
  /-- all proper prefixes of an address (the ancestors). -/
  properPrefixes (q : Addr) : List Addr :=
    (List.range q.length).map fun k => q.take k
  /-- the template interpolation `${currentDepth}` where `currentDepth` is
  `parseInt(...)`: a numeric string renders back, `NaN` renders "NaN". -/
  jsNumToString (o : Option String) : String :=
    match o with
    | some s => match jsParseNat s with
      | some n => toString n
      | none => "NaN"
    | none => "NaN"

/-- `MenuButton.openPopup` (src/index.js 1054-1060). -/
def openPopup (root : Elem) (b : Addr) (mobile : Bool) : Option Elem :=
  if mobile then some (setAttrAt root b "aria-expanded" "true")
  else (closeAllB root b).map fun d => setAttrAt d b "aria-expanded" "true"

/-- `MenuButton.onButtonClick` (src/index.js 994-1007). -/
def onButtonClick (root : Elem) (b : Addr) (mobile : Bool) : Option Elem :=
  if isOpen root b then some (closePopup root b)
  else
    (openPopup root b mobile).bind fun d =>
      if mobile then some d else closeAllB d b

/-- `MenuButton.focusFirstItem` (src/index.js 1018-1033): recursion through
non-interactive first items; the fuel bounds the `data-menu-controls`
chain (a cyclic chain would loop forever in the source). -/
def focusFirstItem (root : Elem) (el : Addr) : Nat → Option Addr
  | 0 => none
  | fuel + 1 =>
      match (attrAt root el "data-menu-controls").bind fun cid => byId root cid with
      | none => none
      | some nl =>
          match querySelFirst root nl linkClassSel with
          | none => none
          | some fi =>
              match tagAt root fi with
              | some t =>
                  if !(controllerTags.contains t) && t ≠ "a" then
                    focusFirstItem root fi fuel
                  else some fi
              | none => none

/-- The `menuitemNodes` of a MenuLinks instance (src/index.js 348-376):
links of the closest `ul` (falling back to the node's own descendants),
extended by mega-menu links, with the controller itself filtered out for
controller instances. -/
def menuitemNodesML (root : Elem) (dn : Addr) : List Addr :=
  let base :=
    match closestBy (elemPredAt root fun e => e.tag == "ul") dn with
    | some pm => matchAddrs root pm linkClassSel
    | none => matchAddrs root dn linkClassSel
  let withMega :=
    match closestBy (elemPredAt root fun e => hasClass e "c-mega-menu") dn with
    | some mw => base ++ matchAddrs root mw linkClassSel
    | none => base
  if ((getAt root dn).map fun e => controllerTags.contains e.tag).getD false then
    withMega.filter (· ≠ dn)
  else withMega

/-- The `menuitemNodes` of a MenuButton instance (src/index.js 879-883):
overridden with the resolved submenu's links when `menuNode` exists. -/
def menuitemNodesMB (root : Elem) (b : Addr) : List Addr :=
  match menuNodeOf root b with
  | some mn => matchAddrs root mn linkClassSel
  | none => menuitemNodesML root b

/-- `findControllerItem` (src/index.js 649-671): ascend to the menu item
that is a direct child of the depth-0 list.  The walk moves strictly up, so
the address length bounds it; the fuel realises that bound. -/
def findControllerItemLoop (root : Elem) : Addr → Nat → Option Addr
  | _, 0 => none
  | cur, fuel + 1 =>
      let hit :=
        match closestBy (elemPredAt root fun e =>
            e.tag == "ul" && getAttrL e.attrs "data-depth" == some "0") cur with
        | some pu =>
            match closestBy (elemPredAt root fun e => hasClass e "menu__item") cur with
            | some mi =>
                if (match mi with
                    | [] => none
                    | _ => some mi.dropLast) = some pu then some mi else none
            | none => none
        | none => none
      match hit with
      | some mi => some mi
      | none =>
          match closestBy (elemPredAt root fun e => hasClass e "menu__item") cur with
          | none => none
          | some mi0 =>
              match mi0 with
              | [] => none
              | _ =>
                  match closestBy (elemPredAt root fun e => hasClass e "menu__item")
                      mi0.dropLast with
                  | none => none
                  | some cur' => findControllerItemLoop root cur' fuel

def findControllerItem (root : Elem) (dn : Addr) : Option Addr :=
  findControllerItemLoop root dn (dn.length + 1)

/-- `navigateToTopLevelItem` (src/index.js 679-707). -/
def navigateToTopLevelItem (root : Elem) (dn currentItem : Addr) (dir : String)
    (mc : Option Addr) (mobile : Bool) : Option (Elem × Option Addr) :=
  match mc with
  | none => none
  | some mcA =>
      match getTopLevelMenuItems root mcA with
      | none => none
      | some items =>
          let currentIndex := jsIndexOf items currentItem
          let targetIndex : Int :=
            if dir == "next" then
              if currentIndex + 1 < (items.length : Int) then currentIndex + 1 else 0
            else
              if 0 ≤ currentIndex - 1 then currentIndex - 1
              else (items.length : Int) - 1
          match items[targetIndex.toNat]? with
          | none => none
          | some tmi =>
              match querySelFirst root tmi linkClassSel with
              | none => none
              | some tml =>
                  let d1 := closeAllButtons root (some mcA) dn mobile
                  if (((getAt d1 tml).map fun e =>
                        controllerTags.contains e.tag).getD false) &&
                      attrAt d1 tml "aria-expanded" == some "false" then
                    (onButtonClick d1 tml mobile).map fun d2 => (d2, some tml)
                  else some (d1, some tml)

/-- `handleNonNestedMenu(direction)` (src/index.js 741-767). -/
def handleNonNestedMenu (root : Elem) (dn : Addr) (dir : String) (mobile : Bool) :
    Option (Elem × Option Addr) :=
  match closestBy (elemPredAt root fun e => e.tag == "ul") dn with
  | none => none
  | some pm =>
      let menuItems := childAddrs root pm
      let currentMenuItem := closestBy (elemPredAt root fun e =>
        hasClass e "menu__item") dn
      let targetIndex : Int :=
        match currentMenuItem with
        | some cmi => jsIndexOf menuItems cmi
        | none => -1
      let sibling :=
        if dir == "right" then getNextItemJS menuItems targetIndex
        else getPreviousItemJS menuItems targetIndex
      let d1 :=
        if attrAt root pm "data-depth" == some "0" then
          closeAllButtons root
            (closestBy (elemPredAt root isMenuContainer) dn) dn mobile
        else root
      match sibling with
      | none => none
      | some sib =>
          match querySelFirst d1 sib linkClassSel with
          | none => none
          | some lk => some (d1, some lk)

/-- `handleNestedMenuRight` (src/index.js 621-631). -/
def handleNestedMenuRight (root : Elem) (dn : Addr) (mobile : Bool) :
    Option (Elem × Option Addr) :=
  let mc := closestBy (elemPredAt root isMenuContainer) dn
  match findControllerItem root dn with
  | some ci => navigateToTopLevelItem root dn ci "next" mc mobile
  | none => some (root, none)

/-- `handleNestedMenuLeft` (src/index.js 595-615). -/
def handleNestedMenuLeft (root : Elem) (dn : Addr) (mobile : Bool) :
    Option (Elem × Option Addr) :=
  let mc := closestBy (elemPredAt root isMenuContainer) dn
  match closestBy (elemPredAt root fun e => e.tag == "ul") dn with
  | none => none
  | some pm =>
      match mc with
      | none => none
      | some mcA =>
          let idv := (attrAt root pm "id").getD ""
          match querySelFirst root mcA (fun e =>
              getAttrL e.attrs "data-menu-controls" == some idv) with
          | some mctrl =>
              let pmi := closestBy (elemPredAt root fun e =>
                hasClass e "menu__item") mctrl
              let pul :=
                match pmi with
                | some p => closestBy (elemPredAt root ulDepthSel) p
                | none => none
              match pul with
              | some pu =>
                  if attrAt root pu "data-depth" == some "0" then
                    match pmi with
                    | some p => navigateToTopLevelItem root dn p "previous" mc mobile
                    | none => some (root, none)
                  else some (root, none)
              | none => some (root, none)
          | none => some (root, none)

/-- `handleRightArrow` (src/index.js 536-547). -/
def handleRightArrow (root : Elem) (dn : Addr) (mobile : Bool) :
    Option (Elem × Option Addr) :=
  match closestBy (elemPredAt root fun e => e.tag == "ul") dn with
  | some pm =>
      if jsTruthyDepthGt0 (attrAt root pm "data-depth") then
        handleNestedMenuRight root dn mobile
      else handleNonNestedMenu root dn "right" mobile
  | none => handleNonNestedMenu root dn "right" mobile

/-- `handleLeftArrow` (src/index.js 515-526). -/
def handleLeftArrow (root : Elem) (dn : Addr) (mobile : Bool) :
    Option (Elem × Option Addr) :=
  match closestBy (elemPredAt root fun e => e.tag == "ul") dn with
  | some pm =>
      if jsTruthyDepthGt0 (attrAt root pm "data-depth") then
        handleNestedMenuLeft root dn mobile
      else handleNonNestedMenu root dn "left" mobile
  | none => handleNonNestedMenu root dn "left" mobile

/-- `MenuButton.onButtonKeydown` (src/index.js 921-981).  The ArrowDown
branch reads `this.buttonNode.nextElementSibling.dataset.depth` without a
null check (line 938): a controller without a following sibling makes the
handler throw (`none`). -/
def onButtonKeydown (root : Elem) (b : Addr) (key : String) (mobile cv : Bool)
    (fuel : Nat) : Option (Elem × Option Addr) :=
  if key == "Up" || key == "ArrowUp" then
    some (root, handleUpArrow (menuitemNodesMB root b) b)
  else if key == "Down" || key == "ArrowDown" then
    match nextElemSib root b with
    | none => none
    | some rm =>
        if attrAt root rm "data-depth" == some "1" then
          (if mobile then some root else closeAllB root b).bind fun d1 =>
            (openPopup d1 b mobile).map fun d2 => (d2, focusFirstItem d2 b fuel)
        else some (root, handleDownArrow root b cv)
  else if key == "Left" || key == "ArrowLeft" then handleLeftArrow root b mobile
  else if key == "Right" || key == "ArrowRight" then
    match nextElemSib root b with
    | some rm =>
        if !(attrAt root rm "data-depth" == some "1") then
          (openPopup root b mobile).map fun d => (d, focusFirstItem d b fuel)
        else handleRightArrow root b mobile
    | none => handleRightArrow root b mobile
  else if key == "Esc" || key == "Escape" then some (closePopup root b, none)
  else some (root, none)

/-- `MenuLinks.onMenuitemKeydown` (src/index.js 390-436) for a plain-link
instance (the listener is attached only to non-controller links). -/
def onMenuitemKeydown (root : Elem) (dn : Addr) (key : String) (mobile cv : Bool) :
    Option (Elem × Option Addr) :=
  if key == "Up" || key == "ArrowUp" then
    some (root, handleUpArrow (menuitemNodesML root dn) dn)
  else if key == "Down" || key == "ArrowDown" then
    some (root, handleDownArrow root dn cv)
  else if key == "Left" || key == "ArrowLeft" then handleLeftArrow root dn mobile
  else if key == "Right" || key == "ArrowRight" then handleRightArrow root dn mobile
  else if key == "Escape" || key == "Esc" then some (handleEscapeML root dn)
  else some (root, none)

/-! ### Initialization pipeline with listener accounting
(`AccessibleMenu.init` / `MenuController` / constructor guards,
src/index.js lines 8-19, 69-73, 181-200, 227-264, 866-905). -/
/-- An event-listener target: an element, `window`, or `document`. -/
inductive Target where
  | el (a : Addr)
  | window
  | doc
deriving DecidableEq

structure BindState where
  root : Elem
  listeners : List (Target × String)
  ctr : Nat

/-- Count of registered listeners for one target and event type. -/
def countL (l : List (Target × String)) (t : Target) (ev : String) : Nat :=
  (l.filter fun x => x.1 = t ∧ x.2 = ev).length

/-- `MenuButton` constructor (src/index.js 866-905): initial collapsed
state, the `controller` class, and — only when the per-element `data-menu`
marker is absent — one keydown and one click listener plus the marker.
The two `removeEventListener` calls on lines 894-895 pass freshly-bound
functions that were never registered, so they remove nothing and are not
modelled as removals.  Line 904 adds the background `mousedown` listener
unconditionally. -/
def menuButtonConstruct (s : BindState) (b : Addr) : BindState :=
  let d1 := setAttrAt s.root b "aria-expanded" "false"
  let d2 := addClassAt d1 b "controller"
  if (attrAt d2 b "data-menu").isSome then
    { root := d2
      listeners := s.listeners ++ [(Target.doc, "mousedown")]
      ctr := s.ctr }
  else
    { root := setAttrAt d2 b "data-menu" "true"
      listeners := s.listeners ++
        [(Target.el b, "keydown"), (Target.el b, "click"), (Target.doc, "mousedown")]
      ctr := s.ctr }

/-- `MenuLinks` constructor for a plain link (src/index.js line 371): one
keydown listener, unguarded. -/
def menuLinksConstruct (s : BindState) (l : Addr) : BindState :=
  { s with listeners := s.listeners ++ [(Target.el l, "keydown")] }

/-- `.menu__item:not(.menu__item--expanded:has(> span.menu__link))`
(src/index.js 254-257). -/
def itemSelNotExpanded (e : Elem) : Bool :=
  hasClass e "menu__item" &&
    !(hasClass e "menu__item--expanded" &&
      e.children.any fun c => c.tag == "span" && hasClass c "menu__link")

/-- One iteration of the item loop of `MenuController.initializeMenus`
(src/index.js 252-263): the item's first link gets a MenuLinks instance
unless it is a controller element. -/
def menuLinksStep (st : BindState) (it : Addr) : BindState :=
  match querySelFirst st.root it linkClassSel with
  | some l =>
      if (((getAt st.root l).map fun e =>
          controllerTags.contains e.tag).getD false) then st
      else menuLinksConstruct st l
  | none => st

/-- `MenuController.initializeMenus` (src/index.js 244-264): a MenuButton
per controller, then a MenuLinks per surviving item link. -/
def menuControllerConstruct (s : BindState) (c : Addr) : BindState :=
  let s1 := (matchAddrs s.root c isCtrlSel).foldl menuButtonConstruct s
  let items := matchAddrs s1.root c itemSelNotExpanded
  items.foldl menuLinksStep s1

/-- `attachMenuControls` (src/index.js 181-188). -/
def attachMenuControls (s : BindState) : BindState :=
  let r := onceRun s.root "menuControl" isMenuContainer
  r.1.foldl menuControllerConstruct { s with root := r.2 }

/-- `attachAriaControls` lifted to the pipeline state. -/
def attachAriaControlsS (s : BindState) : BindState :=
  let r := attachAriaControls s.root s.ctr
  { root := r.1, listeners := s.listeners, ctr := r.2 }

/-- `MobileMenuController.init` of the controller class defined in
src/index.js (lines 277-299): resolve the trigger by id and register its
click listener and the window keydown listener; an unresolved id only
warns. -/
def mobileInit (s : BindState) (c : Addr) : BindState :=
  match attrAt s.root c "data-mobile" with
  | none => s
  | some raw =>
      match byId s.root (raw.replace "#" "") with
      | none => s
      | some btn =>
          { s with listeners := s.listeners ++
              [(Target.el btn, "click"), (Target.window, "keydown")] }

/-- `attachMobileControls` (src/index.js 194-200): selector
`.c-menu[data-mobile]`. -/
def attachMobileControls (s : BindState) : BindState :=
  let r := onceRun s.root "mobileMenuControls" fun e =>
    isMenuContainer e && (getAttrL e.attrs "data-mobile").isSome
  r.1.foldl mobileInit { s with root := r.2 }

/-- `AccessibleMenu.init(context)` (src/index.js 69-73). -/
def initRun (s : BindState) : BindState :=
  attachMobileControls (attachMenuControls (attachAriaControlsS s))

/-! ### Mobile Collapse Controller at runtime.

Two distinct implementations exist: the `MobileMenuController` class inside
src/index.js (lines 270-342), which `init()` instantiates, and the
standalone exported class in src/mobile-menu-controller.js.  Both are
embedded.  `.bind(this)` is modelled by drawing a fresh handler identity
from a counter: the index.js variant calls `.bind` anew inside
`closeMobile`, producing a function that was never registered, so its
`removeEventListener` removes nothing; the standalone variant binds once in
its constructor and stores the identity, so its removal matches. -/
/-- `element.classList.remove(c)` at an address. -/
def removeClassAt (root : Elem) (a : Addr) (c : String) : Elem :=
  modifyAt (fun e => .node e.tag (e.classes.filter (· ≠ c)) e.attrs e.text e.visible e.children)
    root a

/-- Runtime state of the index.js `MobileMenuController`. -/
structure MobState where
  root : Elem
  body : Addr
  btn : Addr
  container : Addr
  winListeners : List (String × Nat)
  ctr : Nat
  focus : Option Addr

/-- `closeMobile(key)` of the index.js variant (lines 301-312): drop the
scroll-lock class from `document.body`, collapse the trigger, focus it on
Escape, and attempt to remove the window click listener — with a freshly
bound function, so the filter never matches an id that is in the list. -/
def closeMobileIdx (s : MobState) (key : String) : MobState :=
  let d1 := removeClassAt s.root s.body "js-prevent-scroll"
  let d2 := setAttrAt d1 s.btn "aria-expanded" "false"
  let f := if key == "Esc" || key == "Escape" then some s.btn else s.focus
  let wl := s.winListeners.filter fun x => !(x.1 == "click" && x.2 == s.ctr)
  { s with root := d2, winListeners := wl, ctr := s.ctr + 1, focus := f }

/-- `mobileControl(event)` of the index.js variant (lines 314-325). -/
def mobileControlIdx (s : MobState) : MobState :=
  if attrAt s.root s.btn "aria-expanded" == some "false" then
    let d1 := addClassAt s.root s.body "js-prevent-scroll"
    let d2 := setAttrAt d1 s.btn "aria-expanded" "true"
    { s with
        root := d2
        winListeners := s.winListeners ++ [("click", s.ctr)]
        ctr := s.ctr + 1 }
  else closeMobileIdx s ""

/-- Runtime state of the standalone `MobileMenuController`
(src/mobile-menu-controller.js); `onWindowClickId` is the identity of the
handler bound once in the constructor. -/
structure MobState2 where
  root : Elem
  btn : Addr
  container : Addr
  winListeners : List (String × Nat)
  onWindowClickId : Nat
  focus : Option Addr

/-- `closeMobile(key)` of the standalone variant (lines 87-105): collapse
the trigger, collapse every `button.menu__link` in the container, focus on
Escape, and remove the (matching) window click listener.  No scroll-lock
class is touched. -/
def closeMobileStandalone (s : MobState2) (key : String) : MobState2 :=
  let d1 := setAttrAt s.root s.btn "aria-expanded" "false"
  let menuButtons := matchAddrs d1 s.container fun e =>
    e.tag == "button" && hasClass e "menu__link"
  let d2 := foldSetAttr d1 menuButtons "aria-expanded" "false"
  let f := if key == "Esc" || key == "Escape" then some s.btn else s.focus
  let wl := s.winListeners.filter fun x => !(x.1 == "click" && x.2 == s.onWindowClickId)
  { s with root := d2, winListeners := wl, focus := f }

/-- `mobileControl(event)` of the standalone variant (lines 111-129). -/
def mobileControlStandalone (s : MobState2) : MobState2 :=
  if attrAt s.root s.btn "aria-expanded" == some "false" then
    { s with
        root := setAttrAt s.root s.btn "aria-expanded" "true"
        winListeners := s.winListeners ++ [("click", s.onWindowClickId)] }
  else closeMobileStandalone s ""

/-! ### Concrete documents for the scenario claims -/
/-- Shorthand element constructor (empty text, visible). -/
def el (tag : String) (classes : List String) (attrs : List (String × String))
    (children : List Elem) : Elem :=
  .node tag classes attrs "" true children

/-- A visible text-bearing leaf element. -/
def elT (tag : String) (classes : List String) (attrs : List (String × String))
    (txt : String) : Elem :=
  .node tag classes attrs txt true []

/-- The Quick Start menu: [Home(link), About(controller → [Our Story,
Team]), Contact(link)], before initialization. -/
def demoRaw : Elem :=
  el "body" [] []
    [el "nav" ["c-menu"] []
      [el "ul" ["menu"] []
        [el "li" ["menu__item"] [] [elT "a" ["menu__link"] [("href", "#")] "Home"],
         el "li" ["menu__item", "menu__item--expanded"] []
           [elT "button" ["menu__link"] [("data-plugin-id", "about")] "About",
            el "ul" ["menu"] []
              [el "li" ["menu__item"] []
                 [elT "a" ["menu__link"] [("href", "#")] "Our Story"],
               el "li" ["menu__item"] []
                 [elT "a" ["menu__link"] [("href", "#")] "Team"]]],
         el "li" ["menu__item"] [] [elT "a" ["menu__link"] [("href", "#")] "Contact"]]]]

/-- The demo document after `init()` ran (annotator, binder, controller
setup); spelled out literally, and proved equal to the pipeline run by
`initRun_demoRaw`. -/
def demoDoc : Elem :=
  .node "body" [] [] "" true
    [.node "nav" ["c-menu"]
      [("data-once-ariaControls", "true"), ("data-once-menuControl", "true")] "" true
      [.node "ul" ["menu"] [("data-depth", "0")] "" true
        [.node "li" ["menu__item"] [] "" true
          [.node "a" ["menu__link"] [("href", "#")] "Home" true []],
         .node "li" ["menu__item", "menu__item--expanded"] [] "" true
          [.node "button" ["menu__link", "controller"]
            [("data-plugin-id", "about"), ("aria-haspopup", "true"),
             ("aria-controls", "panel-about"), ("data-menu-controls", "panel-about"),
             ("aria-label", "About"), ("aria-expanded", "false"), ("data-menu", "true")]
            "About" true [],
           .node "ul" ["menu"] [("data-depth", "1"), ("id", "panel-about")] "" true
            [.node "li" ["menu__item"] [] "" true
              [.node "a" ["menu__link"] [("href", "#")] "Our Story" true []],
             .node "li" ["menu__item"] [] "" true
              [.node "a" ["menu__link"] [("href", "#")] "Team" true []]]],
         .node "li" ["menu__item"] [] "" true
          [.node "a" ["menu__link"] [("href", "#")] "Contact" true []]]]]

/-- The full pipeline state after `init()` on the demo page: the document
above plus exactly one keydown and one click listener on the About
controller, the background mousedown listener, and a keydown listener per
plain link. -/
def demoInit : BindState :=
  { root := demoDoc
    listeners :=
      [(Target.el [0, 0, 1, 0], "keydown"), (Target.el [0, 0, 1, 0], "click"),
       (Target.doc, "mousedown"), (Target.el [0, 0, 0, 0], "keydown"),
       (Target.el [0, 0, 1, 1, 0, 0], "keydown"),
       (Target.el [0, 0, 1, 1, 1, 0], "keydown"),
       (Target.el [0, 0, 2, 0], "keydown")]
    ctr := 0 }

def aboutBtn : Addr := [0, 0, 1, 0]

def aboutSub : Addr := [0, 0, 1, 1]

def homeLink : Addr := [0, 0, 0, 0]

def ourStoryLink : Addr := [0, 0, 1, 1, 0, 0]

def teamLink : Addr := [0, 0, 1, 1, 1, 0]

def contactLink : Addr := [0, 0, 2, 0]

/-- The demo document with the About popup opened by the user. -/
def demoOpen : Elem := setAttrAt demoDoc aboutBtn "aria-expanded" "true"

/-- A two-level nested menu for the Escape scenario: Products(controller) →
[Hardware(controller) → [Laptops(link)]]. -/
def demo2Raw : Elem :=
  el "body" [] []
    [el "nav" ["c-menu"] []
      [el "ul" ["menu"] []
        [el "li" ["menu__item", "menu__item--expanded"] []
          [elT "button" ["menu__link"] [] "Products",
           el "ul" ["menu"] []
             [el "li" ["menu__item", "menu__item--expanded"] []
               [elT "button" ["menu__link"] [] "Hardware",
                el "ul" ["menu"] []
                  [el "li" ["menu__item"] []
                    [elT "a" ["menu__link"] [("href", "#")] "Laptops"]]]]]]]]

/-- demo2 as the binder leaves it: each controller carries the popup
marker and the `panel-<id>` wiring onto its sibling submenu. -/
def demo2Doc : Elem :=
  .node "body" [] [] "" true
    [.node "nav" ["c-menu"]
      [("data-once-ariaControls", "true"), ("data-once-menuControl", "true")] "" true
      [.node "ul" ["menu"] [("data-depth", "0")] "" true
        [.node "li" ["menu__item", "menu__item--expanded"] [] "" true
          [.node "button" ["menu__link", "controller"]
            [("data-plugin-id", "menu-0"), ("aria-haspopup", "true"),
             ("aria-controls", "panel-menu-0"), ("data-menu-controls", "panel-menu-0"),
             ("aria-label", "Products"), ("aria-expanded", "false"), ("data-menu", "true")]
            "Products" true [],
           .node "ul" ["menu"] [("data-depth", "1"), ("id", "panel-menu-0")] "" true
            [.node "li" ["menu__item", "menu__item--expanded"] [] "" true
              [.node "button" ["menu__link", "controller"]
                [("data-plugin-id", "menu-1"), ("aria-haspopup", "true"),
                 ("aria-controls", "panel-menu-1"), ("data-menu-controls", "panel-menu-1"),
                 ("aria-label", "Hardware"), ("aria-expanded", "false"), ("data-menu", "true")]
                "Hardware" true [],
               .node "ul" ["menu"] [("data-depth", "2"), ("id", "panel-menu-1")] "" true
                [.node "li" ["menu__item"] [] "" true
                  [.node "a" ["menu__link"] [("href", "#")] "Laptops" true []]]]]]]]]

def btnA2 : Addr := [0, 0, 0, 0]

def ulA2 : Addr := [0, 0, 0, 1]

def btnB2 : Addr := [0, 0, 0, 1, 0, 0]

def ulB2 : Addr := [0, 0, 0, 1, 0, 1]

def deepLink2 : Addr := [0, 0, 0, 1, 0, 1, 0, 0]

/-- demo2 with both nested popups open (focus inside the inner one). -/
def demo2Open : Elem :=
  setAttrAt (setAttrAt demo2Doc btnA2 "aria-expanded" "true") btnB2
    "aria-expanded" "true"

/-- The document after the first Escape from the deep link. -/
def demo2AfterEsc1 : Elem := (handleEscapeML demo2Open deepLink2).1

/-- A controller with no following sibling submenu. -/
def demo3Raw : Elem :=
  el "body" [] []
    [el "nav" ["c-menu"] []
      [el "ul" ["menu"] []
        [el "li" ["menu__item"] [] [elT "button" ["menu__link"] [] "Solo"]]]]

/-- demo3 after `init()`, spelled out (see `initRun_demo3Raw`): the popup
marker is set, but no controls-relationship attribute and no panel id. -/
def demo3Doc : Elem :=
  .node "body" [] [] "" true
    [.node "nav" ["c-menu"]
      [("data-once-ariaControls", "true"), ("data-once-menuControl", "true")] "" true
      [.node "ul" ["menu"] [("data-depth", "0")] "" true
        [.node "li" ["menu__item"] [] "" true
          [.node "button" ["menu__link", "controller"]
            [("data-plugin-id", "menu-0"), ("aria-haspopup", "true"),
             ("aria-expanded", "false"), ("data-menu", "true")] "Solo" true []]]]]

def btn3 : Addr := [0, 0, 0, 0]

/-- A menu whose second link has no `href` (not focusable per the
`getFocusableElements` selector). -/
def demo4Raw : Elem :=
  el "body" [] []
    [el "nav" ["c-menu"] []
      [el "ul" ["menu"] []
        [el "li" ["menu__item"] [] [elT "a" ["menu__link"] [("href", "#")] "First"],
         el "li" ["menu__item"] [] [elT "a" ["menu__link"] [] "Second"]]]]

def a4First : Addr := [0, 0, 0, 0]

def a4Second : Addr := [0, 0, 1, 0]

/-- A container whose nested list sits behind a non-list wrapper `div`
inside the menu item. -/
def wrapDemo : Elem :=
  el "nav" ["c-menu"] []
    [el "ul" ["menu"] []
      [el "li" ["menu__item"] []
        [el "div" [] []
          [el "ul" ["menu"] []
            [el "li" ["menu__item"] []
              [elT "a" ["menu__link"] [("href", "#")] "Deep"]]]]]]

/-- A small well-formed container for the annotator witness. -/
def c1Demo : Elem :=
  el "nav" ["c-menu"] []
    [el "ul" ["menu"] []
      [el "li" ["menu__item"] []
        [elT "button" ["menu__link"] [] "A",
         el "ul" ["menu"] [] []]]]

/-- A page with a mobile trigger button followed by the menu container. -/
def demoMobRaw : Elem :=
  el "body" [] []
    [elT "button" [] [("id", "menu-toggle"), ("aria-expanded", "false")] "Menu",
     el "nav" ["c-menu"] []
       [el "ul" ["menu"] []
         [el "li" ["menu__item", "menu__item--expanded"] []
           [elT "button" ["menu__link"] [] "About",
            el "ul" ["menu"] []
              [el "li" ["menu__item"] []
                [elT "a" ["menu__link"] [("href", "#")] "Team"]]]]]]

/-- demoMob after `init()`, spelled out (see `initRun_demoMobRaw`). -/
def demoMob : Elem :=
  .node "body" [] [] "" true
    [.node "button" [] [("id", "menu-toggle"), ("aria-expanded", "false")] "Menu" true [],
     .node "nav" ["c-menu"]
      [("data-once-ariaControls", "true"), ("data-once-menuControl", "true")] "" true
      [.node "ul" ["menu"] [("data-depth", "0")] "" true
        [.node "li" ["menu__item", "menu__item--expanded"] [] "" true
          [.node "button" ["menu__link", "controller"]
            [("data-plugin-id", "menu-0"), ("aria-haspopup", "true"),
             ("aria-controls", "panel-menu-0"), ("data-menu-controls", "panel-menu-0"),
             ("aria-label", "About"), ("aria-expanded", "false"), ("data-menu", "true")]
            "About" true [],
           .node "ul" ["menu"] [("data-depth", "1"), ("id", "panel-menu-0")] "" true
            [.node "li" ["menu__item"] [] "" true
              [.node "a" ["menu__link"] [("href", "#")] "Team" true []]]]]]]

def mobTrigger : Addr := [0]

def mobBtn : Addr := [1, 0, 0, 0]

/-- The mobile-menu runtime just after the trigger was clicked open. -/
def mobS1 : MobState :=
  mobileControlIdx
    { root := demoMob
      body := []
      btn := mobTrigger
      container := [1]
      winListeners := []
      ctr := 0
      focus := none }

/-- The open mobile menu after the user expanded the About controller. -/
def mobS1x : MobState :=
  { mobS1 with root := setAttrAt mobS1.root mobBtn "aria-expanded" "true" }

/-- The state after clicking the trigger again (the close transition). -/
def mobS2 : MobState := mobileControlIdx mobS1x

/-- A standalone-controller state over the same opened document. -/
def mobT0 : MobState2 :=
  { root := mobS1x.root
    btn := mobTrigger
    container := [1]
    winListeners := [("click", 7)]
    onWindowClickId := 7
    focus := none }

/-- A predicate is node-local when it ignores the child subtrees. -/
def NodeLocalPred (p : Elem → Bool) : Prop :=
  ∀ e₁ e₂ : Elem, e₁.tag = e₂.tag → e₁.classes = e₂.classes →
    e₁.attrs = e₂.attrs → e₁.text = e₂.text → e₁.visible = e₂.visible →
    p e₁ = p e₂

/-- The element-or-not reading used by the MenuLinks guard: does the node
at `b` carry a controller tag. -/
def ctrlTagAt (root : Elem) (b : Addr) : Bool :=
  ((getAt root b).map fun e => controllerTags.contains e.tag).getD false

namespace Elem

@[simp] theorem tag_node (t c a x v ch) : (Elem.node t c a x v ch).tag = t := rfl

@[simp] theorem classes_node (t c a x v ch) : (Elem.node t c a x v ch).classes = c := rfl

@[simp] theorem attrs_node (t c a x v ch) : (Elem.node t c a x v ch).attrs = a := rfl

@[simp] theorem text_node (t c a x v ch) : (Elem.node t c a x v ch).text = x := rfl

@[simp] theorem visible_node (t c a x v ch) : (Elem.node t c a x v ch).visible = v := rfl

@[simp] theorem children_node (t c a x v ch) : (Elem.node t c a x v ch).children = ch := rfl

theorem sizeOf_children_lt (e : Elem) : sizeOf e.children < sizeOf e := by
  cases e with
  | node t c a x v ch => simp [children]

end Elem

theorem getAttrL_setAttrL_self (l : List (String × String)) (k v : String) :
    getAttrL (setAttrL l k v) k = some v := by
  induction l with
  | nil => simp [setAttrL, getAttrL]
  | cons p rest ih =>
      obtain ⟨k', v'⟩ := p
      by_cases h : k' = k <;> simp [setAttrL, getAttrL, h, ih]

theorem getAttrL_setAttrL_other (l : List (String × String)) (k v k' : String)
    (hne : k' ≠ k) : getAttrL (setAttrL l k v) k' = getAttrL l k' := by
  have h' : k ≠ k' := fun hh => hne hh.symm
  induction l with
  | nil => simp [setAttrL, getAttrL, h']
  | cons p rest ih =>
      obtain ⟨k0, v0⟩ := p
      by_cases h0 : k0 = k
      · subst h0
        simp [setAttrL, getAttrL, h']
      · simp only [setAttrL, if_neg h0]
        by_cases h1 : k0 = k' <;> simp [getAttrL, h1, ih]

theorem setAttrL_setAttrL_self (l : List (String × String)) (k v w : String) :
    setAttrL (setAttrL l k v) k w = setAttrL l k w := by
  induction l with
  | nil => simp [setAttrL]
  | cons p rest ih =>
      obtain ⟨k0, v0⟩ := p
      by_cases h0 : k0 = k <;> simp [setAttrL, h0, ih]

theorem setAttrL_idem (l : List (String × String)) (k v : String) :
    setAttrL (setAttrL l k v) k v = setAttrL l k v :=
  setAttrL_setAttrL_self l k v v

theorem addClassL_contains_other (l : List String) (c c' : String) (h : c ≠ c') :
    (addClassL l c).contains c' = l.contains c' := by
  have h' : ¬c' = c := fun hh => h hh.symm
  by_cases hc : l.contains c <;> simp_all [addClassL]

theorem addClassL_contains_self (l : List String) (c : String) :
    (addClassL l c).contains c = true := by
  by_cases hc : l.contains c <;> simp_all [addClassL]

@[simp] theorem getAt_nil (e : Elem) : getAt e [] = some e := rfl

@[simp] theorem getAt_cons (e : Elem) (i : Nat) (rest : Addr) :
    getAt e (i :: rest) = e.children[i]?.bind fun c => getAt c rest := rfl

theorem modifyAt_cons_some (f : Elem → Elem) (t cls a x v ch) (i : Nat)
    (rest : Addr) (c : Elem) (h : ch[i]? = some c) :
    modifyAt f (.node t cls a x v ch) (i :: rest) =
      .node t cls a x v (ch.set i (modifyAt f c rest)) := by
  simp [modifyAt, h]

theorem modifyAt_cons_none (f : Elem → Elem) (t cls a x v ch) (i : Nat)
    (rest : Addr) (h : ch[i]? = none) :
    modifyAt f (.node t cls a x v ch) (i :: rest) = .node t cls a x v ch := by
  simp [modifyAt, h]

theorem getAt_modifyAt_self (f : Elem → Elem) (root : Elem) (b : Addr) :
    getAt (modifyAt f root b) b = (getAt root b).map f := by
  induction b generalizing root with
  | nil => simp [modifyAt]
  | cons i rest ih =>
      obtain ⟨t, cls, at_, x, v, ch⟩ := root
      rcases h : ch[i]? with _ | c
      · simp [modifyAt_cons_none _ _ _ _ _ _ _ _ _ h, h]
      · have hi : i < ch.length := by
          by_contra hh
          simp [List.getElem?_eq_none (Nat.le_of_not_lt hh)] at h
        simp [modifyAt_cons_some _ _ _ _ _ _ _ _ _ _ h, h,
          List.getElem?_set_eq_of_lt _ hi, ih]

theorem obs_modifyAt_ne (f : Elem → Elem) (hf : ElemLocal f) (root : Elem)
    (b a : Addr) (hne : a ≠ b) : obs (modifyAt f root b) a = obs root a := by
  induction b generalizing root a with
  | nil =>
      match a, hne with
      | i :: rest, _ =>
        simp [modifyAt, obs, hf root]
  | cons i brest ih =>
      obtain ⟨t, cls, at_, x, v, ch⟩ := root
      rcases h : ch[i]? with _ | c
      · simp [modifyAt_cons_none _ _ _ _ _ _ _ _ _ h]
      · have hi : i < ch.length := by
          by_contra hh
          simp [List.getElem?_eq_none (Nat.le_of_not_lt hh)] at h
        rw [modifyAt_cons_some _ _ _ _ _ _ _ _ _ _ h]
        match a with
        | [] => simp [obs]
        | j :: arest =>
            by_cases hj : j = i
            · subst hj
              have harest : arest ≠ brest := fun hh => hne (by rw [hh])
              simp [obs, h, List.getElem?_set_eq_of_lt _ hi]
              have := ih c arest harest
              simp [obs] at this
              exact this
            · simp [obs, List.getElem?_set_ne (fun hh => hj hh.symm)]

theorem isSome_getAt_modifyAt (f : Elem → Elem) (hf : ElemLocal f) (root : Elem)
    (b a : Addr) :
    (getAt (modifyAt f root b) a).isSome = (getAt root a).isSome := by
  induction b generalizing root a with
  | nil =>
      match a with
      | [] => simp [modifyAt]
      | i :: rest => simp [modifyAt, hf root]
  | cons i brest ih =>
      obtain ⟨t, cls, at_, x, v, ch⟩ := root
      rcases h : ch[i]? with _ | c
      · simp [modifyAt_cons_none _ _ _ _ _ _ _ _ _ h]
      · have hi : i < ch.length := by
          by_contra hh
          simp [List.getElem?_eq_none (Nat.le_of_not_lt hh)] at h
        rw [modifyAt_cons_some _ _ _ _ _ _ _ _ _ _ h]
        match a with
        | [] => simp
        | j :: arest =>
            by_cases hj : j = i
            · subst hj
              simp [h, List.getElem?_set_eq_of_lt _ hi]
              exact ih c arest
            · simp [List.getElem?_set_ne (fun hh => hj hh.symm)]

theorem childrenLen_getAt_modifyAt (f : Elem → Elem) (hf : ElemLocal f)
    (root : Elem) (b a : Addr) :
    ((getAt (modifyAt f root b) a).map fun e => e.children.length) =
      (getAt root a).map fun e => e.children.length := by
  induction b generalizing root a with
  | nil =>
      match a with
      | [] => simp [modifyAt, hf root]
      | i :: rest => simp [modifyAt, hf root]
  | cons i brest ih =>
      obtain ⟨t, cls, at_, x, v, ch⟩ := root
      rcases h : ch[i]? with _ | c
      · simp [modifyAt_cons_none _ _ _ _ _ _ _ _ _ h]
      · have hi : i < ch.length := by
          by_contra hh
          simp [List.getElem?_eq_none (Nat.le_of_not_lt hh)] at h
        rw [modifyAt_cons_some _ _ _ _ _ _ _ _ _ _ h]
        match a with
        | [] => simp [List.length_set]
        | j :: arest =>
            by_cases hj : j = i
            · subst hj
              simp [h, List.getElem?_set_eq_of_lt _ hi]
              exact ih c arest
            · simp [List.getElem?_set_ne (fun hh => hj hh.symm)]

theorem setAttrAt_local (k v : String) :
    ElemLocal fun e => Elem.node e.tag e.classes (setAttrL e.attrs k v) e.text e.visible e.children := by
  intro e; rfl

theorem addClassAt_local (c : String) :
    ElemLocal fun e => Elem.node e.tag (addClassL e.classes c) e.attrs e.text e.visible e.children := by
  intro e; rfl

theorem attrAt_setAttrAt_self (root : Elem) (a : Addr) (k v : String)
    (h : (getAt root a).isSome) : attrAt (setAttrAt root a k v) a k = some v := by
  rcases he : getAt root a with _ | e
  · rw [he] at h; simp at h
  · simp [attrAt, setAttrAt, getAt_modifyAt_self, he, getAttrL_setAttrL_self]

theorem attrAt_setAttrAt_otherKey (root : Elem) (a : Addr) (k v k' : String)
    (hk : k' ≠ k) : attrAt (setAttrAt root a k v) a k' = attrAt root a k' := by
  rcases he : getAt root a with _ | e
  · simp [attrAt, setAttrAt, getAt_modifyAt_self, he]
  · simp [attrAt, setAttrAt, getAt_modifyAt_self, he, getAttrL_setAttrL_other _ _ _ _ hk]

theorem attrAt_setAttrAt_ne (root : Elem) (a b : Addr) (k v k' : String)
    (hne : a ≠ b) : attrAt (setAttrAt root b k v) a k' = attrAt root a k' := by
  have h := obs_modifyAt_ne _ (setAttrAt_local k v) root b a hne
  simp only [obs, setAttrAt] at h ⊢
  rcases he : getAt root a with _ | e <;> rw [he] at h <;>
    rcases he' : getAt (modifyAt _ root b) a with _ | e' <;> rw [he'] at h <;>
      simp_all [attrAt, setAttrAt, he, he']

theorem attrAt_addClassAt (root : Elem) (a b : Addr) (c k : String) :
    attrAt (addClassAt root b c) a k = attrAt root a k := by
  by_cases hne : a = b
  · subst hne
    rcases he : getAt root a with _ | e
    · simp [attrAt, addClassAt, getAt_modifyAt_self, he]
    · simp [attrAt, addClassAt, getAt_modifyAt_self, he]
  · have h := obs_modifyAt_ne _ (addClassAt_local c) root b a hne
    simp only [obs, addClassAt] at h ⊢
    rcases he : getAt root a with _ | e <;> rw [he] at h <;>
      rcases he' : getAt (modifyAt _ root b) a with _ | e' <;> rw [he'] at h <;>
        simp_all [attrAt, addClassAt, he, he']

theorem descAddrsE_eq (e : Elem) : descAddrsE e = descAddrsAux e.children 0 := by
  obtain ⟨t, cls, a, x, v, ch⟩ := e
  rw [descAddrsE]
  rfl

theorem descAddrsAux_succ (l : List Elem) (k : Nat) :
    descAddrsAux l (k + 1) = (descAddrsAux l k).map bumpHead := by
  induction l generalizing k with
  | nil => simp [descAddrsAux]
  | cons c cs ih =>
      simp [descAddrsAux, ih (k + 1), bumpHead, Function.comp]

theorem mem_descAddrsAux_zero (l : List Elem) (a : Addr) :
    a ∈ descAddrsAux l 0 ↔
      ∃ i rest, a = i :: rest ∧
        ∃ c, l[i]? = some c ∧ (rest = [] ∨ rest ∈ descAddrs c) := by
  induction l generalizing a with
  | nil =>
      simp [descAddrsAux]
  | cons c cs ih =>
      rw [descAddrsAux]
      constructor
      · intro h
        rcases List.mem_append.1 h with h | h
        · rcases List.mem_cons.1 h with h | h
          · exact ⟨0, [], by simpa using h, c, by simp, Or.inl rfl⟩
          · rcases List.mem_map.1 h with ⟨b, hb, rfl⟩
            exact ⟨0, b, rfl, c, by simp, Or.inr hb⟩
        · rw [show (0 : Nat) + 1 = 0 + 1 from rfl, descAddrsAux_succ] at h
          rcases List.mem_map.1 h with ⟨b, hb, rfl⟩
          rcases (ih b).1 hb with ⟨i, rest, rfl, c', hc', hrest⟩
          exact ⟨i + 1, rest, rfl, c', by simpa using hc', hrest⟩
      · rintro ⟨i, rest, rfl, c', hc', hrest⟩
        match i with
        | 0 =>
            simp only [List.getElem?_cons_zero, Option.some.injEq] at hc'
            subst hc'
            rcases hrest with rfl | hb
            · exact List.mem_append.2 (Or.inl (List.mem_cons_self _ _))
            · exact List.mem_append.2 (Or.inl (List.mem_cons.2 (Or.inr
                (List.mem_map.2 ⟨rest, hb, rfl⟩))))
        | i' + 1 =>
            apply List.mem_append.2
            right
            rw [show (0 : Nat) + 1 = 0 + 1 from rfl, descAddrsAux_succ]
            refine List.mem_map.2 ⟨i' :: rest, ?_, rfl⟩
            exact (ih _).2 ⟨i', rest, rfl, c', by simpa using hc', hrest⟩

theorem mem_descAddrs (e : Elem) (a : Addr) :
    a ∈ descAddrs e ↔ a ≠ [] ∧ (getAt e a).isSome := by
  match e, a with
  | e, [] =>
      constructor
      · intro h
        rw [descAddrs, descAddrsE_eq, mem_descAddrsAux_zero] at h
        rcases h with ⟨i, rest, h, _⟩
        exact absurd h (by simp)
      · simp
  | e, i :: rest =>
      rw [descAddrs, descAddrsE_eq, mem_descAddrsAux_zero]
      constructor
      · rintro ⟨i', rest', h, c, hc, hrest⟩
        obtain ⟨rfl, rfl⟩ : i = i' ∧ rest = rest' := by
          constructor <;> [exact (List.cons.injEq _ _ _ _ ▸ h).1;
            exact (List.cons.injEq _ _ _ _ ▸ h).2]
        refine ⟨by simp, ?_⟩
        rcases hrest with rfl | hb
        · simp [hc]
        · have := (mem_descAddrs c rest).1 hb
          simp [hc, this.2]
      · rintro ⟨-, hsome⟩
        simp only [getAt_cons] at hsome
        rcases hc : e.children[i]? with _ | c
        · simp [hc] at hsome
        · simp only [hc, Option.some_bind] at hsome
          by_cases hrest : rest = []
          · exact ⟨i, rest, rfl, c, hc, Or.inl hrest⟩
          · refine ⟨i, rest, rfl, c, hc, Or.inr ?_⟩
            exact (mem_descAddrs c rest).2 ⟨hrest, hsome⟩
termination_by sizeOf e
decreasing_by
  all_goals
    have hmem : c ∈ e.children := List.getElem?_mem hc
    have h1 := List.sizeOf_lt_of_mem hmem
    have h2 := Elem.sizeOf_children_lt e
    omega

theorem isSome_getAt_setAttrAt (root : Elem) (b a : Addr) (k v : String) :
    (getAt (setAttrAt root b k v) a).isSome = (getAt root a).isSome :=
  isSome_getAt_modifyAt _ (setAttrAt_local k v) root b a

theorem isSome_getAt_foldSetAttr (root : Elem) (L : List Addr) (k v : String)
    (a : Addr) :
    (getAt (foldSetAttr root L k v) a).isSome = (getAt root a).isSome := by
  induction L generalizing root with
  | nil => rfl
  | cons b rest ih =>
      rw [foldSetAttr, List.foldl_cons, ← foldSetAttr, ih,
        isSome_getAt_setAttrAt]

theorem attrAt_foldSetAttr_not_mem (root : Elem) (L : List Addr) (k v k' : String)
    (c : Addr) (hc : c ∉ L) :
    attrAt (foldSetAttr root L k v) c k' = attrAt root c k' := by
  induction L generalizing root with
  | nil => rfl
  | cons b rest ih =>
      rw [foldSetAttr, List.foldl_cons, ← foldSetAttr]
      rw [ih _ (fun h => hc (List.mem_cons.2 (Or.inr h)))]
      exact attrAt_setAttrAt_ne _ _ _ _ _ _ (fun h => hc (h ▸ List.mem_cons_self _ _))

theorem attrAt_foldSetAttr_mem (root : Elem) (L : List Addr) (k v : String)
    (c : Addr) (hc : c ∈ L) (hval : (getAt root c).isSome) :
    attrAt (foldSetAttr root L k v) c k = some v := by
  induction L generalizing root with
  | nil => exact absurd hc (List.not_mem_nil _)
  | cons b rest ih =>
      rw [foldSetAttr, List.foldl_cons, ← foldSetAttr]
      by_cases hmem : c ∈ rest
      · exact ih _ hmem (by rw [isSome_getAt_setAttrAt]; exact hval)
      · have hcb : c = b := by
          rcases List.mem_cons.1 hc with h | h
          · exact h
          · exact absurd h hmem
        subst hcb
        rw [attrAt_foldSetAttr_not_mem _ _ _ _ _ _ hmem]
        exact attrAt_setAttrAt_self _ _ _ _ hval

theorem sdrChildren_eq_map (l : List Elem) (d : Nat) :
    sdrChildren l d = l.map (sdrItem · d) := by
  induction l with
  | nil => rw [sdrChildren]; rfl
  | cons c cs ih => rw [sdrChildren, ih, List.map_cons]

theorem sdrSubs_eq_map (l : List Elem) (d : Nat) :
    sdrSubs l d = l.map fun c => if isListSel c then setDepthRecursively c (d + 1) else c := by
  induction l with
  | nil => rw [sdrSubs]; rfl
  | cons c cs ih => rw [sdrSubs, ih, List.map_cons]

theorem classes_setDepthRecursively (e : Elem) (d : Nat) :
    (setDepthRecursively e d).classes = e.classes := by
  obtain ⟨t, cls, a, x, v, ch⟩ := e; rw [setDepthRecursively]; rfl

theorem tag_setDepthRecursively (e : Elem) (d : Nat) :
    (setDepthRecursively e d).tag = e.tag := by
  obtain ⟨t, cls, a, x, v, ch⟩ := e; rw [setDepthRecursively]; rfl

theorem classes_sdrItem (e : Elem) (d : Nat) : (sdrItem e d).classes = e.classes := by
  obtain ⟨t, cls, a, x, v, ch⟩ := e
  rw [sdrItem]
  split <;> rfl

theorem isListSel_setDepthRecursively (e : Elem) (d : Nat) :
    isListSel (setDepthRecursively e d) = isListSel e := by
  rw [isListSel, isListSel, hasClass, hasClass, classes_setDepthRecursively,
    tag_setDepthRecursively]

theorem isItemSel_sdrItem (e : Elem) (d : Nat) :
    isItemSel (sdrItem e d) = isItemSel e := by
  rw [isItemSel, isItemSel, hasClass, hasClass, classes_sdrItem]

theorem list_set_self {α : Type} (l : List α) (i : Nat) (a : α)
    (h : l[i]? = some a) : l.set i a = l := by
  induction l generalizing i with
  | nil => simp at h
  | cons b rest ih =>
      match i with
      | 0 => simp_all
      | i' + 1 =>
          simp only [List.getElem?_cons_succ] at h
          simp [List.set_cons_succ, ih i' h]

theorem attr_setDepthRecursively_chain (p : Addr) (e : Elem) (d : Nat)
    (h : chainPath e p = true) :
    attrAt (setDepthRecursively e d) p "data-depth" =
      some (toString (d + p.length / 2)) := by
  match p with
  | [] =>
      obtain ⟨t, cls, a, x, v, ch⟩ := e
      rw [setDepthRecursively]
      simp [attrAt, getAttrL_setAttrL_self]
  | [i] =>
      rw [chainPath] at h
      simp at h
  | i :: j :: rest =>
      rw [chainPath] at h
      rcases hitem : e.children[i]? with _ | item
      · simp [hitem] at h
      · simp only [hitem] at h
        rcases hsub : item.children[j]? with _ | sub
        · simp [hsub] at h
        · simp only [hsub, Bool.and_eq_true] at h
          obtain ⟨hitemSel, hsubSel, hchain⟩ := h
          obtain ⟨t, cls, a, x, v, ch⟩ := e
          rw [setDepthRecursively]
          simp only [attrAt, getAt_cons, Elem.children_node, sdrChildren_eq_map,
            List.getElem?_map]
          simp only [Elem.children_node] at hitem
          rw [hitem]
          simp only [Option.map_some', Option.some_bind]
          obtain ⟨ti, ci, ai, xi, vi, chi⟩ := item
          rw [sdrItem]
          simp only [Elem.classes_node]
          rw [if_pos (by simpa [isItemSel, hasClass] using hitemSel)]
          simp only [getAt_cons, Elem.children_node, sdrSubs_eq_map, List.getElem?_map]
          simp only [Elem.children_node] at hsub
          rw [hsub]
          simp only [Option.map_some', Option.some_bind, if_pos hsubSel]
          have ih := attr_setDepthRecursively_chain rest sub (d + 1) hchain
          simp only [attrAt] at ih
          rw [ih]
          congr 2
          simp only [List.length_cons]
          omega
termination_by p.length

mutual
theorem sdr_idem (e : Elem) (d : Nat) :
    setDepthRecursively (setDepthRecursively e d) d = setDepthRecursively e d := by
  obtain ⟨t, cls, a, x, v, ch⟩ := e
  rw [setDepthRecursively, setDepthRecursively, setAttrL_idem,
    sdrChildren_idem ch d]
termination_by sizeOf e
decreasing_by
  simp only [Elem.node.sizeOf_spec]; omega

theorem sdrChildren_idem (l : List Elem) (d : Nat) :
    sdrChildren (sdrChildren l d) d = sdrChildren l d := by
  match l with
  | [] => simp [sdrChildren]
  | c :: cs =>
      rw [sdrChildren, sdrChildren, sdrItem_idem c d, sdrChildren_idem cs d]
termination_by sizeOf l
decreasing_by
  · simp only [List.cons.sizeOf_spec]; omega
  · simp only [List.cons.sizeOf_spec]; omega

theorem sdrItem_idem (e : Elem) (d : Nat) : sdrItem (sdrItem e d) d = sdrItem e d := by
  obtain ⟨t, cls, a, x, v, ch⟩ := e
  rw [sdrItem]
  by_cases hcl : cls.contains "menu__item"
  · rw [if_pos (by simpa using hcl), sdrItem, if_pos (by simpa using hcl),
      sdrSubs_idem ch d]
  · rw [if_neg (by simpa using hcl), sdrItem, if_neg (by simpa using hcl)]
termination_by sizeOf e
decreasing_by
  simp only [Elem.node.sizeOf_spec]; omega

theorem sdrSubs_idem (l : List Elem) (d : Nat) :
    sdrSubs (sdrSubs l d) d = sdrSubs l d := by
  match l with
  | [] => simp [sdrSubs]
  | c :: cs =>
      rw [sdrSubs, sdrSubs]
      congr 1
      · by_cases hsel : isListSel c
        · rw [if_pos hsel, if_pos (by rw [isListSel_setDepthRecursively]; exact hsel),
            sdr_idem c (d + 1)]
        · rw [if_neg hsel, if_neg hsel]
      · exact sdrSubs_idem cs d
termination_by sizeOf l
decreasing_by
  · simp only [List.cons.sizeOf_spec]; omega
  · simp only [List.cons.sizeOf_spec]; omega
end

@[simp] theorem modifyAt_nil (f : Elem → Elem) (e : Elem) : modifyAt f e [] = f e := by
  simp [modifyAt]

theorem classes_modifyAt (f : Elem → Elem) (hf : ∀ e, (f e).classes = e.classes)
    (e : Elem) (p : Addr) : (modifyAt f e p).classes = e.classes := by
  match p with
  | [] => rw [modifyAt_nil]; exact hf e
  | i :: rest =>
      obtain ⟨t, cls, a, x, v, ch⟩ := e
      rcases hc : ch[i]? with _ | c
      · rw [modifyAt_cons_none _ _ _ _ _ _ _ _ _ hc]
      · rw [modifyAt_cons_some _ _ _ _ _ _ _ _ _ _ hc]; rfl

theorem tag_modifyAt (f : Elem → Elem) (hf : ∀ e, (f e).tag = e.tag)
    (e : Elem) (p : Addr) : (modifyAt f e p).tag = e.tag := by
  match p with
  | [] => rw [modifyAt_nil]; exact hf e
  | i :: rest =>
      obtain ⟨t, cls, a, x, v, ch⟩ := e
      rcases hc : ch[i]? with _ | c
      · rw [modifyAt_cons_none _ _ _ _ _ _ _ _ _ hc]
      · rw [modifyAt_cons_some _ _ _ _ _ _ _ _ _ _ hc]; rfl

theorem isListSel_setAttrAt_sub (e : Elem) (p : Addr) (k v : String) :
    isListSel (modifyAt
      (fun e => Elem.node e.tag e.classes (setAttrL e.attrs k v) e.text e.visible e.children)
      e p) = isListSel e := by
  rw [isListSel, isListSel, hasClass, hasClass,
    classes_modifyAt _ (fun e => by cases e; rfl),
    tag_modifyAt _ (fun e => by cases e; rfl)]

/-- Writing `data-depth` anywhere on an annotator chain does not change the
result of the annotator: the annotator overwrites every depth value it is
responsible for. -/
theorem sdr_insensitive (p : Addr) (e : Elem) (d : Nat) (w : String)
    (h : chainPath e p = true) :
    setDepthRecursively (setAttrAt e p "data-depth" w) d = setDepthRecursively e d := by
  match p with
  | [] =>
      obtain ⟨t, cls, a, x, v, ch⟩ := e
      rw [setAttrAt, modifyAt_nil]
      simp only [Elem.tag_node, Elem.classes_node, Elem.attrs_node, Elem.text_node,
        Elem.visible_node, Elem.children_node]
      rw [setDepthRecursively, setDepthRecursively, setAttrL_setAttrL_self]
  | [i] =>
      rw [chainPath] at h
      simp at h
  | i :: j :: rest =>
      rw [chainPath] at h
      rcases hitem : e.children[i]? with _ | item
      · simp [hitem] at h
      · simp only [hitem] at h
        rcases hsub : item.children[j]? with _ | sub
        · simp [hsub] at h
        · simp only [hsub, Bool.and_eq_true] at h
          obtain ⟨hitemSel, hsubSel, hchain⟩ := h
          obtain ⟨t, cls, a, x, v, ch⟩ := e
          simp only [Elem.children_node] at hitem
          rw [setAttrAt, modifyAt_cons_some _ _ _ _ _ _ _ _ _ _ hitem]
          rw [setDepthRecursively, setDepthRecursively]
          congr 1
          rw [sdrChildren_eq_map, sdrChildren_eq_map, List.map_set]
          have hval : (ch.map (sdrItem · d))[i]? = some (sdrItem item d) := by
            rw [List.getElem?_map, hitem]; rfl
          refine Eq.trans ?_ (list_set_self _ i _ hval)
          congr 1
          obtain ⟨ti, ci, ai, xi, vi, chi⟩ := item
          simp only [Elem.children_node] at hsub
          rw [modifyAt_cons_some _ _ _ _ _ _ _ _ _ _ hsub]
          rw [sdrItem, sdrItem]
          have hcli : ci.contains "menu__item" = true := by
            simpa [isItemSel, hasClass] using hitemSel
          rw [if_pos (by simpa using hcli), if_pos (by simpa using hcli)]
          congr 1
          rw [sdrSubs_eq_map, sdrSubs_eq_map, List.map_set]
          have hval2 : (chi.map fun c => if isListSel c then setDepthRecursively c (d + 1) else c)[j]?
              = some (if isListSel sub then setDepthRecursively sub (d + 1) else sub) := by
            rw [List.getElem?_map, hsub]; rfl
          refine Eq.trans ?_ (list_set_self _ j _ hval2)
          congr 1
          simp only [isListSel_setAttrAt_sub, if_pos hsubSel]
          exact sdr_insensitive rest sub (d + 1) w hchain
termination_by p.length

theorem findTopIdxAux_set (l : List Elem) (i k : Nat) (a ci : Elem)
    (hci : l[i]? = some ci) (ha : isListSel a = isListSel ci) :
    findTopIdxAux (l.set i a) k = findTopIdxAux l k := by
  induction l generalizing i k with
  | nil => simp at hci
  | cons c cs ih =>
      match i with
      | 0 =>
          simp only [List.getElem?_cons_zero, Option.some.injEq] at hci
          subst hci
          rw [List.set_cons_zero, findTopIdxAux, findTopIdxAux, ha]
      | i' + 1 =>
          simp only [List.getElem?_cons_succ] at hci
          rw [List.set_cons_succ, findTopIdxAux, findTopIdxAux, ih i' (k + 1) hci]

theorem findTopIdxAux_some (l : List Elem) (k i : Nat)
    (h : findTopIdxAux l k = some i) :
    ∃ c, k ≤ i ∧ l[i - k]? = some c ∧ isListSel c = true := by
  induction l generalizing k with
  | nil => simp [findTopIdxAux] at h
  | cons c cs ih =>
      rw [findTopIdxAux] at h
      by_cases hc : isListSel c
      · rw [if_pos hc] at h
        obtain rfl : k = i := by simpa using h
        exact ⟨c, Nat.le_refl _, by simp, hc⟩
      · rw [if_neg hc] at h
        obtain ⟨c', hk, hget, hsel⟩ := ih (k + 1) h
        refine ⟨c', by omega, ?_, hsel⟩
        have heq : i - k = (i - (k + 1)) + 1 := by omega
        rw [heq, List.getElem?_cons_succ]
        exact hget

/-- `setMenuDepthAttributes` on a container with no findable top-level list
is a no-op. -/
theorem smda_noop (c : Elem) (h : findTopIdx c = none) :
    setMenuDepthAttributes c = c := by
  rw [setMenuDepthAttributes, h]

theorem findTopIdx_child (c : Elem) (i : Nat) (h : findTopIdx c = some i) :
    ∃ ci, c.children[i]? = some ci ∧ isListSel ci = true := by
  obtain ⟨ci, -, hget, hsel⟩ := findTopIdxAux_some c.children 0 i h
  exact ⟨ci, by simpa using hget, hsel⟩

@[simp] theorem chainPath_nil (e : Elem) : chainPath e [] = true := by
  rw [chainPath]

/-- The top-level list found by the annotator is assigned depth `"0"`. -/
theorem smda_top0 (c : Elem) (i : Nat) (h : findTopIdx c = some i) :
    attrAt (setMenuDepthAttributes c) [i] "data-depth" = some "0" := by
  obtain ⟨ci, hci, -⟩ := findTopIdx_child c i h
  simp only [setMenuDepthAttributes, h]
  have hg := getAt_modifyAt_self (fun e => setDepthRecursively e 0) c [i]
  have hgi : getAt c [i] = some ci := by simp [hci]
  rw [attrAt, hg, hgi, Option.map_some']
  have := attr_setDepthRecursively_chain [] ci 0 (chainPath_nil ci)
  simpa [attrAt] using this

/-- Every nested Level reached through an annotator chain below the
top-level list receives the depth equal to its nesting distance. -/
theorem smda_chain (c : Elem) (i : Nat) (p : Addr) (ci : Elem)
    (h : findTopIdx c = some i) (hci : c.children[i]? = some ci)
    (hchain : chainPath ci p = true) :
    attrAt (setMenuDepthAttributes c) (i :: p) "data-depth" =
      some (toString (p.length / 2)) := by
  obtain ⟨t, cls, a, x, v, ch⟩ := c
  simp only [Elem.children_node] at hci
  have hi : i < ch.length := (List.getElem?_eq_some.1 hci).1
  simp only [setMenuDepthAttributes, h]
  rw [modifyAt_cons_some _ _ _ _ _ _ _ _ _ _ hci, modifyAt_nil]
  rw [attrAt, getAt_cons]
  simp only [Elem.children_node, List.getElem?_set_eq_of_lt _ hi, Option.some_bind]
  have := attr_setDepthRecursively_chain p ci 0 hchain
  rw [attrAt] at this
  simpa using this

/-- Repeated annotator runs produce the same document. -/
theorem smda_idem (c : Elem) :
    setMenuDepthAttributes (setMenuDepthAttributes c) = setMenuDepthAttributes c := by
  rcases h : findTopIdx c with _ | i
  · rw [smda_noop _ h, smda_noop _ h]
  · obtain ⟨ci, hci, hsel⟩ := findTopIdx_child c i h
    obtain ⟨t, cls, a, x, v, ch⟩ := c
    simp only [Elem.children_node] at hci
    have hi : i < ch.length := (List.getElem?_eq_some.1 hci).1
    have hr : setMenuDepthAttributes (Elem.node t cls a x v ch) =
        Elem.node t cls a x v (ch.set i (setDepthRecursively ci 0)) := by
      simp only [setMenuDepthAttributes, h]
      rw [modifyAt_cons_some _ _ _ _ _ _ _ _ _ _ hci, modifyAt_nil]
    rw [hr]
    have hfind2 : findTopIdx (Elem.node t cls a x v
        (ch.set i (setDepthRecursively ci 0))) = some i := by
      rw [findTopIdx, Elem.children_node,
        findTopIdxAux_set ch i 0 _ ci hci (isListSel_setDepthRecursively ci 0)]
      exact h
    simp only [setMenuDepthAttributes, hfind2]
    rw [modifyAt_cons_some _ _ _ _ _ _ _ _ _ _ (List.getElem?_set_eq_of_lt _ hi),
      modifyAt_nil, List.set_set, sdr_idem]

/-- The annotator result does not depend on any pre-existing `data-depth`
value on a node it annotates. -/
theorem smda_insensitive (c : Elem) (i : Nat) (p : Addr) (ci : Elem) (w : String)
    (h : findTopIdx c = some i) (hci : c.children[i]? = some ci)
    (hchain : chainPath ci p = true) :
    setMenuDepthAttributes (setAttrAt c (i :: p) "data-depth" w) =
      setMenuDepthAttributes c := by
  obtain ⟨t, cls, a, x, v, ch⟩ := c
  simp only [Elem.children_node] at hci
  have hi : i < ch.length := (List.getElem?_eq_some.1 hci).1
  rw [setAttrAt, modifyAt_cons_some _ _ _ _ _ _ _ _ _ _ hci]
  set M := modifyAt
    (fun e => Elem.node e.tag e.classes (setAttrL e.attrs "data-depth" w) e.text e.visible e.children)
    ci p with hM
  have hfind2 : findTopIdx (Elem.node t cls a x v (ch.set i M)) = some i := by
    rw [findTopIdx, Elem.children_node,
      findTopIdxAux_set ch i 0 _ ci hci (isListSel_setAttrAt_sub ci p _ _)]
    exact h
  simp only [setMenuDepthAttributes, hfind2, h]
  rw [modifyAt_cons_some _ _ _ _ _ _ _ _ _ _ (List.getElem?_set_eq_of_lt _ hi),
    modifyAt_nil, List.set_set]
  rw [modifyAt_cons_some _ _ _ _ _ _ _ _ _ _ hci, modifyAt_nil]
  congr 1
  exact congrArg (fun z => ch.set i z) (sdr_insensitive p ci 0 w hchain)

theorem isController_of_isCtrlSel (e : Elem) (h : isCtrlSel e = true) :
    isController e = true := by
  rw [isCtrlSel, Bool.and_eq_true] at h
  exact h.1

theorem tagAt_setAttrAt (root : Elem) (b a : Addr) (k v : String) :
    tagAt (setAttrAt root b k v) a = tagAt root a := by
  by_cases hne : a = b
  · subst hne
    rw [tagAt, tagAt, setAttrAt, getAt_modifyAt_self]
    rcases getAt root a with _ | e
    · rfl
    · rfl
  · have h := obs_modifyAt_ne _ (setAttrAt_local k v) root b a hne
    simp only [obs] at h
    rw [tagAt, tagAt, setAttrAt]
    rcases he : getAt root a with _ | e <;> rw [he] at h <;>
      rcases he' : getAt (modifyAt _ root b) a with _ | e' <;> rw [he'] at h <;>
        simp_all

@[simp] theorem nextSibAddr_nil : nextSibAddr [] = none := rfl

@[simp] theorem nextSibAddr_single (i : Nat) : nextSibAddr [i] = some [i + 1] := rfl

@[simp] theorem nextSibAddr_cons2 (i j : Nat) (rest : List Nat) :
    nextSibAddr (i :: j :: rest) = (nextSibAddr (j :: rest)).map (i :: ·) := rfl

theorem nextSibAddr_ne_nil (a s : Addr) (h : nextSibAddr a = some s) : s ≠ [] := by
  induction a generalizing s with
  | nil => simp at h
  | cons i rest ih =>
      cases rest with
      | nil =>
          simp only [nextSibAddr_single, Option.some.injEq] at h
          subst h; simp
      | cons j r =>
          rw [nextSibAddr_cons2] at h
          rcases hs : nextSibAddr (j :: r) with _ | s0 <;> rw [hs] at h
          · simp at h
          · simp only [Option.map_some', Option.some.injEq] at h
            subst h; simp

theorem nextSibAddr_ne (a s : Addr) (h : nextSibAddr a = some s) : s ≠ a := by
  induction a generalizing s with
  | nil => simp at h
  | cons i rest ih =>
      cases rest with
      | nil =>
          simp only [nextSibAddr_single, Option.some.injEq] at h
          subst h
          simp
      | cons j r =>
          rw [nextSibAddr_cons2] at h
          rcases hs : nextSibAddr (j :: r) with _ | s0 <;> rw [hs] at h
          · simp at h
          · simp only [Option.map_some', Option.some.injEq] at h
            subst h
            intro hcontra
            exact ih s0 hs (by injection hcontra)

theorem nextSibAddr_inj (a a' s : Addr) (h : nextSibAddr a = some s)
    (h' : nextSibAddr a' = some s) : a = a' := by
  induction a generalizing a' s with
  | nil => simp at h
  | cons i rest ih =>
      cases rest with
      | nil =>
          simp only [nextSibAddr_single, Option.some.injEq] at h
          subst h
          cases a' with
          | nil => simp at h'
          | cons x xs =>
              cases xs with
              | nil =>
                  simp only [nextSibAddr_single, Option.some.injEq] at h'
                  have : x = i := by injection h' with h1 h2; omega
                  rw [this]
              | cons y ys =>
                  rw [nextSibAddr_cons2] at h'
                  rcases hs : nextSibAddr (y :: ys) with _ | s1 <;> rw [hs] at h'
                  · simp at h'
                  · simp only [Option.map_some', Option.some.injEq,
                      List.cons.injEq] at h'
                    exact absurd h'.2 (nextSibAddr_ne_nil _ _ hs)
      | cons j r =>
          rw [nextSibAddr_cons2] at h
          rcases hs : nextSibAddr (j :: r) with _ | s0 <;> rw [hs] at h
          · simp at h
          · simp only [Option.map_some', Option.some.injEq] at h
            subst h
            cases a' with
            | nil => simp at h'
            | cons x xs =>
                cases xs with
                | nil =>
                    simp only [nextSibAddr_single, Option.some.injEq,
                      List.cons.injEq] at h'
                    exact absurd h'.2.symm (nextSibAddr_ne_nil _ _ hs)
                | cons y ys =>
                    rw [nextSibAddr_cons2] at h'
                    rcases ht : nextSibAddr (y :: ys) with _ | s1 <;> rw [ht] at h'
                    · simp at h'
                    · simp only [Option.map_some', Option.some.injEq,
                        List.cons.injEq] at h'
                      obtain ⟨rfl, rfl⟩ := h'
                      rw [ih _ _ hs ht]

theorem nextElemSib_setAttrAt (root : Elem) (b a : Addr) (k v : String) :
    nextElemSib (setAttrAt root b k v) a = nextElemSib root a := by
  rw [nextElemSib, nextElemSib]
  rcases nextSibAddr a with _ | s
  · rfl
  · simp [isSome_getAt_setAttrAt]

theorem boundOK_setAttrAt (d : Elem) (a s b : Addr) (k v : String)
    (h : boundOK d a s)
    (hba : b = a → (k ≠ "aria-haspopup" ∧ k ≠ "data-plugin-id" ∧
      k ≠ "aria-controls" ∧ k ≠ "data-menu-controls"))
    (hbs : b = s → k ≠ "id") : boundOK (setAttrAt d b k v) a s := by
  obtain ⟨h1, pid, h2, h3, h4, h5⟩ := h
  have step : ∀ (c : Addr) (k' : String), (b = c → k ≠ k') →
      attrAt (setAttrAt d b k v) c k' = attrAt d c k' := by
    intro c k' hk
    by_cases hbc : b = c
    · subst hbc
      exact attrAt_setAttrAt_otherKey d b k v k' (fun hh => hk rfl hh.symm)
    · exact attrAt_setAttrAt_ne d c b k v k' (fun hh => hbc hh.symm)
  refine ⟨?_, pid, ?_, ?_, ?_, ?_⟩
  · rw [step a _ (fun hb => (hba hb).1)]; exact h1
  · rw [step a _ (fun hb => (hba hb).2.1)]; exact h2
  · rw [step a _ (fun hb => (hba hb).2.2.1)]; exact h3
  · rw [step a _ (fun hb => (hba hb).2.2.2)]; exact h4
  · rw [step s _ hbs]; exact h5

theorem nextElemSib_spec (root : Elem) (a s : Addr) (h : nextElemSib root a = some s) :
    nextSibAddr a = some s ∧ (getAt root s).isSome := by
  rw [nextElemSib] at h
  rcases hn : nextSibAddr a with _ | s0
  · rw [hn] at h; simp at h
  · rw [hn] at h
    simp only [Option.some_bind] at h
    by_cases hv : (getAt root s0).isSome
    · rw [if_pos hv] at h
      have hs : s0 = s := by simpa using h
      subst hs
      exact ⟨rfl, hv⟩
    · rw [if_neg hv] at h; simp at h

theorem tagAt_attachOneBind (d : Elem) (a : Addr) (el : Elem) (id : String)
    (n : Nat) (c : Addr) :
    tagAt (attachOneBind d a el id n).1 c = tagAt d c := by
  rw [attachOneBind]
  rcases nextElemSib d a with _ | s
  · by_cases hc : isController el <;> simp [hc, tagAt_setAttrAt]
  · by_cases hc : isController el
    · simp [hc, tagAt_setAttrAt]
    · simp only [hc, Bool.false_eq_true, if_false]
      rcases querySelFirst (setAttrAt (setAttrAt d s "id" ("panel-" ++ id))
          a "data-menu-controls" ("panel-" ++ id)) s (fun e => hasClass e "menu") with _ | nm <;>
        simp [tagAt_setAttrAt]

theorem isSome_attachOneBind (d : Elem) (a : Addr) (el : Elem) (id : String)
    (n : Nat) (c : Addr) :
    (getAt (attachOneBind d a el id n).1 c).isSome = (getAt d c).isSome := by
  rw [attachOneBind]
  rcases nextElemSib d a with _ | s
  · by_cases hc : isController el <;> simp [hc, isSome_getAt_setAttrAt]
  · by_cases hc : isController el
    · simp [hc, isSome_getAt_setAttrAt]
    · simp only [hc, Bool.false_eq_true, if_false]
      rcases querySelFirst (setAttrAt (setAttrAt d s "id" ("panel-" ++ id))
          a "data-menu-controls" ("panel-" ++ id)) s (fun e => hasClass e "menu") with _ | nm <;>
        simp [isSome_getAt_setAttrAt]

theorem tagAt_attachOne (root : Elem) (a : Addr) (n : Nat) (c : Addr) :
    tagAt (attachOne root a n).1 c = tagAt root c := by
  rcases hel : getAt root a with _ | el
  · simp only [attachOne, hel]
  · simp only [attachOne, hel]
    rcases hid : getAttrL el.attrs "data-plugin-id" with _ | idv
    · simp only [hid]
      rw [attachOneGen, tagAt_attachOneBind, tagAt_setAttrAt]
    · simp only [hid]
      by_cases hemp : idv = ""
      · rw [if_pos hemp, attachOneGen, tagAt_attachOneBind, tagAt_setAttrAt]
      · rw [if_neg hemp, tagAt_attachOneBind]

theorem isSome_attachOne (root : Elem) (a : Addr) (n : Nat) (c : Addr) :
    (getAt (attachOne root a n).1 c).isSome = (getAt root c).isSome := by
  rcases hel : getAt root a with _ | el
  · simp only [attachOne, hel]
  · simp only [attachOne, hel]
    rcases hid : getAttrL el.attrs "data-plugin-id" with _ | idv
    · simp only [hid]
      rw [attachOneGen, isSome_attachOneBind, isSome_getAt_setAttrAt]
    · simp only [hid]
      by_cases hemp : idv = ""
      · rw [if_pos hemp, attachOneGen, isSome_attachOneBind, isSome_getAt_setAttrAt]
      · rw [if_neg hemp, isSome_attachOneBind]

theorem nextElemSib_attachOne (root : Elem) (a : Addr) (n : Nat) (c : Addr) :
    nextElemSib (attachOne root a n).1 c = nextElemSib root c := by
  rw [nextElemSib, nextElemSib]
  rcases nextSibAddr c with _ | s
  · rfl
  · simp [isSome_attachOne]

/-- The binder contract established for one Controller with a following
sibling (src/index.js lines 154-162). -/
theorem attachOneBind_boundOK (d : Elem) (a s : Addr) (el : Elem) (id : String)
    (n : Nat) (hc : isController el = true) (hsib : nextElemSib d a = some s)
    (hplug : attrAt d a "data-plugin-id" = some id)
    (hva : (getAt d a).isSome) :
    boundOK (attachOneBind d a el id n).1 a s := by
  obtain ⟨hsA, hvs⟩ := nextElemSib_spec d a s hsib
  have hsa : s ≠ a := nextSibAddr_ne a s hsA
  have has : a ≠ s := fun hh => hsa hh.symm
  simp only [attachOneBind, hsib, if_pos hc]
  refine ⟨?_, id, ?_, ?_, ?_, ?_⟩
  · rw [attrAt_setAttrAt_otherKey _ _ _ _ _ (by decide),
      attrAt_setAttrAt_otherKey _ _ _ _ _ (by decide),
      attrAt_setAttrAt_otherKey _ _ _ _ _ (by decide),
      attrAt_setAttrAt_ne _ _ _ _ _ _ has,
      attrAt_setAttrAt_self _ _ _ _ hva]
  · rw [attrAt_setAttrAt_otherKey _ _ _ _ _ (by decide),
      attrAt_setAttrAt_otherKey _ _ _ _ _ (by decide),
      attrAt_setAttrAt_otherKey _ _ _ _ _ (by decide),
      attrAt_setAttrAt_ne _ _ _ _ _ _ has,
      attrAt_setAttrAt_otherKey _ _ _ _ _ (by decide)]
    exact hplug
  · rw [attrAt_setAttrAt_otherKey _ _ _ _ _ (by decide),
      attrAt_setAttrAt_otherKey _ _ _ _ _ (by decide),
      attrAt_setAttrAt_self]
    rw [isSome_getAt_setAttrAt, isSome_getAt_setAttrAt]
    exact hva
  · rw [attrAt_setAttrAt_otherKey _ _ _ _ _ (by decide),
      attrAt_setAttrAt_self]
    rw [isSome_getAt_setAttrAt, isSome_getAt_setAttrAt, isSome_getAt_setAttrAt]
    exact hva
  · rw [attrAt_setAttrAt_ne _ _ _ _ _ _ hsa,
      attrAt_setAttrAt_ne _ _ _ _ _ _ hsa,
      attrAt_setAttrAt_ne _ _ _ _ _ _ hsa,
      attrAt_setAttrAt_self]
    rw [isSome_getAt_setAttrAt]
    exact hvs

/-- One `attachControlsToElements` iteration establishes the contract for
the element it visits. -/
theorem attachOne_boundOK (root : Elem) (a s : Addr) (n : Nat) (el : Elem)
    (hel : getAt root a = some el) (hc : isController el = true)
    (hsib : nextElemSib root a = some s) :
    boundOK (attachOne root a n).1 a s := by
  have hva : (getAt root a).isSome = true := by rw [hel]; rfl
  simp only [attachOne, hel]
  rcases hid : getAttrL el.attrs "data-plugin-id" with _ | idv
  · simp only [hid]
    rw [attachOneGen]
    apply attachOneBind_boundOK _ _ _ _ _ _ hc
    · rw [nextElemSib_setAttrAt]; exact hsib
    · exact attrAt_setAttrAt_self _ _ _ _ hva
    · rw [isSome_getAt_setAttrAt]; exact hva
  · simp only [hid]
    by_cases hemp : idv = ""
    · rw [if_pos hemp, attachOneGen]
      apply attachOneBind_boundOK _ _ _ _ _ _ hc
      · rw [nextElemSib_setAttrAt]; exact hsib
      · exact attrAt_setAttrAt_self _ _ _ _ hva
      · rw [isSome_getAt_setAttrAt]; exact hva
    · rw [if_neg hemp]
      apply attachOneBind_boundOK _ _ _ _ _ _ hc hsib
      · rw [attrAt, hel]; exact hid
      · exact hva

/-- Later binder iterations do not disturb an established contract. -/
theorem attachOneBind_preserves (d : Elem) (a s a' : Addr) (el' : Elem)
    (id : String) (n : Nat) (h : boundOK d a s) (hne : a' ≠ a)
    (hsA : nextSibAddr a = some s) (hc' : isController el' = true) :
    boundOK (attachOneBind d a' el' id n).1 a s := by
  rcases hsib' : nextElemSib d a' with _ | s'
  · simp only [attachOneBind, hsib', if_pos hc']
    exact boundOK_setAttrAt _ _ _ _ _ _ h
      (fun hb => absurd hb hne)
      (fun _ => by decide)
  · simp only [attachOneBind, hsib', if_pos hc']
    have hs'A : nextSibAddr a' = some s' := (nextElemSib_spec d a' s' hsib').1
    have hss' : s' ≠ s := fun heq =>
      hne (nextSibAddr_inj a' a s (heq ▸ hs'A) hsA)
    refine boundOK_setAttrAt _ _ _ _ _ _
      (boundOK_setAttrAt _ _ _ _ _ _
        (boundOK_setAttrAt _ _ _ _ _ _
          (boundOK_setAttrAt _ _ _ _ _ _
            (boundOK_setAttrAt _ _ _ _ _ _ h
              (fun hb => absurd hb hne) (fun _ => by decide))
            (fun hb => by decide) (fun hb => absurd hb hss'))
          (fun hb => absurd hb hne) (fun _ => by decide))
        (fun hb => absurd hb hne) (fun _ => by decide))
      (fun hb => absurd hb hne) (fun _ => by decide)

theorem attachOne_preserves (d : Elem) (a s a' : Addr) (n : Nat)
    (h : boundOK d a s) (hne : a' ≠ a) (hsA : nextSibAddr a = some s)
    (hctrl' : ∀ el', getAt d a' = some el' → isController el' = true) :
    boundOK (attachOne d a' n).1 a s := by
  rcases hel' : getAt d a' with _ | el'
  · simp only [attachOne, hel']
    exact h
  · simp only [attachOne, hel']
    have hc' := hctrl' el' hel'
    have hpre : boundOK (setAttrAt d a' "data-plugin-id" ("menu-" ++ toString n)) a s :=
      boundOK_setAttrAt _ _ _ _ _ _ h (fun hb => absurd hb hne) (fun _ => by decide)
    rcases hid : getAttrL el'.attrs "data-plugin-id" with _ | idv
    · simp only [hid]
      rw [attachOneGen]
      exact attachOneBind_preserves _ _ _ _ _ _ _ hpre hne hsA hc'
    · simp only [hid]
      by_cases hemp : idv = ""
      · rw [if_pos hemp, attachOneGen]
        exact attachOneBind_preserves _ _ _ _ _ _ _ hpre hne hsA hc'
      · rw [if_neg hemp]
        exact attachOneBind_preserves _ _ _ _ _ _ _ h hne hsA hc'

theorem attachControls_fold_preserves (rest : List Addr) (d : Elem) (n : Nat)
    (a s : Addr) (h : boundOK d a s) (hnotin : a ∉ rest)
    (hsA : nextSibAddr a = some s)
    (hctrl : ∀ a' ∈ rest, ∀ el', getAt d a' = some el' → isController el' = true) :
    boundOK (attachControlsToElements d rest n).1 a s := by
  induction rest generalizing d n with
  | nil => exact h
  | cons a0 r ih =>
      have hstep : boundOK (attachOne d a0 n).1 a s :=
        attachOne_preserves d a s a0 n h
          (fun hb => hnotin (hb ▸ List.mem_cons_self _ _)) hsA
          (hctrl a0 (List.mem_cons_self _ _))
      have hfold : attachControlsToElements d (a0 :: r) n =
          attachControlsToElements (attachOne d a0 n).1 r (attachOne d a0 n).2 := by
        rw [attachControlsToElements, attachControlsToElements, List.foldl_cons]
      rw [hfold]
      apply ih _ _ hstep (fun hb => hnotin (List.mem_cons.2 (Or.inr hb)))
      intro a' ha' el' hel'
      have htag := tagAt_attachOne d a0 n a'
      rw [tagAt, hel'] at htag
      rcases hd : getAt d a' with _ | el0
      · rw [tagAt, hd] at htag; simp at htag
      · rw [tagAt, hd] at htag
        simp only [Option.map_some', Option.some.injEq] at htag
        have := hctrl a' (List.mem_cons.2 (Or.inr ha')) el0 hd
        rw [isController] at this ⊢
        rw [htag]
        exact this

/-- `attachControlsToElements` over a duplicate-free snapshot of controller
elements establishes the binding contract for every visited Controller that
has a following sibling. -/
theorem attachControls_spec (as : List Addr) (root : Elem) (n : Nat)
    (hnd : as.Nodup)
    (hctrl : ∀ a ∈ as, ∀ el, getAt root a = some el → isController el = true) :
    ∀ a ∈ as, ∀ el, getAt root a = some el → ∀ s, nextElemSib root a = some s →
      boundOK (attachControlsToElements root as n).1 a s := by
  induction as generalizing root n with
  | nil => intro a ha; exact absurd ha (List.not_mem_nil _)
  | cons a0 r ih =>
      intro a ha el hel s hs
      have hfold : attachControlsToElements root (a0 :: r) n =
          attachControlsToElements (attachOne root a0 n).1 r (attachOne root a0 n).2 := by
        rw [attachControlsToElements, attachControlsToElements, List.foldl_cons]
      rcases List.mem_cons.1 ha with rfl | har
      · have h0 : boundOK (attachOne root a n).1 a s :=
          attachOne_boundOK root a s n el hel
            (hctrl a (List.mem_cons_self _ _) el hel) hs
        rw [hfold]
        apply attachControls_fold_preserves r _ _ a s h0
          (fun hb => (List.nodup_cons.1 hnd).1 hb)
          (nextElemSib_spec root a s hs).1
        intro a' ha' el' hel'
        have htag := tagAt_attachOne root a n a'
        rw [tagAt, hel'] at htag
        rcases hd : getAt root a' with _ | el0
        · rw [tagAt, hd] at htag; simp at htag
        · rw [tagAt, hd] at htag
          simp only [Option.map_some', Option.some.injEq] at htag
          have := hctrl a' (List.mem_cons.2 (Or.inr ha')) el0 hd
          rw [isController] at this ⊢
          rw [htag]
          exact this
      · rw [hfold]
        have hv : (getAt (attachOne root a0 n).1 a).isSome = true := by
          rw [isSome_attachOne, hel]; rfl
        rcases he1 : getAt (attachOne root a0 n).1 a with _ | el1
        · rw [he1] at hv; simp at hv
        · apply ih _ _ (List.nodup_cons.1 hnd).2 _ a har el1 he1 s
          · rw [nextElemSib_attachOne]; exact hs
          · intro a' ha' el' hel'
            have htag := tagAt_attachOne root a0 n a'
            rw [tagAt, hel'] at htag
            rcases hd : getAt root a' with _ | el0
            · rw [tagAt, hd] at htag; simp at htag
            · rw [tagAt, hd] at htag
              simp only [Option.map_some', Option.some.injEq] at htag
              have := hctrl a' (List.mem_cons.2 (Or.inr ha')) el0 hd
              rw [isController] at this ⊢
              rw [htag]
              exact this

/-! ### Invariance of selector queries under attribute writes -/
theorem getAt_append (root : Elem) (base r : Addr) :
    getAt root (base ++ r) = (getAt root base).bind fun e => getAt e r := by
  induction base generalizing root with
  | nil => simp
  | cons i rest ih =>
      rw [List.cons_append, getAt_cons, getAt_cons]
      rcases root.children[i]? with _ | c
      · rfl
      · simp only [Option.some_bind]
        exact ih c

theorem descAddrsAux_set (l : List Elem) (i k : Nat) (a c : Elem)
    (hc : l[i]? = some c) (ha : descAddrsE a = descAddrsE c)
    (hlen : a.children.length = c.children.length) :
    descAddrsAux (l.set i a) k = descAddrsAux l k := by
  induction l generalizing i k with
  | nil => simp at hc
  | cons c0 cs ih =>
      match i with
      | 0 =>
          simp only [List.getElem?_cons_zero, Option.some.injEq] at hc
          subst hc
          rw [List.set_cons_zero, descAddrsAux, descAddrsAux, ha]
      | i' + 1 =>
          simp only [List.getElem?_cons_succ] at hc
          rw [List.set_cons_succ, descAddrsAux, descAddrsAux, ih i' (k + 1) hc]

theorem descAddrsE_modifyAt (f : Elem → Elem) (hf : ElemLocal f) (e : Elem)
    (p : Addr) : descAddrsE (modifyAt f e p) = descAddrsE e := by
  induction p generalizing e with
  | nil =>
      rw [modifyAt_nil, descAddrsE_eq, descAddrsE_eq, hf e]
  | cons i rest ih =>
      obtain ⟨t, cls, a, x, v, ch⟩ := e
      rcases hc : ch[i]? with _ | c
      · rw [modifyAt_cons_none _ _ _ _ _ _ _ _ _ hc]
      · rw [modifyAt_cons_some _ _ _ _ _ _ _ _ _ _ hc,
          descAddrsE_eq, descAddrsE_eq]
        simp only [Elem.children_node]
        apply descAddrsAux_set _ _ _ _ _ hc (ih c)
        have := childrenLen_getAt_modifyAt f hf c rest []
        simpa using this

theorem getAt_map_descAddrsE_modifyAt (f : Elem → Elem) (hf : ElemLocal f)
    (root : Elem) (b a : Addr) :
    (getAt (modifyAt f root b) a).map descAddrsE =
      (getAt root a).map descAddrsE := by
  by_cases hab : a = b
  · subst hab
    rw [getAt_modifyAt_self]
    rcases getAt root a with _ | e
    · rfl
    · simp only [Option.map_some']
      have hh := descAddrsE_modifyAt f hf e []
      rw [modifyAt_nil] at hh
      exact congrArg some hh
  · induction b generalizing root a with
    | nil =>
        match a, hab with
        | [], hab => exact absurd rfl hab
        | i :: rest, _ =>
            simp [modifyAt_nil, hf root]
    | cons i brest ih =>
        obtain ⟨t, cls, at_, x, v, ch⟩ := root
        rcases h : ch[i]? with _ | c
        · rw [modifyAt_cons_none _ _ _ _ _ _ _ _ _ h]
        · rw [modifyAt_cons_some _ _ _ _ _ _ _ _ _ _ h]
          have hi : i < ch.length := (List.getElem?_eq_some.1 h).1
          match a with
          | [] =>
              simp only [getAt_nil, Option.map_some']
              refine congrArg some ?_
              rw [descAddrsE_eq, descAddrsE_eq]
              simp only [Elem.children_node]
              apply descAddrsAux_set _ _ _ _ _ h
                (descAddrsE_modifyAt f hf c brest)
              have := childrenLen_getAt_modifyAt f hf c brest []
              simpa using this
          | j :: arest =>
              by_cases hj : j = i
              · subst hj
                have harest : arest ≠ brest := fun hh => hab (by rw [hh])
                simp only [getAt_cons, Elem.children_node,
                  List.getElem?_set_eq_of_lt _ hi, h, Option.some_bind]
                by_cases h2 : arest = brest
                · exact absurd h2 harest
                · exact ih c arest harest
              · simp [getAt_cons, List.getElem?_set_ne (fun hh => hj hh.symm)]

/-- `matchAddrs` with the filter re-expressed over absolute addresses. -/
theorem matchAddrs_filter_abs (root : Elem) (base : Addr) (p : Elem → Bool)
    (e : Elem) (he : getAt root base = some e) :
    matchAddrs root base p =
      ((descAddrs e).filter fun r =>
        ((getAt root (base ++ r)).map p).getD false).map (base ++ ·) := by
  simp only [matchAddrs, he]
  congr 1
  apply List.filter_congr
  intro r _
  rw [getAt_append, he, Option.some_bind]

theorem elemPredAt_modifyAt (f : Elem → Elem) (hf : ElemLocal f)
    (p : Elem → Bool) (hpf : ∀ e, p (f e) = p e) (hp : NodeLocalPred p)
    (root : Elem) (b a : Addr) :
    elemPredAt (modifyAt f root b) p a = elemPredAt root p a := by
  by_cases hab : a = b
  · subst hab
    rw [elemPredAt, elemPredAt, getAt_modifyAt_self]
    rcases getAt root a with _ | e
    · rfl
    · simp [hpf e]
  · have h := obs_modifyAt_ne f hf root b a hab
    simp only [obs] at h
    rw [elemPredAt, elemPredAt]
    rcases he : getAt root a with _ | e <;>
      rcases he' : getAt (modifyAt f root b) a with _ | e' <;>
        rw [he, he'] at h
    · simp at h
    · simp at h
    · simp only [Option.map_some', Option.some.injEq, Prod.mk.injEq] at h
      simp only [Option.map_some', Option.getD_some]
      exact hp e' e h.1 h.2.1 h.2.2.1 h.2.2.2.1 h.2.2.2.2

theorem matchAddrs_modifyAt (f : Elem → Elem) (hf : ElemLocal f)
    (p : Elem → Bool) (hpf : ∀ e, p (f e) = p e) (hp : NodeLocalPred p)
    (root : Elem) (b base : Addr) :
    matchAddrs (modifyAt f root b) base p = matchAddrs root base p := by
  rcases he : getAt root base with _ | e
  · have : getAt (modifyAt f root b) base = none := by
      have := isSome_getAt_modifyAt f hf root b base
      rw [he] at this
      rcases hh : getAt (modifyAt f root b) base with _ | x
      · rfl
      · rw [hh] at this; simp at this
    rw [matchAddrs, matchAddrs, he, this]
  · have hds := getAt_map_descAddrsE_modifyAt f hf root b base
    rw [he] at hds
    rcases he' : getAt (modifyAt f root b) base with _ | e'
    · rw [he'] at hds; simp at hds
    · rw [he'] at hds
      simp only [Option.map_some', Option.some.injEq] at hds
      rw [matchAddrs_filter_abs _ _ _ _ he, matchAddrs_filter_abs _ _ _ _ he']
      rw [show descAddrs e' = descAddrs e from hds]
      congr 1
      apply List.filter_congr
      intro r _
      have := elemPredAt_modifyAt f hf p hpf hp root b (base ++ r)
      rw [elemPredAt, elemPredAt] at this
      exact this

theorem classesAt_setAttrAt (root : Elem) (b a : Addr) (k v : String) :
    ((getAt (setAttrAt root b k v) a).map Elem.classes) =
      (getAt root a).map Elem.classes := by
  by_cases hne : a = b
  · subst hne
    rw [setAttrAt, getAt_modifyAt_self]
    rcases getAt root a with _ | e
    · rfl
    · rfl
  · have h := obs_modifyAt_ne _ (setAttrAt_local k v) root b a hne
    simp only [obs] at h
    rw [setAttrAt]
    rcases he : getAt root a with _ | e <;> rw [he] at h <;>
      rcases he' : getAt (modifyAt _ root b) a with _ | e' <;> rw [he'] at h <;>
        simp_all

theorem attrAt_setAttrAt_otherKey_any (root : Elem) (b a : Addr) (k v k' : String)
    (hk : k' ≠ k) : attrAt (setAttrAt root b k v) a k' = attrAt root a k' := by
  by_cases hne : a = b
  · subst hne
    exact attrAt_setAttrAt_otherKey root a k v k' hk
  · exact attrAt_setAttrAt_ne root a b k v k' hne

theorem attrAt_foldSetAttr_otherKey (root : Elem) (L : List Addr) (k v k' : String)
    (c : Addr) (hk : k' ≠ k) :
    attrAt (foldSetAttr root L k v) c k' = attrAt root c k' := by
  induction L generalizing root with
  | nil => rfl
  | cons b rest ih =>
      rw [foldSetAttr, List.foldl_cons, ← foldSetAttr, ih,
        attrAt_setAttrAt_otherKey_any _ _ _ _ _ _ hk]

theorem matchAddrs_setAttrAt (root : Elem) (b base : Addr) (k v : String)
    (p : Elem → Bool) (hp : NodeLocalPred p)
    (hpk : ∀ t cls at_ x vis ch, p (.node t cls (setAttrL at_ k v) x vis ch) =
      p (.node t cls at_ x vis ch)) :
    matchAddrs (setAttrAt root b k v) base p = matchAddrs root base p := by
  apply matchAddrs_modifyAt _ (setAttrAt_local k v) p _ hp
  intro e
  obtain ⟨t, cls, at_, x, vis, ch⟩ := e
  exact hpk t cls at_ x vis ch

theorem matchAddrs_foldSetAttr (root : Elem) (L : List Addr) (base : Addr)
    (k v : String) (p : Elem → Bool) (hp : NodeLocalPred p)
    (hpk : ∀ t cls at_ x vis ch, p (.node t cls (setAttrL at_ k v) x vis ch) =
      p (.node t cls at_ x vis ch)) :
    matchAddrs (foldSetAttr root L k v) base p = matchAddrs root base p := by
  induction L generalizing root with
  | nil => rfl
  | cons b rest ih =>
      rw [foldSetAttr, List.foldl_cons, ← foldSetAttr, ih,
        matchAddrs_setAttrAt _ _ _ _ _ _ hp hpk]

theorem elemPredAt_setAttrAt (root : Elem) (b a : Addr) (k v : String)
    (p : Elem → Bool) (hp : NodeLocalPred p)
    (hpk : ∀ t cls at_ x vis ch, p (.node t cls (setAttrL at_ k v) x vis ch) =
      p (.node t cls at_ x vis ch)) :
    elemPredAt (setAttrAt root b k v) p a = elemPredAt root p a := by
  apply elemPredAt_modifyAt _ (setAttrAt_local k v) p _ hp
  intro e
  obtain ⟨t, cls, at_, x, vis, ch⟩ := e
  exact hpk t cls at_ x vis ch

theorem elemPredAt_foldSetAttr (root : Elem) (L : List Addr) (a : Addr)
    (k v : String) (p : Elem → Bool) (hp : NodeLocalPred p)
    (hpk : ∀ t cls at_ x vis ch, p (.node t cls (setAttrL at_ k v) x vis ch) =
      p (.node t cls at_ x vis ch)) :
    elemPredAt (foldSetAttr root L k v) p a = elemPredAt root p a := by
  induction L generalizing root with
  | nil => rfl
  | cons b rest ih =>
      rw [foldSetAttr, List.foldl_cons, ← foldSetAttr, ih,
        elemPredAt_setAttrAt _ _ _ _ _ _ hp hpk]

theorem closestBy_congr (p q : Addr → Bool) (a : Addr) (h : ∀ x, p x = q x) :
    closestBy p a = closestBy q a := by
  have : p = q := funext h
  rw [this]

theorem mem_matchAddrs (root : Elem) (base : Addr) (p : Elem → Bool) (a : Addr) :
    a ∈ matchAddrs root base p ↔
      (getAt root base).isSome ∧ ∃ r, r ≠ [] ∧ a = base ++ r ∧
        (getAt root a).isSome ∧ ((getAt root a).map p).getD false = true := by
  rcases he : getAt root base with _ | e
  · simp [matchAddrs, he]
  · rw [matchAddrs_filter_abs _ _ _ _ he]
    constructor
    · intro h
      rcases List.mem_map.1 h with ⟨r, hr, rfl⟩
      rcases List.mem_filter.1 hr with ⟨hrd, hpred⟩
      have hmem := (mem_descAddrs e r).1 hrd
      refine ⟨rfl, r, hmem.1, rfl, ?_, hpred⟩
      rw [getAt_append, he, Option.some_bind]
      exact hmem.2
    · rintro ⟨-, r, hrne, rfl, hsome, hpred⟩
      refine List.mem_map.2 ⟨r, List.mem_filter.2 ⟨?_, hpred⟩, rfl⟩
      apply (mem_descAddrs e r).2
      refine ⟨hrne, ?_⟩
      rw [getAt_append, he, Option.some_bind] at hsome
      exact hsome

/-! ### Bridges: the literal post-`init()` documents are the pipeline runs -/
set_option maxHeartbeats 4000000 in
theorem initRun_demoRaw :
    (initRun { root := demoRaw, listeners := [], ctr := 0 }).root = demoDoc ∧
    (initRun { root := demoRaw, listeners := [], ctr := 0 }).listeners =
      demoInit.listeners ∧
    (initRun { root := demoRaw, listeners := [], ctr := 0 }).ctr = demoInit.ctr := by
  refine ⟨by decide, by decide, by decide⟩

set_option maxHeartbeats 2000000 in
theorem initRun_demo3Raw :
    (initRun { root := demo3Raw, listeners := [], ctr := 0 }).root = demo3Doc := by
  decide

set_option maxHeartbeats 2000000 in
theorem initRun_demoMobRaw :
    (initRun { root := demoMobRaw, listeners := [], ctr := 0 }).root = demoMob := by
  decide

/-! ### Assorted helper lemmas for the claim theorems -/
theorem head?_mem {A : Type} {l : List A} {a : A} (h : l.head? = some a) : a ∈ l := by
  cases l with
  | nil => cases h
  | cons x xs =>
      simp only [List.head?_cons, Option.some.injEq] at h
      subst h
      exact List.mem_cons_self _ _

theorem removeClassAt_local (c : String) :
    ElemLocal (fun e =>
      Elem.node e.tag (e.classes.filter (· ≠ c)) e.attrs e.text e.visible e.children) :=
  fun _ => rfl

theorem hasClassAt_removeClassAt_self (root : Elem) (a : Addr) (c : String) :
    hasClassAt (removeClassAt root a c) a c = false := by
  rw [hasClassAt, removeClassAt, getAt_modifyAt_self]
  rcases getAt root a with _ | e
  · rfl
  · simp [hasClass, List.mem_filter]

theorem hasClassAt_setAttrAt (root : Elem) (b a : Addr) (k v c : String) :
    hasClassAt (setAttrAt root b k v) a c = hasClassAt root a c := by
  have h := classesAt_setAttrAt root b a k v
  rw [hasClassAt, hasClassAt]
  rcases he : getAt root a with _ | e <;>
    rcases he' : getAt (setAttrAt root b k v) a with _ | e' <;>
      rw [he, he'] at h
  · simp at h
  · simp at h
  · simp only [Option.map_some', Option.some.injEq] at h
    show hasClass e' c = hasClass e c
    rw [hasClass, hasClass, h]

/-! ### C1: the Tree Annotator -/
/-- C1 counterexample: with a non-list wrapper `div` between the menu item
and its nested list, the annotator leaves the nested list without any
`data-depth` attribute at all, instead of assigning parent-depth + 1. -/
theorem claim1_counterexample :
    attrAt (setMenuDepthAttributes wrapDemo) [0] "data-depth" = some "0" ∧
    attrAt (setMenuDepthAttributes wrapDemo) [0, 0, 0, 0] "data-depth" = none := by
  decide

/-- C1 (amended): the annotator is a no-op when no top-level list is found;
otherwise it assigns depth 0 to the found top-level list and depth
`p.length / 2` (one more per nesting step) along every chain alternating
direct `.menu__item` children and their direct list children; it is
idempotent, and insensitive to pre-existing `data-depth` values on chain
nodes.  The descent stops at non-list wrapper elements
(`claim1_counterexample`), so "regardless of intervening wrappers" fails. -/
theorem claim1_annotator :
    (∀ c : Elem, findTopIdx c = none → setMenuDepthAttributes c = c) ∧
    (∀ (c : Elem) (i : Nat), findTopIdx c = some i →
      attrAt (setMenuDepthAttributes c) [i] "data-depth" = some "0") ∧
    (∀ (c : Elem) (i : Nat) (p : Addr) (ci : Elem), findTopIdx c = some i →
      c.children[i]? = some ci → chainPath ci p = true →
      attrAt (setMenuDepthAttributes c) (i :: p) "data-depth" =
        some (toString (p.length / 2))) ∧
    (∀ c : Elem, setMenuDepthAttributes (setMenuDepthAttributes c) =
      setMenuDepthAttributes c) ∧
    (∀ (c : Elem) (i : Nat) (p : Addr) (ci : Elem) (w : String),
      findTopIdx c = some i → c.children[i]? = some ci → chainPath ci p = true →
      setMenuDepthAttributes (setAttrAt c (i :: p) "data-depth" w) =
        setMenuDepthAttributes c) :=
  ⟨smda_noop, smda_top0, smda_chain, smda_idem, smda_insensitive⟩

/-- Witness for C1 on the concrete container `c1Demo`. -/
theorem claim1_witness :
    attrAt (setMenuDepthAttributes c1Demo) [0] "data-depth" = some "0" ∧
    attrAt (setMenuDepthAttributes c1Demo) [0, 0, 1] "data-depth" = some "1" ∧
    setMenuDepthAttributes (setMenuDepthAttributes c1Demo) =
      setMenuDepthAttributes c1Demo := by
  have h := claim1_annotator
  refine ⟨h.2.1 c1Demo 0 (by decide), ?_, h.2.2.2.1 c1Demo⟩
  exact h.2.2.1 c1Demo 0 [0, 1]
    (el "ul" ["menu"] []
      [el "li" ["menu__item"] []
        [elT "button" ["menu__link"] [] "A", el "ul" ["menu"] [] []]])
    (by decide) (by decide) (by decide)

/-! ### C4: the sibling-less controller -/
/-- C4: a Controller bound without a following sibling gets the popup
marker and no relationship attributes, and click and most keys are handled
without throwing — but ArrowDown dereferences the missing
`nextElementSibling.dataset` (src/index.js line 938) and throws, against
the spec's no-exception guarantee. -/
theorem claim4_arrowdown_throws :
    attrAt demo3Doc btn3 "aria-haspopup" = some "true" ∧
    attrAt demo3Doc btn3 "data-menu-controls" = none ∧
    attrAt demo3Doc btn3 "aria-controls" = none ∧
    onButtonKeydown demo3Doc btn3 "ArrowDown" false true 5 = none ∧
    (onButtonKeydown demo3Doc btn3 "ArrowUp" false true 5).isSome = true ∧
    (onButtonKeydown demo3Doc btn3 "ArrowLeft" false true 5).isSome = true ∧
    (onButtonKeydown demo3Doc btn3 "ArrowRight" false true 5).isSome = true ∧
    (onButtonKeydown demo3Doc btn3 "Escape" false true 5).isSome = true ∧
    (onButtonClick demo3Doc btn3 false).isSome = true := by
  decide

/-! ### C5: ArrowRight on the collapsed About controller -/
/-- C5 counterexample: ArrowRight on the collapsed About controller
neither opens its submenu nor focuses Our Story. -/
theorem claim5_counterexample :
    (onButtonKeydown demoDoc aboutBtn "ArrowRight" false true 5).map
      (fun r => (r.2 == some ourStoryLink, isOpen r.1 aboutBtn)) =
      some (false, false) := by
  decide

/-- C5 (amended): ArrowRight on the collapsed About controller advances
focus to the Contact link and leaves the submenu collapsed (the sibling
submenu carries `data-depth="1"`, so the branch falls through to
`handleRightArrow`); ArrowDown is the key that opens the submenu and
focuses Our Story. -/
theorem claim5_arrowright :
    (onButtonKeydown demoDoc aboutBtn "ArrowRight" false true 5).map
      (fun r => (r.2, attrAt r.1 aboutBtn "aria-expanded")) =
      some (some contactLink, some "false") ∧
    (onButtonKeydown demoDoc aboutBtn "ArrowDown" false true 5).map
      (fun r => (r.2, attrAt r.1 aboutBtn "aria-expanded")) =
      some (some ourStoryLink, some "true") := by
  decide

/-! ### C6: Escape -/
/-- Whenever `handleEscape` reports a focus target, that target is the
controller owning the enclosing list: it received a collapsing write and
every other node is untouched. -/
theorem handleEscape_closes (root : Elem) (dn btn : Addr)
    (h : (handleEscapeML root dn).2 = some btn) :
    attrAt (handleEscapeML root dn).1 btn "aria-expanded" = some "false" ∧
    ∀ a, a ≠ btn → obs (handleEscapeML root dn).1 a = obs root a := by
  rw [handleEscapeML] at h ⊢
  rcases hu : closestBy (elemPredAt root fun e => e.tag == "ul") dn with _ | mn
  · rw [hu] at h
    simp at h
  · rw [hu] at h
    dsimp only at h ⊢
    rcases hid : attrAt root mn "id" with _ | idv
    · rw [hid] at h
      simp at h
    · rw [hid] at h
      dsimp only at h ⊢
      by_cases hidv : idv = ""
      · rw [if_pos hidv] at h
        simp at h
      · rw [if_neg hidv] at h ⊢
        rcases hq : querySelFirst root [] (fun e =>
            getAttrL e.attrs "data-menu-controls" == some idv) with _ | b
        · rw [hq] at h
          simp at h
        · rw [hq] at h
          dsimp only at h ⊢
          simp only [Option.some.injEq] at h
          subst h
          have hbsome : (getAt root b).isSome := by
            have hmem : b ∈ matchAddrs root [] (fun e =>
                getAttrL e.attrs "data-menu-controls" == some idv) := by
              rw [querySelFirst] at hq
              exact head?_mem hq
            exact ((mem_matchAddrs root [] _ b).1 hmem).2.choose_spec.2.2.1
          refine ⟨attrAt_setAttrAt_self root b _ _ hbsome, ?_⟩
          intro a ha
          rw [setAttrAt]
          exact obs_modifyAt_ne _ (setAttrAt_local _ _) root b a ha

/-- C6 (amended): Escape from inside an open submenu collapses exactly that
submenu's owning controller and focuses it, leaving every other node
untouched; a second Escape, now dispatched on the focused controller,
merely re-collapses that controller and moves no focus — it does not walk
up, and the parent popup stays expanded. -/
theorem claim6_escape (root : Elem) (dn btn : Addr)
    (h : (handleEscapeML root dn).2 = some btn) :
    (attrAt (handleEscapeML root dn).1 btn "aria-expanded" = some "false" ∧
      ∀ a, a ≠ btn → obs (handleEscapeML root dn).1 a = obs root a) ∧
    (onMenuitemKeydown demo2Open deepLink2 "Escape" false true =
        some (demo2AfterEsc1, some btnB2) ∧
      attrAt demo2AfterEsc1 btnB2 "aria-expanded" = some "false" ∧
      attrAt demo2AfterEsc1 btnA2 "aria-expanded" = some "true" ∧
      onButtonKeydown demo2AfterEsc1 btnB2 "Escape" false true 5 =
        some (closePopup demo2AfterEsc1 btnB2, none) ∧
      attrAt (closePopup demo2AfterEsc1 btnB2) btnA2 "aria-expanded" = some "true") :=
  ⟨handleEscape_closes root dn btn h, by decide⟩

/-- Witness for C6 at the concrete first-Escape input. -/
theorem claim6_witness :
    (handleEscapeML demo2Open deepLink2).2 = some btnB2 ∧
    attrAt (handleEscapeML demo2Open deepLink2).1 btnB2 "aria-expanded" =
      some "false" :=
  ⟨by decide, (claim6_escape demo2Open deepLink2 btnB2 (by decide)).1.1⟩

/-! ### C7: wrap-around -/
/-- C7 (amended): ArrowDown wraps from the last entry of the open popup's
visible-focusable list back to its first entry (when the depth guard does
not see a depth-0 anchor); ArrowUp, however, navigates the unfiltered
construction-time `menuitemNodes` snapshot, wrapping from its first entry
to the snapshot's last entry whether or not that entry is focusable
(`claim7_counterexample`). -/
theorem claim7_wraparound :
    (∀ (root : Elem) (target f : Addr),
      (downArrowMenuDepth root target == some 0 &&
        tagAt root target == some "a") = false →
      target ∈ getFocusableElements root (closestBy (openPopupListPred root) target) true →
      jsIndexOf
          (getFocusableElements root (closestBy (openPopupListPred root) target) true)
          target =
        ((getFocusableElements root
            (closestBy (openPopupListPred root) target) true).length : Int) - 1 →
      (getFocusableElements root (closestBy (openPopupListPred root) target) true)[0]? =
        some f →
      handleDownArrow root target true = some f) ∧
    (∀ (nodes : List Addr) (target last : Addr),
      jsIndexOf nodes target = 0 → nodes.getLast? = some last →
      handleUpArrow nodes target = some last) := by
  constructor
  · intro root target f hguard hmem hlast hfirst
    rw [handleDownArrow, hguard]
    simp only [Bool.false_eq_true, if_false]
    have hlen : 0 < (getFocusableElements root
        (closestBy (openPopupListPred root) target) true).length :=
      List.length_pos.2 (List.ne_nil_of_mem hmem)
    have hcon : (getFocusableElements root
        (closestBy (openPopupListPred root) target) true).contains target = true := by
      exact List.elem_iff.2 hmem
    rw [if_pos (by simp [hlen, hmem])]
    have htn : (jsIndexOf (getFocusableElements root
        (closestBy (openPopupListPred root) target) true) target).toNat =
        (getFocusableElements root
          (closestBy (openPopupListPred root) target) true).length - 1 := by
      rw [hlast]
      omega
    rw [htn, if_neg (by omega)]
    rw [hfirst]
    rfl
  · intro nodes target last h0 hl
    rw [handleUpArrow, h0, getPreviousItemJS, if_pos (by rfl),
      ← List.getLast?_eq_getElem?]
    exact hl

/-- C7 counterexample: ArrowUp from the first item lands on the snapshot's
last entry even though that entry is not focusable (an anchor without
`href`). -/
theorem claim7_counterexample :
    (onMenuitemKeydown demo4Raw a4First "ArrowUp" false true).map Prod.snd =
      some (some a4Second) ∧
    (getAt demo4Raw a4Second).map focusableSel = some false := by
  decide

/-- Witness for C7 inside the open About popup of the demo page. -/
theorem claim7_witness :
    handleDownArrow demoOpen teamLink true = some ourStoryLink ∧
    handleUpArrow (menuitemNodesML demoDoc ourStoryLink) ourStoryLink =
      some teamLink := by
  have h := claim7_wraparound
  exact ⟨h.1 demoOpen teamLink ourStoryLink (by decide) (by decide) (by decide)
      (by decide),
    h.2 (menuitemNodesML demoDoc ourStoryLink) ourStoryLink teamLink (by decide)
      (by decide)⟩

/-! ### C9: closing the mobile menu -/
/-- C9 counterexample: after the close transition the expanded About
controller inside the container is still expanded and the registered
outside-click listener is still registered (the removal passed a freshly
bound handler), even though the trigger itself collapsed. -/
theorem claim9_counterexample :
    mobS2.winListeners = [("click", 0)] ∧
    attrAt mobS2.root mobBtn "aria-expanded" = some "true" ∧
    attrAt mobS2.root mobTrigger "aria-expanded" = some "false" := by
  decide

/-- C9 (amended): the in-page close transition removes the scroll lock and
collapses only the trigger — every other node keeps its state, and the
listener list is unchanged because the freshly bound handler matches no
registered one; the standalone controller class, by contrast, collapses
every `button.menu__link` in the container and does unregister its stored
outside-click handler (but touches no scroll lock). -/
theorem claim9_close_mobile (s : MobState) (s2 : MobState2) (key key2 : String)
    (hbtn : (getAt s.root s.btn).isSome = true)
    (hfresh : ∀ x ∈ s.winListeners, x.2 ≠ s.ctr)
    (hbtn2 : (getAt s2.root s2.btn).isSome = true) :
    hasClassAt (closeMobileIdx s key).root s.body "js-prevent-scroll" = false ∧
    attrAt (closeMobileIdx s key).root s.btn "aria-expanded" = some "false" ∧
    (closeMobileIdx s key).winListeners = s.winListeners ∧
    (∀ a, a ≠ s.body → a ≠ s.btn →
      obs (closeMobileIdx s key).root a = obs s.root a) ∧
    attrAt (closeMobileStandalone s2 key2).root s2.btn "aria-expanded" =
      some "false" ∧
    (∀ q ∈ matchAddrs (setAttrAt s2.root s2.btn "aria-expanded" "false") s2.container
        (fun e => e.tag == "button" && hasClass e "menu__link"),
      attrAt (closeMobileStandalone s2 key2).root q "aria-expanded" = some "false") ∧
    ("click", s2.onWindowClickId) ∉ (closeMobileStandalone s2 key2).winListeners := by
  have hb1 : (getAt (removeClassAt s.root s.body "js-prevent-scroll") s.btn).isSome =
      true := by
    rw [removeClassAt, isSome_getAt_modifyAt _ (removeClassAt_local _)]
    exact hbtn
  have hb2 : (getAt (setAttrAt s2.root s2.btn "aria-expanded" "false") s2.btn).isSome =
      true := by
    rw [isSome_getAt_setAttrAt]
    exact hbtn2
  refine ⟨?_, ?_, ?_, ?_, ?_, ?_, ?_⟩
  · rw [closeMobileIdx]
    rw [hasClassAt_setAttrAt]
    exact hasClassAt_removeClassAt_self s.root s.body "js-prevent-scroll"
  · rw [closeMobileIdx]
    exact attrAt_setAttrAt_self _ s.btn _ _ hb1
  · rw [closeMobileIdx]
    refine List.filter_eq_self.2 ?_
    intro x hx
    have hne := hfresh x hx
    simp [beq_iff_eq, hne]
  · intro a ha1 ha2
    rw [closeMobileIdx]
    show obs (setAttrAt _ s.btn _ _) a = _
    rw [setAttrAt]
    rw [obs_modifyAt_ne _ (setAttrAt_local _ _) _ s.btn a ha2]
    rw [removeClassAt]
    exact obs_modifyAt_ne _ (removeClassAt_local _) _ s.body a ha1
  · rw [closeMobileStandalone]
    by_cases hmem : s2.btn ∈ matchAddrs (setAttrAt s2.root s2.btn "aria-expanded"
        "false") s2.container (fun e => e.tag == "button" && hasClass e "menu__link")
    · exact attrAt_foldSetAttr_mem _ _ _ _ _ hmem hb2
    · rw [attrAt_foldSetAttr_not_mem _ _ _ _ _ _ hmem]
      exact attrAt_setAttrAt_self _ s2.btn _ _ hbtn2
  · intro q hq
    rw [closeMobileStandalone]
    have hqsome := ((mem_matchAddrs _ _ _ q).1 hq).2.choose_spec.2.2.1
    exact attrAt_foldSetAttr_mem _ _ _ _ _ hq hqsome
  · rw [closeMobileStandalone]
    intro hmem
    have := (List.mem_filter.1 hmem).2
    simp at this

/-- Witness for C9 on the concrete opened mobile page. -/
theorem claim9_witness :
    hasClassAt (closeMobileIdx mobS1x "").root mobS1x.body "js-prevent-scroll" =
      false ∧
    attrAt (closeMobileIdx mobS1x "").root mobS1x.btn "aria-expanded" =
      some "false" ∧
    (closeMobileIdx mobS1x "").winListeners = mobS1x.winListeners ∧
    attrAt (closeMobileStandalone mobT0 "").root mobT0.btn "aria-expanded" =
      some "false" ∧
    ("click", mobT0.onWindowClickId) ∉ (closeMobileStandalone mobT0 "").winListeners := by
  have h := claim9_close_mobile mobS1x mobT0 "" "" (by decide) (by decide) (by decide)
  exact ⟨h.1, h.2.1, h.2.2.1, h.2.2.2.2.1, h.2.2.2.2.2.2⟩

/-! ### C10: missing checkVisibility -/
/-- C10 (amended): without `checkVisibility` every focusable query returns
the empty list and ArrowDown never moves focus; ArrowUp is unaffected — it
reads the unfiltered snapshot (`claim10_counterexample`), so "never moves
focus in both directions" fails. -/
theorem claim10_no_checkvisibility :
    (∀ (root : Elem) (menu : Option Addr), getFocusableElements root menu false = []) ∧
    (∀ (root : Elem) (target : Addr), handleDownArrow root target false = none) := by
  have h1 : ∀ (root : Elem) (menu : Option Addr),
      getFocusableElements root menu false = [] := by
    intro root menu
    cases menu with
    | none => rfl
    | some m =>
        rw [getFocusableElements]
        simp
  refine ⟨h1, ?_⟩
  intro root target
  rw [handleDownArrow]
  split
  · rfl
  · simp [h1]

/-- Witness for C10 on the demo page. -/
theorem claim10_witness :
    getFocusableElements demoDoc (some [0, 0]) false = [] ∧
    handleDownArrow demoDoc teamLink false = none :=
  ⟨claim10_no_checkvisibility.1 demoDoc (some [0, 0]),
    claim10_no_checkvisibility.2 demoDoc teamLink⟩

/-- C10 counterexample: with `checkVisibility` unavailable, ArrowUp inside
the About submenu still moves focus from Team to Our Story. -/
theorem claim10_counterexample :
    (onMenuitemKeydown demoDoc teamLink "ArrowUp" false false).map Prod.snd =
      some (some ourStoryLink) := by
  decide

/-! ### C2: the Control Binder contract -/
/-- C2: after `attachControlsToElements` runs over a duplicate-free
snapshot of controller elements, every visited Controller that has a
following sibling submenu carries `aria-haspopup="true"`, and its
`aria-controls` and `data-menu-controls` both equal the submenu's assigned
id, which is `panel-<controllerId>` for the Controller's identifier
(`data-plugin-id`) value. -/
theorem claim2_binder_contract (as : List Addr) (root : Elem) (n : Nat)
    (hnd : as.Nodup)
    (hctrl : ∀ a ∈ as, ∀ el, getAt root a = some el → isController el = true)
    (a : Addr) (ha : a ∈ as) (el : Elem) (hel : getAt root a = some el)
    (s : Addr) (hs : nextElemSib root a = some s) :
    attrAt (attachControlsToElements root as n).1 a "aria-haspopup" = some "true" ∧
    ∃ pid,
      attrAt (attachControlsToElements root as n).1 a "data-plugin-id" = some pid ∧
      attrAt (attachControlsToElements root as n).1 a "aria-controls" =
        some ("panel-" ++ pid) ∧
      attrAt (attachControlsToElements root as n).1 a "data-menu-controls" =
        some ("panel-" ++ pid) ∧
      attrAt (attachControlsToElements root as n).1 s "id" = some ("panel-" ++ pid) :=
  attachControls_spec as root n hnd hctrl a ha el hel s hs

/-- Witness for C2: binding the About controller of the raw demo page. -/
theorem claim2_witness :
    attrAt (attachControlsToElements demoRaw [[0, 0, 1, 0]] 0).1 [0, 0, 1, 0]
        "aria-haspopup" = some "true" ∧
    ∃ pid,
      attrAt (attachControlsToElements demoRaw [[0, 0, 1, 0]] 0).1 [0, 0, 1, 0]
        "data-plugin-id" = some pid ∧
      attrAt (attachControlsToElements demoRaw [[0, 0, 1, 0]] 0).1 [0, 0, 1, 0]
        "aria-controls" = some ("panel-" ++ pid) ∧
      attrAt (attachControlsToElements demoRaw [[0, 0, 1, 0]] 0).1 [0, 0, 1, 0]
        "data-menu-controls" = some ("panel-" ++ pid) ∧
      attrAt (attachControlsToElements demoRaw [[0, 0, 1, 0]] 0).1 [0, 0, 1, 1]
        "id" = some ("panel-" ++ pid) :=
  claim2_binder_contract [[0, 0, 1, 0]] demoRaw 0 (by decide)
    (by
      intro a ha el hel
      rw [List.mem_singleton] at ha
      subst ha
      have hg : getAt demoRaw [0, 0, 1, 0] =
          some (elT "button" ["menu__link"] [("data-plugin-id", "about")] "About") := by
        decide
      rw [hg] at hel
      injection hel with h2
      subst h2
      decide)
    [0, 0, 1, 0] (by decide)
    (elT "button" ["menu__link"] [("data-plugin-id", "about")] "About") (by decide)
    [0, 0, 1, 1] (by decide)

/-! ### C3: the depth-0 click toggle -/
theorem nodeLocal_isMenuContainer : NodeLocalPred isMenuContainer := by
  intro e1 e2 ht hc ha hx hv
  rw [isMenuContainer, isMenuContainer, hasClass, hasClass, hc]

theorem nodeLocal_ulDepthSel : NodeLocalPred ulDepthSel := by
  intro e1 e2 ht hc ha hx hv
  rw [ulDepthSel, ulDepthSel, ht, ha]

theorem nodeLocal_ulDepth0Sel : NodeLocalPred ulDepth0Sel := by
  intro e1 e2 ht hc ha hx hv
  rw [ulDepth0Sel, ulDepth0Sel, ht, ha]

theorem nodeLocal_expCtrlSel : NodeLocalPred (fun e =>
    controllerTags.contains e.tag && hasClass e "menu__link" && expandedAttr e) := by
  intro e1 e2 ht hc ha hx hv
  simp only [hasClass, expandedAttr]
  rw [ht, hc, ha]

theorem ulDepthSel_setAria (v : String) : ∀ t cls at_ x vis ch,
    ulDepthSel (.node t cls (setAttrL at_ "aria-expanded" v) x vis ch) =
      ulDepthSel (.node t cls at_ x vis ch) := by
  intro t cls at_ x vis ch
  simp only [ulDepthSel, Elem.tag_node, Elem.attrs_node,
    getAttrL_setAttrL_other at_ "aria-expanded" v "data-depth" (by decide)]

theorem ulDepth0Sel_setAria (v : String) : ∀ t cls at_ x vis ch,
    ulDepth0Sel (.node t cls (setAttrL at_ "aria-expanded" v) x vis ch) =
      ulDepth0Sel (.node t cls at_ x vis ch) := by
  intro t cls at_ x vis ch
  simp only [ulDepth0Sel, Elem.tag_node, Elem.attrs_node,
    getAttrL_setAttrL_other at_ "aria-expanded" v "data-depth" (by decide)]

theorem obs_foldSetAttr_not_mem (root : Elem) (L : List Addr) (k v : String)
    (c : Addr) (hc : c ∉ L) : obs (foldSetAttr root L k v) c = obs root c := by
  induction L generalizing root with
  | nil => rfl
  | cons b rest ih =>
      rw [foldSetAttr, List.foldl_cons, ← foldSetAttr]
      rw [ih _ (fun h => hc (List.mem_cons.2 (Or.inr h)))]
      rw [setAttrAt]
      exact obs_modifyAt_ne _ (setAttrAt_local _ _) root b c
        (fun h => hc (List.mem_cons.2 (Or.inl h)))

/-- `closeAll` on a depth-0 controller collapses exactly the expanded
controllers of the top-level menu other than the invoking one. -/
theorem closeAllB_depth0 (root : Elem) (b mc pm tl : Addr)
    (hmc : closestBy (elemPredAt root isMenuContainer) b = some mc)
    (hpm : closestBy (elemPredAt root ulDepthSel) b = some pm)
    (hd0 : depthAt root pm = some 0)
    (htl : querySelFirst root mc ulDepth0Sel = some tl) :
    closeAllB root b = some (foldSetAttr root
      ((matchAddrs root tl fun e => controllerTags.contains e.tag &&
          hasClass e "menu__link" && expandedAttr e).filter (· ≠ b))
      "aria-expanded" "false") := by
  rw [closeAllB, hmc]
  dsimp only
  rw [hpm]
  dsimp only
  rw [hd0]
  simp only [beq_self_eq_true, if_true]
  rw [htl]

/-- C3: a click on a collapsed depth-0 Controller (desktop viewport) opens
it while collapsing every other Controller of the top-level menu (sibling
mutual exclusion), and a second click closes it again and touches nothing
else: the click is a toggle. -/
theorem claim3_click_toggle (root : Elem) (b mc pm tl : Addr)
    (hmc : closestBy (elemPredAt root isMenuContainer) b = some mc)
    (hpm : closestBy (elemPredAt root ulDepthSel) b = some pm)
    (hd0 : depthAt root pm = some 0)
    (htl : querySelFirst root mc ulDepth0Sel = some tl)
    (hb : (getAt root b).isSome = true)
    (hclosed : isOpen root b = false) :
    ∃ d, onButtonClick root b false = some d ∧
      isOpen d b = true ∧
      (∀ q ∈ matchAddrs root tl isCtrlSel, q ≠ b → isOpen d q = false) ∧
      onButtonClick d b false = some (closePopup d b) ∧
      isOpen (closePopup d b) b = false ∧
      (∀ a, a ≠ b → obs (closePopup d b) a = obs d a) := by
  have hd1eq := closeAllB_depth0 root b mc pm tl hmc hpm hd0 htl
  set M0 := matchAddrs root tl (fun e => controllerTags.contains e.tag &&
    hasClass e "menu__link" && expandedAttr e) with hM0
  set L := M0.filter (· ≠ b) with hL
  set d1 := foldSetAttr root L "aria-expanded" "false" with hd1def
  set d := setAttrAt d1 b "aria-expanded" "true" with hddef
  have hbd1 : (getAt d1 b).isSome = true := by
    rw [hd1def, isSome_getAt_foldSetAttr]
    exact hb
  have hbd : (getAt d b).isSome = true := by
    rw [hddef, isSome_getAt_setAttrAt]
    exact hbd1
  have hopen_d : isOpen d b = true := by
    rw [isOpen, hddef, attrAt_setAttrAt_self _ _ _ _ hbd1]
    rfl
  have hmcd : closestBy (elemPredAt d isMenuContainer) b = some mc := by
    have hpt : ∀ q, elemPredAt d isMenuContainer q = elemPredAt root isMenuContainer q := by
      intro q
      rw [hddef, elemPredAt_setAttrAt _ _ _ _ _ _ nodeLocal_isMenuContainer
        (fun t cls at_ x vis ch => rfl)]
      rw [hd1def, elemPredAt_foldSetAttr _ _ _ _ _ _ nodeLocal_isMenuContainer
        (fun t cls at_ x vis ch => rfl)]
    rw [closestBy_congr _ _ b hpt]
    exact hmc
  have hpmd : closestBy (elemPredAt d ulDepthSel) b = some pm := by
    have hpt : ∀ q, elemPredAt d ulDepthSel q = elemPredAt root ulDepthSel q := by
      intro q
      rw [hddef, elemPredAt_setAttrAt _ _ _ _ _ _ nodeLocal_ulDepthSel
        (ulDepthSel_setAria _)]
      rw [hd1def, elemPredAt_foldSetAttr _ _ _ _ _ _ nodeLocal_ulDepthSel
        (ulDepthSel_setAria _)]
    rw [closestBy_congr _ _ b hpt]
    exact hpm
  have hd0d : depthAt d pm = some 0 := by
    rw [depthAt] at hd0 ⊢
    rw [hddef, attrAt_setAttrAt_otherKey_any _ _ _ _ _ _ (by decide)]
    rw [hd1def, attrAt_foldSetAttr_otherKey _ _ _ _ _ _ (by decide)]
    exact hd0
  have htld : querySelFirst d mc ulDepth0Sel = some tl := by
    rw [querySelFirst] at htl ⊢
    rw [hddef, matchAddrs_setAttrAt _ _ _ _ _ _ nodeLocal_ulDepth0Sel
      (ulDepth0Sel_setAria _)]
    rw [hd1def, matchAddrs_foldSetAttr _ _ _ _ _ _ nodeLocal_ulDepth0Sel
      (ulDepth0Sel_setAria _)]
    exact htl
  have htlsome : (getAt root tl).isSome = true := by
    have hmemtl : tl ∈ matchAddrs root mc ulDepth0Sel := by
      rw [querySelFirst] at htl
      exact head?_mem htl
    exact ((mem_matchAddrs root mc _ tl).1 hmemtl).2.choose_spec.2.2.1
  have hall : ∀ q ∈ matchAddrs d tl (fun e => controllerTags.contains e.tag &&
      hasClass e "menu__link" && expandedAttr e), q = b := by
    intro q hq
    by_contra hqb
    obtain ⟨htls, r, hrne, hqeq, hqsome, hpred⟩ := (mem_matchAddrs d tl _ q).1 hq
    obtain ⟨e', he'⟩ := Option.isSome_iff_exists.1 hqsome
    rw [he'] at hpred
    simp only [Option.map_some', Option.getD_some] at hpred
    have hq_true : attrAt d q "aria-expanded" = some "true" := by
      rw [attrAt, he']
      simp only [Bool.and_eq_true] at hpred
      have hexp := hpred.2
      rw [expandedAttr] at hexp
      exact eq_of_beq hexp
    have hattr_d_d1 : attrAt d q "aria-expanded" = attrAt d1 q "aria-expanded" := by
      rw [hddef]
      exact attrAt_setAttrAt_ne _ _ _ _ _ _ hqb
    by_cases hmemL : q ∈ L
    · have hfalse : attrAt d1 q "aria-expanded" = some "false" := by
        rw [hd1def]
        apply attrAt_foldSetAttr_mem _ _ _ _ _ hmemL
        have hqM0 : q ∈ M0 := List.mem_of_mem_filter hmemL
        rw [hM0] at hqM0
        exact ((mem_matchAddrs root tl _ q).1 hqM0).2.choose_spec.2.2.1
      rw [hattr_d_d1, hfalse] at hq_true
      simp at hq_true
    · have hqnotM0 : q ∉ M0 := by
        intro hqM0
        exact hmemL (List.mem_filter.2 ⟨hqM0, by simp [hqb]⟩)
      have hattr_d1_root : attrAt d1 q "aria-expanded" = attrAt root q "aria-expanded" := by
        rw [hd1def]
        exact attrAt_foldSetAttr_not_mem _ _ _ _ _ _ hmemL
      have hqsomer : (getAt root q).isSome = true := by
        have h1 : (getAt d1 q).isSome = (getAt root q).isSome := by
          rw [hd1def, isSome_getAt_foldSetAttr]
        have h2 : (getAt d q).isSome = (getAt d1 q).isSome := by
          rw [hddef, isSome_getAt_setAttrAt]
        rw [← h1, ← h2, he']
        rfl
      obtain ⟨e, he⟩ := Option.isSome_iff_exists.1 hqsomer
      have hobs : obs d q = obs root q := by
        rw [hddef, setAttrAt, obs_modifyAt_ne _ (setAttrAt_local _ _) d1 b q hqb]
        rw [hd1def]
        exact obs_foldSetAttr_not_mem root L _ _ q hmemL
      rw [obs, obs, he', he] at hobs
      simp only [Option.map_some', Option.some.injEq, Prod.mk.injEq] at hobs
      apply hqnotM0
      rw [hM0]
      apply (mem_matchAddrs root tl _ q).2
      refine ⟨htlsome, r, hrne, hqeq, by rw [he]; rfl, ?_⟩
      rw [he]
      simp only [Option.map_some', Option.getD_some]
      have hpe : (controllerTags.contains e.tag && hasClass e "menu__link" &&
          expandedAttr e) = (controllerTags.contains e'.tag &&
          hasClass e' "menu__link" && expandedAttr e') :=
        nodeLocal_expCtrlSel e e' hobs.1.symm hobs.2.1.symm hobs.2.2.1.symm
          hobs.2.2.2.1.symm hobs.2.2.2.2.symm
      rw [hpe]
      exact hpred
  have hLempty : (matchAddrs d tl fun e => controllerTags.contains e.tag &&
      hasClass e "menu__link" && expandedAttr e).filter (· ≠ b) = [] := by
    rw [List.filter_eq_nil_iff]
    intro q hq
    have := hall q hq
    simp [this]
  have hsecond : closeAllB d b = some d := by
    have h2 := closeAllB_depth0 d b mc pm tl hmcd hpmd hd0d htld
    rw [hLempty] at h2
    exact h2
  have hopenP : openPopup root b false = some d := by
    rw [openPopup, if_neg Bool.false_ne_true, hd1eq]
    rfl
  have hclick1 : onButtonClick root b false = some d := by
    rw [onButtonClick, if_neg (by simp [hclosed])]
    rw [hopenP, Option.some_bind, if_neg Bool.false_ne_true]
    exact hsecond
  have hmutex : ∀ q ∈ matchAddrs root tl isCtrlSel, q ≠ b → isOpen d q = false := by
    intro q hq hqb
    rw [isOpen]
    have hattr_d_d1 : attrAt d q "aria-expanded" = attrAt d1 q "aria-expanded" := by
      rw [hddef]
      exact attrAt_setAttrAt_ne _ _ _ _ _ _ hqb
    by_cases hmemL : q ∈ L
    · have hfalse : attrAt d1 q "aria-expanded" = some "false" := by
        rw [hd1def]
        apply attrAt_foldSetAttr_mem _ _ _ _ _ hmemL
        have hqM0 : q ∈ M0 := List.mem_of_mem_filter hmemL
        rw [hM0] at hqM0
        exact ((mem_matchAddrs root tl _ q).1 hqM0).2.choose_spec.2.2.1
      rw [hattr_d_d1, hfalse]
      rfl
    · have hqnotM0 : q ∉ M0 := by
        intro hqM0
        exact hmemL (List.mem_filter.2 ⟨hqM0, by simp [hqb]⟩)
      have hattr_d1_root : attrAt d1 q "aria-expanded" = attrAt root q "aria-expanded" := by
        rw [hd1def]
        exact attrAt_foldSetAttr_not_mem _ _ _ _ _ _ hmemL
      rw [hattr_d_d1, hattr_d1_root]
      obtain ⟨-, r, hrne, hqeq, hqsome, hpredC⟩ := (mem_matchAddrs root tl _ q).1 hq
      obtain ⟨e, he⟩ := Option.isSome_iff_exists.1 hqsome
      rw [he] at hpredC
      simp only [Option.map_some', Option.getD_some] at hpredC
      by_contra hopenq
      simp only [Bool.not_eq_false, beq_iff_eq] at hopenq
      apply hqnotM0
      rw [hM0]
      apply (mem_matchAddrs root tl _ q).2
      refine ⟨htlsome, r, hrne, hqeq, hqsome, ?_⟩
      rw [he]
      simp only [Option.map_some', Option.getD_some]
      have hval : getAttrL e.attrs "aria-expanded" = some "true" := by
        rw [attrAt, he] at hopenq
        exact hopenq
      simp only [Bool.and_eq_true]
      rw [isCtrlSel] at hpredC
      simp only [Bool.and_eq_true] at hpredC
      refine ⟨⟨hpredC.1, hpredC.2⟩, ?_⟩
      rw [expandedAttr, hval]
      rfl
  have hclick2 : onButtonClick d b false = some (closePopup d b) := by
    rw [onButtonClick, if_pos hopen_d]
  have hclosed2 : isOpen (closePopup d b) b = false := by
    rw [isOpen, closePopup, attrAt_setAttrAt_self _ _ _ _ hbd]
    rfl
  have hframe2 : ∀ a, a ≠ b → obs (closePopup d b) a = obs d a := by
    intro a ha
    rw [closePopup, setAttrAt]
    exact obs_modifyAt_ne _ (setAttrAt_local _ _) d b a ha
  exact ⟨d, hclick1, hopen_d, hmutex, hclick2, hclosed2, hframe2⟩

/-- Witness for C3: clicking the collapsed About controller of the demo
page. -/
theorem claim3_witness :
    ∃ d, onButtonClick demoDoc aboutBtn false = some d ∧
      isOpen d aboutBtn = true ∧
      (∀ q ∈ matchAddrs demoDoc [0, 0] isCtrlSel, q ≠ aboutBtn → isOpen d q = false) ∧
      onButtonClick d aboutBtn false = some (closePopup d aboutBtn) ∧
      isOpen (closePopup d aboutBtn) aboutBtn = false ∧
      (∀ a, a ≠ aboutBtn → obs (closePopup d aboutBtn) a = obs d a) :=
  claim3_click_toggle demoDoc aboutBtn [0] [0, 0] [0, 0] (by decide) (by decide)
    (by decide) (by decide) (by decide) (by decide)

/-! ### C8: double initialization -/
/-- `once` returns nothing when every matched element already carries the
marker. -/
theorem onceRun_marked (root : Elem) (idStr : String) (p : Elem → Bool)
    (h : ∀ q ∈ matchAddrs root [] p,
      (attrAt root q ("data-once-" ++ idStr)).isSome = true) :
    onceRun root idStr p = ([], root) := by
  have hfresh : (matchAddrs root [] p).filter
      (fun a => !(attrAt root a ("data-once-" ++ idStr)).isSome) = [] := by
    rw [List.filter_eq_nil_iff]
    intro a ha
    simp [h a ha]
  simp only [onceRun]
  rw [hfresh]
  rfl

theorem attachAriaControls_id (root : Elem) (n : Nat)
    (h : onceRun root "ariaControls" isMenuContainer = ([], root)) :
    attachAriaControls root n = (root, n) := by
  simp only [attachAriaControls, h]
  rfl

theorem attachAriaControlsS_id (s : BindState)
    (h : onceRun s.root "ariaControls" isMenuContainer = ([], s.root)) :
    attachAriaControlsS s = s := by
  simp only [attachAriaControlsS, attachAriaControls_id s.root s.ctr h]

theorem attachMenuControls_id (s : BindState)
    (h : onceRun s.root "menuControl" isMenuContainer = ([], s.root)) :
    attachMenuControls s = s := by
  simp only [attachMenuControls, h]
  rfl

theorem attachMobileControls_id (s : BindState)
    (h : onceRun s.root "mobileMenuControls" (fun e =>
      isMenuContainer e && (getAttrL e.attrs "data-mobile").isSome) = ([], s.root)) :
    attachMobileControls s = s := by
  simp only [attachMobileControls, h]
  rfl

/-- Second `init()` run: with every container marked by the first run, all
three stages are identities. -/
theorem initRun_once (t : BindState)
    (h1 : ∀ q ∈ matchAddrs t.root [] isMenuContainer,
      (attrAt t.root q "data-once-ariaControls").isSome = true ∧
      (attrAt t.root q "data-once-menuControl").isSome = true)
    (h2 : ∀ q ∈ matchAddrs t.root []
        (fun e => isMenuContainer e && (getAttrL e.attrs "data-mobile").isSome),
      (attrAt t.root q "data-once-mobileMenuControls").isSome = true) :
    initRun t = t := by
  have hA := attachAriaControlsS_id t (onceRun_marked _ _ _ (fun q hq => (h1 q hq).1))
  have hM := attachMenuControls_id t (onceRun_marked _ _ _ (fun q hq => (h1 q hq).2))
  have hB := attachMobileControls_id t (onceRun_marked _ _ _ h2)
  rw [initRun, hA, hM, hB]

theorem countL_append (l1 l2 : List (Target × String)) (t : Target) (ev : String) :
    countL (l1 ++ l2) t ev = countL l1 t ev + countL l2 t ev := by
  simp [countL, List.filter_append]

theorem tagAt_addClassAt (root : Elem) (b a : Addr) (c : String) :
    tagAt (addClassAt root b c) a = tagAt root a := by
  by_cases hne : a = b
  · subst hne
    rw [tagAt, tagAt, addClassAt, getAt_modifyAt_self]
    rcases getAt root a with _ | e
    · rfl
    · rfl
  · have h : obs (addClassAt root b c) a = obs root a :=
      obs_modifyAt_ne _ (addClassAt_local c) root b a hne
    simp only [obs] at h
    rw [tagAt, tagAt]
    rcases he : getAt root a with _ | e <;>
      rcases he' : getAt (addClassAt root b c) a with _ | e' <;>
        rw [he, he'] at h
    · simp at h
    · simp at h
    · simp only [Option.map_some', Option.some.injEq, Prod.mk.injEq] at h
      simp only [Option.map_some']
      rw [h.1]

theorem isSome_getAt_addClassAt (root : Elem) (b a : Addr) (c : String) :
    (getAt (addClassAt root b c) a).isSome = (getAt root a).isSome := by
  rw [addClassAt]
  exact isSome_getAt_modifyAt _ (addClassAt_local c) root b a

theorem ctrlTagAt_eq_tagAt (root : Elem) (b : Addr) :
    ctrlTagAt root b = ((tagAt root b).map controllerTags.contains).getD false := by
  rw [ctrlTagAt, tagAt, Option.map_map]
  rfl

theorem ctrlTagAt_setAttrAt (root : Elem) (b a : Addr) (k v : String) :
    ctrlTagAt (setAttrAt root b k v) a = ctrlTagAt root a := by
  rw [ctrlTagAt_eq_tagAt, ctrlTagAt_eq_tagAt, tagAt_setAttrAt]

theorem ctrlTagAt_addClassAt (root : Elem) (b a : Addr) (c : String) :
    ctrlTagAt (addClassAt root b c) a = ctrlTagAt root a := by
  rw [ctrlTagAt_eq_tagAt, ctrlTagAt_eq_tagAt, tagAt_addClassAt]

/-- The `data-menu` reading that guards the MenuButton constructor survives
the two writes preceding it. -/
theorem attrAt_dm_guard (r : Elem) (c b : Addr) :
    attrAt (addClassAt (setAttrAt r c "aria-expanded" "false") c "controller") b
      "data-menu" = attrAt r b "data-menu" := by
  rw [attrAt_addClassAt, attrAt_setAttrAt_otherKey_any _ _ _ _ _ _ (by decide)]

theorem mbc_root_marked (s : BindState) (c : Addr)
    (hm : (attrAt s.root c "data-menu").isSome = true) :
    menuButtonConstruct s c =
      { root := addClassAt (setAttrAt s.root c "aria-expanded" "false") c "controller"
        listeners := s.listeners ++ [(Target.doc, "mousedown")]
        ctr := s.ctr } := by
  simp only [menuButtonConstruct]
  rw [if_pos (by rw [attrAt_dm_guard]; exact hm)]

theorem mbc_root_fresh (s : BindState) (c : Addr)
    (hm : attrAt s.root c "data-menu" = none) :
    menuButtonConstruct s c =
      { root := setAttrAt
          (addClassAt (setAttrAt s.root c "aria-expanded" "false") c "controller")
          c "data-menu" "true"
        listeners := s.listeners ++
          [(Target.el c, "keydown"), (Target.el c, "click"), (Target.doc, "mousedown")]
        ctr := s.ctr } := by
  simp only [menuButtonConstruct]
  rw [if_neg (by rw [attrAt_dm_guard, hm]; simp)]

theorem mbc_isSome (s : BindState) (c b : Addr) :
    (getAt (menuButtonConstruct s c).root b).isSome = (getAt s.root b).isSome := by
  rcases hg : attrAt s.root c "data-menu" with _ | gv
  · rw [mbc_root_fresh s c hg]
    show (getAt (setAttrAt _ c "data-menu" "true") b).isSome = _
    rw [isSome_getAt_setAttrAt, isSome_getAt_addClassAt, isSome_getAt_setAttrAt]
  · rw [mbc_root_marked s c (by rw [hg]; rfl)]
    show (getAt (addClassAt _ c "controller") b).isSome = _
    rw [isSome_getAt_addClassAt, isSome_getAt_setAttrAt]

theorem mbc_ctrlTag (s : BindState) (c b : Addr) :
    ctrlTagAt (menuButtonConstruct s c).root b = ctrlTagAt s.root b := by
  rcases hg : attrAt s.root c "data-menu" with _ | gv
  · rw [mbc_root_fresh s c hg]
    show ctrlTagAt (setAttrAt _ c "data-menu" "true") b = _
    rw [ctrlTagAt_setAttrAt, ctrlTagAt_addClassAt, ctrlTagAt_setAttrAt]
  · rw [mbc_root_marked s c (by rw [hg]; rfl)]
    show ctrlTagAt (addClassAt _ c "controller") b = _
    rw [ctrlTagAt_addClassAt, ctrlTagAt_setAttrAt]

theorem mbc_dm_ne (s : BindState) (c b : Addr) (hcb : c ≠ b) :
    attrAt (menuButtonConstruct s c).root b "data-menu" =
      attrAt s.root b "data-menu" := by
  rcases hg : attrAt s.root c "data-menu" with _ | gv
  · rw [mbc_root_fresh s c hg]
    show attrAt (setAttrAt _ c "data-menu" "true") b "data-menu" = _
    rw [attrAt_setAttrAt_ne _ _ _ _ _ _ (fun hh => hcb hh.symm), attrAt_dm_guard]
  · rw [mbc_root_marked s c (by rw [hg]; rfl)]
    show attrAt (addClassAt _ c "controller") b "data-menu" = _
    rw [attrAt_dm_guard]

theorem mbc_dm_true (s : BindState) (c b : Addr)
    (hm : attrAt s.root b "data-menu" = some "true") :
    attrAt (menuButtonConstruct s c).root b "data-menu" = some "true" := by
  by_cases hcb : c = b
  · subst hcb
    rw [mbc_root_marked s c (by rw [hm]; rfl)]
    show attrAt (addClassAt _ c "controller") c "data-menu" = _
    rw [attrAt_dm_guard]
    exact hm
  · rw [mbc_dm_ne s c b hcb]
    exact hm

theorem mbc_counts_ne (s : BindState) (c b : Addr) (ev : String) (hcb : c ≠ b) :
    countL (menuButtonConstruct s c).listeners (Target.el b) ev =
      countL s.listeners (Target.el b) ev := by
  have hel : Target.el c ≠ Target.el b := fun hh => hcb (by injection hh)
  rcases hg : attrAt s.root c "data-menu" with _ | gv
  · rw [mbc_root_fresh s c hg]
    show countL (s.listeners ++ _) _ _ = _
    rw [countL_append]
    simp [countL, hel]
  · rw [mbc_root_marked s c (by rw [hg]; rfl)]
    show countL (s.listeners ++ _) _ _ = _
    rw [countL_append]
    simp [countL]

theorem mbc_counts_self_marked (s : BindState) (b : Addr) (ev : String)
    (hm : (attrAt s.root b "data-menu").isSome = true) :
    countL (menuButtonConstruct s b).listeners (Target.el b) ev =
      countL s.listeners (Target.el b) ev := by
  rw [mbc_root_marked s b hm]
  show countL (s.listeners ++ _) _ _ = _
  rw [countL_append]
  simp [countL]

theorem menuLinksStep_root (st : BindState) (it : Addr) :
    (menuLinksStep st it).root = st.root := by
  rw [menuLinksStep]
  rcases querySelFirst st.root it linkClassSel with _ | l
  · rfl
  · dsimp only
    split
    · rfl
    · rfl

theorem menuLinksStep_counts (st : BindState) (it b : Addr) (ev : String)
    (hct : ctrlTagAt st.root b = true) :
    countL (menuLinksStep st it).listeners (Target.el b) ev =
      countL st.listeners (Target.el b) ev := by
  rw [menuLinksStep]
  rcases hq : querySelFirst st.root it linkClassSel with _ | l
  · rfl
  · dsimp only
    by_cases hc : (((getAt st.root l).map fun e =>
        controllerTags.contains e.tag).getD false) = true
    · rw [if_pos hc]
    · rw [if_neg hc]
      have hlb : Target.el l ≠ Target.el b := by
        intro hh
        injection hh with hh2
        subst hh2
        exact hc hct
      rw [menuLinksConstruct]
      show countL (st.listeners ++ _) _ _ = _
      rw [countL_append]
      simp [countL, hlb]

theorem linksFold_root (items : List Addr) (st : BindState) :
    (items.foldl menuLinksStep st).root = st.root := by
  induction items generalizing st with
  | nil => rfl
  | cons it rest ih =>
      rw [List.foldl_cons, ih, menuLinksStep_root]

theorem linksFold_counts (items : List Addr) (st : BindState) (b : Addr) (ev : String)
    (hct : ctrlTagAt st.root b = true) :
    countL ((items.foldl menuLinksStep st).listeners) (Target.el b) ev =
      countL st.listeners (Target.el b) ev := by
  induction items generalizing st with
  | nil => rfl
  | cons it rest ih =>
      rw [List.foldl_cons, ih _ (by rw [menuLinksStep_root]; exact hct),
        menuLinksStep_counts _ _ _ _ hct]

theorem mbFold_marked (C : List Addr) (s : BindState) (b : Addr)
    (hm : attrAt s.root b "data-menu" = some "true") :
    (∀ ev, countL ((C.foldl menuButtonConstruct s).listeners) (Target.el b) ev =
      countL s.listeners (Target.el b) ev) ∧
    attrAt (C.foldl menuButtonConstruct s).root b "data-menu" = some "true" ∧
    ctrlTagAt (C.foldl menuButtonConstruct s).root b = ctrlTagAt s.root b ∧
    (getAt (C.foldl menuButtonConstruct s).root b).isSome = (getAt s.root b).isSome := by
  induction C generalizing s with
  | nil => exact ⟨fun ev => rfl, hm, rfl, rfl⟩
  | cons c rest ih =>
      rw [List.foldl_cons]
      obtain ⟨i1, i2, i3, i4⟩ := ih (menuButtonConstruct s c) (mbc_dm_true s c b hm)
      refine ⟨?_, i2, ?_, ?_⟩
      · intro ev
        rw [i1 ev]
        by_cases hcb : c = b
        · subst hcb
          exact mbc_counts_self_marked s c ev (by rw [hm]; rfl)
        · exact mbc_counts_ne s c b ev hcb
      · rw [i3, mbc_ctrlTag]
      · rw [i4, mbc_isSome]

theorem mbFold_outside (C : List Addr) (s : BindState) (b : Addr)
    (hC : ∀ c' ∈ C, c' ≠ b) :
    (∀ ev, countL ((C.foldl menuButtonConstruct s).listeners) (Target.el b) ev =
      countL s.listeners (Target.el b) ev) ∧
    attrAt (C.foldl menuButtonConstruct s).root b "data-menu" =
      attrAt s.root b "data-menu" ∧
    ctrlTagAt (C.foldl menuButtonConstruct s).root b = ctrlTagAt s.root b ∧
    (getAt (C.foldl menuButtonConstruct s).root b).isSome = (getAt s.root b).isSome := by
  induction C generalizing s with
  | nil => exact ⟨fun ev => rfl, rfl, rfl, rfl⟩
  | cons c rest ih =>
      rw [List.foldl_cons]
      have hcb : c ≠ b := hC c (List.mem_cons_self _ _)
      obtain ⟨i1, i2, i3, i4⟩ := ih (menuButtonConstruct s c)
        (fun c' hc' => hC c' (List.mem_cons.2 (Or.inr hc')))
      refine ⟨?_, ?_, ?_, ?_⟩
      · intro ev
        rw [i1 ev, mbc_counts_ne s c b ev hcb]
      · rw [i2, mbc_dm_ne s c b hcb]
      · rw [i3, mbc_ctrlTag]
      · rw [i4, mbc_isSome]

theorem mbFold_binds (C : List Addr) (s : BindState) (b : Addr) (hb : b ∈ C)
    (hm : attrAt s.root b "data-menu" = none)
    (hsome : (getAt s.root b).isSome = true) :
    countL ((C.foldl menuButtonConstruct s).listeners) (Target.el b) "keydown" =
      countL s.listeners (Target.el b) "keydown" + 1 ∧
    countL ((C.foldl menuButtonConstruct s).listeners) (Target.el b) "click" =
      countL s.listeners (Target.el b) "click" + 1 ∧
    attrAt (C.foldl menuButtonConstruct s).root b "data-menu" = some "true" ∧
    ctrlTagAt (C.foldl menuButtonConstruct s).root b = ctrlTagAt s.root b ∧
    (getAt (C.foldl menuButtonConstruct s).root b).isSome = true := by
  induction C generalizing s with
  | nil => exact absurd hb (List.not_mem_nil _)
  | cons c rest ih =>
      rw [List.foldl_cons]
      by_cases hcb : c = b
      · subst hcb
        have hbind := mbc_root_fresh s c hm
        have hdm' : attrAt (menuButtonConstruct s c).root c "data-menu" =
            some "true" := by
          rw [hbind]
          show attrAt (setAttrAt _ c "data-menu" "true") c "data-menu" = _
          apply attrAt_setAttrAt_self
          rw [isSome_getAt_addClassAt, isSome_getAt_setAttrAt]
          exact hsome
        obtain ⟨m1, m2, m3, m4⟩ := mbFold_marked rest (menuButtonConstruct s c) c hdm'
        have hseg : ∀ ev, countL (menuButtonConstruct s c).listeners (Target.el c) ev =
            countL s.listeners (Target.el c) ev +
            countL [(Target.el c, "keydown"), (Target.el c, "click"),
              (Target.doc, "mousedown")] (Target.el c) ev := by
          intro ev
          rw [hbind]
          show countL (s.listeners ++ _) _ _ = _
          rw [countL_append]
        refine ⟨?_, ?_, m2, ?_, ?_⟩
        · rw [m1 "keydown", hseg "keydown"]
          simp [countL]
        · rw [m1 "click", hseg "click"]
          simp [countL]
        · rw [m3, mbc_ctrlTag]
        · rw [m4, mbc_isSome]
          exact hsome
      · have hb' : b ∈ rest := by
          rcases List.mem_cons.1 hb with h1 | h2
          · exact absurd h1.symm hcb
          · exact h2
        have hdm' : attrAt (menuButtonConstruct s c).root b "data-menu" = none := by
          rw [mbc_dm_ne s c b hcb]
          exact hm
        have hsome' : (getAt (menuButtonConstruct s c).root b).isSome = true := by
          rw [mbc_isSome]
          exact hsome
        obtain ⟨i1, i2, i3, i4, i5⟩ := ih (menuButtonConstruct s c) hb' hdm' hsome'
        refine ⟨?_, ?_, i3, ?_, i5⟩
        · rw [i1, mbc_counts_ne s c b _ hcb]
        · rw [i2, mbc_counts_ne s c b _ hcb]
        · rw [i4, mbc_ctrlTag]

theorem nodeLocal_isCtrlSel : NodeLocalPred isCtrlSel := by
  intro e1 e2 ht hc ha hx hv
  rw [isCtrlSel, isCtrlSel, hasClass, hasClass, ht, hc]

theorem isCtrlSel_addController : ∀ e : Elem,
    isCtrlSel (Elem.node e.tag (addClassL e.classes "controller") e.attrs e.text
      e.visible e.children) = isCtrlSel e := by
  intro e
  rw [isCtrlSel, isCtrlSel, hasClass, hasClass]
  simp only [Elem.tag_node, Elem.classes_node]
  rw [addClassL_contains_other e.classes "controller" "menu__link" (by decide)]

theorem matchAddrs_mbc (s : BindState) (cx c : Addr) :
    matchAddrs (menuButtonConstruct s cx).root c isCtrlSel =
      matchAddrs s.root c isCtrlSel := by
  have hset : ∀ (r : Elem) (bx : Addr) (k v : String),
      matchAddrs (setAttrAt r bx k v) c isCtrlSel = matchAddrs r c isCtrlSel :=
    fun r bx k v => matchAddrs_setAttrAt r bx c k v isCtrlSel nodeLocal_isCtrlSel
      (fun t cls at_ x vis ch => rfl)
  have hcls : ∀ (r : Elem) (bx : Addr),
      matchAddrs (addClassAt r bx "controller") c isCtrlSel =
        matchAddrs r c isCtrlSel := by
    intro r bx
    rw [addClassAt]
    apply matchAddrs_modifyAt _ (addClassAt_local _) _ _ nodeLocal_isCtrlSel
    intro e
    exact isCtrlSel_addController e
  rcases hg : attrAt s.root cx "data-menu" with _ | gv
  · rw [mbc_root_fresh s cx hg]
    show matchAddrs (setAttrAt _ cx "data-menu" "true") c isCtrlSel = _
    rw [hset, hcls, hset]
  · rw [mbc_root_marked s cx (by rw [hg]; rfl)]
    show matchAddrs (addClassAt _ cx "controller") c isCtrlSel = _
    rw [hcls, hset]

theorem mbFold_matchAddrs (C : List Addr) (s : BindState) (c : Addr) :
    matchAddrs ((C.foldl menuButtonConstruct s).root) c isCtrlSel =
      matchAddrs s.root c isCtrlSel := by
  induction C generalizing s with
  | nil => rfl
  | cons cx rest ih =>
      rw [List.foldl_cons, ih, matchAddrs_mbc]

theorem mcc_matchAddrs (s : BindState) (cx c : Addr) :
    matchAddrs (menuControllerConstruct s cx).root c isCtrlSel =
      matchAddrs s.root c isCtrlSel := by
  simp only [menuControllerConstruct]
  rw [linksFold_root, mbFold_matchAddrs]

theorem mcc_marked (s : BindState) (c b : Addr)
    (hm : attrAt s.root b "data-menu" = some "true")
    (hct : ctrlTagAt s.root b = true) :
    (∀ ev, countL (menuControllerConstruct s c).listeners (Target.el b) ev =
      countL s.listeners (Target.el b) ev) ∧
    attrAt (menuControllerConstruct s c).root b "data-menu" = some "true" ∧
    ctrlTagAt (menuControllerConstruct s c).root b = true ∧
    (getAt (menuControllerConstruct s c).root b).isSome = (getAt s.root b).isSome := by
  obtain ⟨m1, m2, m3, m4⟩ := mbFold_marked (matchAddrs s.root c isCtrlSel) s b hm
  simp only [menuControllerConstruct]
  refine ⟨?_, ?_, ?_, ?_⟩
  · intro ev
    rw [linksFold_counts _ _ _ _ (by rw [m3]; exact hct)]
    exact m1 ev
  · rw [linksFold_root]
    exact m2
  · rw [linksFold_root, m3]
    exact hct
  · rw [linksFold_root]
    exact m4

theorem mcc_outside (s : BindState) (c b : Addr)
    (hout : b ∉ matchAddrs s.root c isCtrlSel)
    (hct : ctrlTagAt s.root b = true) :
    (∀ ev, countL (menuControllerConstruct s c).listeners (Target.el b) ev =
      countL s.listeners (Target.el b) ev) ∧
    attrAt (menuControllerConstruct s c).root b "data-menu" =
      attrAt s.root b "data-menu" ∧
    ctrlTagAt (menuControllerConstruct s c).root b = true ∧
    (getAt (menuControllerConstruct s c).root b).isSome = (getAt s.root b).isSome := by
  obtain ⟨m1, m2, m3, m4⟩ := mbFold_outside (matchAddrs s.root c isCtrlSel) s b
    (fun c' hc' hh => hout (hh ▸ hc'))
  simp only [menuControllerConstruct]
  refine ⟨?_, ?_, ?_, ?_⟩
  · intro ev
    rw [linksFold_counts _ _ _ _ (by rw [m3]; exact hct)]
    exact m1 ev
  · rw [linksFold_root]
    exact m2
  · rw [linksFold_root, m3]
    exact hct
  · rw [linksFold_root]
    exact m4

theorem mcc_binds (s : BindState) (c b : Addr)
    (hb : b ∈ matchAddrs s.root c isCtrlSel)
    (hm : attrAt s.root b "data-menu" = none)
    (hsome : (getAt s.root b).isSome = true) :
    countL (menuControllerConstruct s c).listeners (Target.el b) "keydown" =
      countL s.listeners (Target.el b) "keydown" + 1 ∧
    countL (menuControllerConstruct s c).listeners (Target.el b) "click" =
      countL s.listeners (Target.el b) "click" + 1 ∧
    attrAt (menuControllerConstruct s c).root b "data-menu" = some "true" ∧
    ctrlTagAt (menuControllerConstruct s c).root b = true ∧
    (getAt (menuControllerConstruct s c).root b).isSome = true := by
  have hct : ctrlTagAt s.root b = true := by
    obtain ⟨-, r, -, -, hqs, hpred⟩ := (mem_matchAddrs s.root c isCtrlSel b).1 hb
    obtain ⟨e, he⟩ := Option.isSome_iff_exists.1 hqs
    rw [he] at hpred
    simp only [Option.map_some', Option.getD_some] at hpred
    rw [ctrlTagAt, he]
    simp only [Option.map_some', Option.getD_some]
    rw [isCtrlSel] at hpred
    simp only [Bool.and_eq_true] at hpred
    exact hpred.1
  obtain ⟨b1, b2, b3, b4, b5⟩ := mbFold_binds (matchAddrs s.root c isCtrlSel) s b
    hb hm hsome
  simp only [menuControllerConstruct]
  refine ⟨?_, ?_, ?_, ?_, ?_⟩
  · rw [linksFold_counts _ _ _ _ (by rw [b4]; exact hct)]
    exact b1
  · rw [linksFold_counts _ _ _ _ (by rw [b4]; exact hct)]
    exact b2
  · rw [linksFold_root]
    exact b3
  · rw [linksFold_root, b4]
    exact hct
  · rw [linksFold_root]
    exact b5

theorem attachMCFold_marked (menus : List Addr) (st : BindState) (b : Addr)
    (hm : attrAt st.root b "data-menu" = some "true")
    (hct : ctrlTagAt st.root b = true) :
    (∀ ev, countL ((menus.foldl menuControllerConstruct st).listeners)
      (Target.el b) ev = countL st.listeners (Target.el b) ev) ∧
    attrAt (menus.foldl menuControllerConstruct st).root b "data-menu" =
      some "true" := by
  induction menus generalizing st with
  | nil => exact ⟨fun ev => rfl, hm⟩
  | cons c rest ih =>
      rw [List.foldl_cons]
      obtain ⟨s1, s2, s3, s4⟩ := mcc_marked st c b hm hct
      obtain ⟨i1, i2⟩ := ih (menuControllerConstruct st c) s2 s3
      exact ⟨fun ev => by rw [i1 ev, s1 ev], i2⟩

theorem attachMCFold (menus : List Addr) (st : BindState) (b : Addr)
    (hmem : ∃ c ∈ menus, b ∈ matchAddrs st.root c isCtrlSel)
    (hm : attrAt st.root b "data-menu" = none)
    (hsome : (getAt st.root b).isSome = true) :
    countL ((menus.foldl menuControllerConstruct st).listeners)
      (Target.el b) "keydown" = countL st.listeners (Target.el b) "keydown" + 1 ∧
    countL ((menus.foldl menuControllerConstruct st).listeners)
      (Target.el b) "click" = countL st.listeners (Target.el b) "click" + 1 ∧
    attrAt (menus.foldl menuControllerConstruct st).root b "data-menu" =
      some "true" := by
  induction menus generalizing st with
  | nil =>
      obtain ⟨c, hc, -⟩ := hmem
      exact absurd hc (List.not_mem_nil _)
  | cons c0 rest ih =>
      rw [List.foldl_cons]
      have hct : ctrlTagAt st.root b = true := by
        obtain ⟨c, -, hmm⟩ := hmem
        obtain ⟨-, r, -, -, hqs, hpred⟩ := (mem_matchAddrs st.root c isCtrlSel b).1 hmm
        obtain ⟨e, he⟩ := Option.isSome_iff_exists.1 hqs
        rw [he] at hpred
        simp only [Option.map_some', Option.getD_some] at hpred
        rw [ctrlTagAt, he]
        simp only [Option.map_some', Option.getD_some]
        rw [isCtrlSel] at hpred
        simp only [Bool.and_eq_true] at hpred
        exact hpred.1
      by_cases hb0 : b ∈ matchAddrs st.root c0 isCtrlSel
      · obtain ⟨c1, c2, c3, c4, c5⟩ := mcc_binds st c0 b hb0 hm hsome
        obtain ⟨i1, i2⟩ := attachMCFold_marked rest (menuControllerConstruct st c0) b
          c3 c4
        exact ⟨by rw [i1 "keydown", c1], by rw [i1 "click", c2], i2⟩
      · obtain ⟨o1, o2, o3, o4⟩ := mcc_outside st c0 b hb0 hct
        have hmem' : ∃ c ∈ rest,
            b ∈ matchAddrs (menuControllerConstruct st c0).root c isCtrlSel := by
          obtain ⟨c, hc, hmm⟩ := hmem
          rcases List.mem_cons.1 hc with rfl | hcr
          · exact absurd hmm hb0
          · exact ⟨c, hcr, by rw [mcc_matchAddrs]; exact hmm⟩
        obtain ⟨i1, i2, i3⟩ := ih (menuControllerConstruct st c0) hmem'
          (by rw [o2]; exact hm) (by rw [o4]; exact hsome)
        exact ⟨by rw [i1, o1 "keydown"], by rw [i2, o1 "click"], i3⟩

theorem attachMenuControls_count (s : BindState) (b : Addr)
    (hmem : ∃ c ∈ (onceRun s.root "menuControl" isMenuContainer).1,
      b ∈ matchAddrs (onceRun s.root "menuControl" isMenuContainer).2 c isCtrlSel)
    (hm : attrAt (onceRun s.root "menuControl" isMenuContainer).2 b
      "data-menu" = none)
    (hsome : (getAt (onceRun s.root "menuControl" isMenuContainer).2 b).isSome =
      true) :
    countL ((attachMenuControls s).listeners) (Target.el b) "keydown" =
      countL s.listeners (Target.el b) "keydown" + 1 ∧
    countL ((attachMenuControls s).listeners) (Target.el b) "click" =
      countL s.listeners (Target.el b) "click" + 1 := by
  simp only [attachMenuControls]
  obtain ⟨h1, h2, -⟩ := attachMCFold (onceRun s.root "menuControl" isMenuContainer).1
    { s with root := (onceRun s.root "menuControl" isMenuContainer).2 } b hmem hm hsome
  exact ⟨h1, h2⟩

theorem mobileFold_counts (CS : List Addr) (st : BindState) (b : Addr) (ev : String)
    (hmob : ∀ c ∈ CS, ∀ raw btn', attrAt st.root c "data-mobile" = some raw →
      byId st.root (raw.replace "#" "") = some btn' → btn' ≠ b) :
    countL ((CS.foldl mobileInit st).listeners) (Target.el b) ev =
      countL st.listeners (Target.el b) ev ∧
    (CS.foldl mobileInit st).root = st.root := by
  induction CS generalizing st with
  | nil => exact ⟨rfl, rfl⟩
  | cons c rest ih =>
      rw [List.foldl_cons]
      have hstep_root : (mobileInit st c).root = st.root := by
        rw [mobileInit]
        rcases attrAt st.root c "data-mobile" with _ | raw
        · rfl
        · dsimp only
          rcases byId st.root (raw.replace "#" "") with _ | btn
          · rfl
          · rfl
      have hstep_cnt : countL (mobileInit st c).listeners (Target.el b) ev =
          countL st.listeners (Target.el b) ev := by
        rw [mobileInit]
        rcases ha : attrAt st.root c "data-mobile" with _ | raw
        · rfl
        · dsimp only
          rcases hbid : byId st.root (raw.replace "#" "") with _ | btn
          · rfl
          · dsimp only
            have hne : Target.el btn ≠ Target.el b := by
              intro hh
              injection hh with hh2
              exact hmob c (List.mem_cons_self _ _) raw btn ha hbid hh2
            show countL (st.listeners ++ _) _ _ = _
            rw [countL_append]
            simp [countL, hne]
      have hmob' : ∀ c' ∈ rest, ∀ raw btn',
          attrAt (mobileInit st c).root c' "data-mobile" = some raw →
          byId (mobileInit st c).root (raw.replace "#" "") = some btn' → btn' ≠ b := by
        intro c' hc' raw btn' hx hy
        rw [hstep_root] at hx hy
        exact hmob c' (List.mem_cons.2 (Or.inr hc')) raw btn' hx hy
      obtain ⟨i1, i2⟩ := ih (mobileInit st c) hmob'
      exact ⟨by rw [i1, hstep_cnt], by rw [i2, hstep_root]⟩

theorem attachMobileControls_counts (s : BindState) (b : Addr) (ev : String)
    (hmob : ∀ c ∈ (onceRun s.root "mobileMenuControls" (fun e =>
        isMenuContainer e && (getAttrL e.attrs "data-mobile").isSome)).1,
      ∀ raw btn',
        attrAt (onceRun s.root "mobileMenuControls" (fun e =>
          isMenuContainer e && (getAttrL e.attrs "data-mobile").isSome)).2 c
          "data-mobile" = some raw →
        byId (onceRun s.root "mobileMenuControls" (fun e =>
          isMenuContainer e && (getAttrL e.attrs "data-mobile").isSome)).2
          (raw.replace "#" "") = some btn' → btn' ≠ b) :
    countL ((attachMobileControls s).listeners) (Target.el b) ev =
      countL s.listeners (Target.el b) ev := by
  simp only [attachMobileControls]
  exact (mobileFold_counts _ _ b ev hmob).1

/-- C8: the first `init()` attaches exactly one keydown and one click
listener to a fresh Controller of a fresh container (the per-element
`data-menu` marker guards rebinding even across nested containers, and the
mobile stage binds only triggers); and a second `init()` on the resulting
state changes nothing at all, because every container now carries the
per-stage `data-once-*` markers. -/
theorem claim8_single_binding (s : BindState) (b : Addr)
    (hk0 : countL s.listeners (Target.el b) "keydown" = 0)
    (hc0 : countL s.listeners (Target.el b) "click" = 0)
    (hmem : ∃ c ∈ (onceRun (attachAriaControlsS s).root "menuControl"
        isMenuContainer).1,
      b ∈ matchAddrs (onceRun (attachAriaControlsS s).root "menuControl"
        isMenuContainer).2 c isCtrlSel)
    (hmenu : attrAt (onceRun (attachAriaControlsS s).root "menuControl"
      isMenuContainer).2 b "data-menu" = none)
    (hsome : (getAt (onceRun (attachAriaControlsS s).root "menuControl"
      isMenuContainer).2 b).isSome = true)
    (hmob : ∀ c ∈ (onceRun (attachMenuControls (attachAriaControlsS s)).root
        "mobileMenuControls" (fun e => isMenuContainer e &&
          (getAttrL e.attrs "data-mobile").isSome)).1,
      ∀ raw btn',
        attrAt (onceRun (attachMenuControls (attachAriaControlsS s)).root
          "mobileMenuControls" (fun e => isMenuContainer e &&
            (getAttrL e.attrs "data-mobile").isSome)).2 c "data-mobile" = some raw →
        byId (onceRun (attachMenuControls (attachAriaControlsS s)).root
          "mobileMenuControls" (fun e => isMenuContainer e &&
            (getAttrL e.attrs "data-mobile").isSome)).2
          (raw.replace "#" "") = some btn' → btn' ≠ b)
    (h1 : ∀ q ∈ matchAddrs (initRun s).root [] isMenuContainer,
      (attrAt (initRun s).root q "data-once-ariaControls").isSome = true ∧
      (attrAt (initRun s).root q "data-once-menuControl").isSome = true)
    (h2 : ∀ q ∈ matchAddrs (initRun s).root []
        (fun e => isMenuContainer e && (getAttrL e.attrs "data-mobile").isSome),
      (attrAt (initRun s).root q "data-once-mobileMenuControls").isSome = true) :
    countL (initRun s).listeners (Target.el b) "keydown" = 1 ∧
    countL (initRun s).listeners (Target.el b) "click" = 1 ∧
    initRun (initRun s) = initRun s := by
  have hMC := attachMenuControls_count (attachAriaControlsS s) b hmem hmenu hsome
  have hA : (attachAriaControlsS s).listeners = s.listeners := rfl
  refine ⟨?_, ?_, initRun_once (initRun s) h1 h2⟩
  · rw [initRun, attachMobileControls_counts _ b "keydown" hmob, hMC.1, hA, hk0]
  · rw [initRun, attachMobileControls_counts _ b "click" hmob, hMC.2, hA, hc0]

/-- Witness for C8 on the demo page: the About controller. -/
theorem claim8_witness :
    countL (initRun { root := demoRaw, listeners := [], ctr := 0 }).listeners
      (Target.el [0, 0, 1, 0]) "keydown" = 1 ∧
    countL (initRun { root := demoRaw, listeners := [], ctr := 0 }).listeners
      (Target.el [0, 0, 1, 0]) "click" = 1 ∧
    initRun (initRun { root := demoRaw, listeners := [], ctr := 0 }) =
      initRun { root := demoRaw, listeners := [], ctr := 0 } := by
  have h := claim8_single_binding { root := demoRaw, listeners := [], ctr := 0 }
    [0, 0, 1, 0] (by decide) (by decide) (by decide) (by decide) (by decide)
    (by
      intro c hc raw btn' hx hy
      have hnil : (onceRun (attachMenuControls (attachAriaControlsS
          { root := demoRaw, listeners := [], ctr := 0 })).root "mobileMenuControls"
          (fun e => isMenuContainer e &&
            (getAttrL e.attrs "data-mobile").isSome)).1 = [] := by
        decide
      rw [hnil] at hc
      exact absurd hc (List.not_mem_nil _))
    (by
      rw [initRun_demoRaw.1]
      decide)
    (by
      rw [initRun_demoRaw.1]
      decide)
  exact h

/-- C6 counterexample: the second Escape, pressed on the now-focused
controller of the collapsed submenu, moves no focus and leaves the parent
popup expanded — it does not close the parent popup one level up. -/
theorem claim6_counterexample :
    (onButtonKeydown demo2AfterEsc1 btnB2 "Escape" false true 5).map
      (fun r => (r.2, attrAt r.1 btnA2 "aria-expanded")) =
      some (none, some "true") := by
  decide

end AccMenu
